import Mathlib

/-!
Verification of the journaled world-state subsystem and handler pipeline of
an EVM executor (the `revm` core): the journal engine (`JournalInner`),
its checkpoint/revert discipline, the CALL dispatch gas rules, and the
handler error-recovery wiring.

The embedding follows `crates/context/src/journal/inner.rs`,
`crates/handler/src/handler.rs`, `crates/interpreter/src/instructions/contract.rs`
and `crates/interpreter/src/instructions/contract/call_helpers.rs`.
Parts of the repository that those files call into but whose sources are not
part of the four core files (the `state` crate's `Account`/`EvmStorageSlot`
methods, the journal-entry `revert` implementations of `entry.rs`, and the
gas constants) are modelled from the specification, as marked on each
definition.

Machine integers are modelled as `Nat` with explicit bounds: U256 values
live below `2 ^ 256` and checked/wrapping arithmetic is written out.
Hash maps are modelled as association lists with replace-or-append
insertion; all stated properties are at the level of `lookup`, matching
the key-value semantics of the Rust `HashMap`.
-/

namespace Revm

/-- 20-byte addresses, abstracted to naturals. -/
abbrev Addr := Nat

/-- 2^256, the first value outside the U256 range. -/
def u256Limit : Nat := 2 ^ 256

/-- `U256::checked_add`: `none` exactly when the mathematical sum leaves the range. -/
def checkedAdd (a b : Nat) : Option Nat :=
  if a + b < u256Limit then some (a + b) else none

/-- `U256::checked_sub`: `none` exactly when the subtrahend exceeds the minuend. -/
def checkedSub (a b : Nat) : Option Nat :=
  if b ≤ a then some (a - b) else none

/-- Wrapping U256 addition (`+=` on balances in release builds). -/
def wrapAdd (a b : Nat) : Nat := (a + b) % u256Limit

/-- Wrapping U256 subtraction (`-=` on balances in release builds). -/
def wrapSub (a b : Nat) : Nat := (a + u256Limit - b % u256Limit) % u256Limit

/-- `u64::MAX`. -/
def u64Max : Nat := 2 ^ 64 - 1

/-- Saturating u64 addition (`saturating_add`). -/
def satAdd64 (a b : Nat) : Nat := min (a + b) u64Max

/-!  ## Association-list maps

`HashMap`/`HashSet` of the Rust code are modelled as association lists with
replace-or-append insertion and filter-based removal; every property proved
about them is phrased through `lookupA`, i.e. at the key-value level at
which the Rust maps are compared. -/

/-- Association-list map. -/
abbrev AList (K V : Type) := List (K × V)

section AListOps

variable {K V : Type} [DecidableEq K]

/-- Lookup of the first binding of a key. -/
def lookupA : AList K V → K → Option V
  | [], _ => none
  | (k1, v1) :: t, k => if k1 = k then some v1 else lookupA t k

/-- Replace the first binding of the key, or append a fresh binding. -/
def insertA : AList K V → K → V → AList K V
  | [], k, v => [(k, v)]
  | (k1, v1) :: t, k, v => if k1 = k then (k, v) :: t else (k1, v1) :: insertA t k v

/-- Modify the value at a key if it is bound; do nothing otherwise. -/
def modifyA : AList K V → K → (V → V) → AList K V
  | [], _, _ => []
  | (k1, v1) :: t, k, f => if k1 = k then (k1, f v1) :: t else (k1, v1) :: modifyA t k f

/-- Remove every binding of a key. -/
def eraseA (l : AList K V) (k : K) : AList K V :=
  l.filter (fun p => ¬ p.1 = k)

theorem lookupA_insertA (l : AList K V) (k : K) (v : V) (k2 : K) :
    lookupA (insertA l k v) k2 = if k2 = k then some v else lookupA l k2 := by
  induction l with
  | nil =>
    simp only [insertA, lookupA]
    split_ifs <;> simp_all
  | cons hd tl ih =>
    obtain ⟨k1, v1⟩ := hd
    by_cases h1 : k1 = k
    · subst h1
      by_cases h2 : k2 = k1
      · subst h2
        simp [insertA, lookupA]
      · have h2s : ¬ k1 = k2 := fun hh => h2 hh.symm
        simp [insertA, lookupA, h2, h2s]
    · by_cases h2 : k2 = k
      · subst h2
        simp [insertA, lookupA, h1, ih]
      · simp [insertA, lookupA, h1, h2, ih]

theorem lookupA_modifyA (l : AList K V) (k : K) (f : V → V) (k2 : K) :
    lookupA (modifyA l k f) k2 =
      if k2 = k then (lookupA l k).map f else lookupA l k2 := by
  induction l with
  | nil =>
    simp only [modifyA, lookupA]
    split_ifs <;> simp_all
  | cons hd tl ih =>
    obtain ⟨k1, v1⟩ := hd
    by_cases h1 : k1 = k
    · subst h1
      by_cases h2 : k2 = k1
      · subst h2
        simp [modifyA, lookupA]
      · have h2s : ¬ k1 = k2 := fun hh => h2 hh.symm
        simp [modifyA, lookupA, h2, h2s]
    · by_cases h2 : k2 = k
      · subst h2
        simp [modifyA, lookupA, h1, ih]
      · simp [modifyA, lookupA, h1, h2, ih]

theorem lookupA_eraseA (l : AList K V) (k : K) (k2 : K) :
    lookupA (eraseA l k) k2 = if k2 = k then none else lookupA l k2 := by
  induction l with
  | nil =>
    simp only [eraseA, List.filter_nil, lookupA]
    split_ifs <;> simp_all
  | cons hd tl ih =>
    obtain ⟨k1, v1⟩ := hd
    by_cases h1 : k1 = k
    · by_cases h2 : k2 = k
      · simp [eraseA, List.filter_cons, h1, h2, lookupA]
        simpa [eraseA, h2] using ih
      · have h3 : ¬ k1 = k2 := fun hh => h2 (hh.symm.trans h1)
        have h4 : ¬ k = k2 := fun hh => h2 hh.symm
        simp [eraseA, List.filter_cons, h1, h2, h3, h4, lookupA]
        simpa [eraseA, h2] using ih
    · by_cases h3 : k1 = k2
      · have h2 : ¬ k2 = k := fun hh => h1 (h3.trans hh)
        simp [eraseA, List.filter_cons, h1, h2, h3, lookupA]
      · simp [eraseA, List.filter_cons, h1, h3, lookupA]
        simpa [eraseA] using ih

theorem lookupA_mem {l : AList K V} {k : K} {v : V} (h : lookupA l k = some v) :
    (k, v) ∈ l := by
  induction l with
  | nil => simp [lookupA] at h
  | cons hd tl ih =>
    obtain ⟨k1, v1⟩ := hd
    by_cases h1 : k1 = k
    · subst h1
      simp [lookupA] at h
      simp [h]
    · simp [lookupA, h1] at h
      exact List.mem_cons_of_mem _ (ih h)

theorem all_lookupA {l : AList K V} {p : K × V → Bool} (hall : l.all p = true)
    {k : K} {v : V} (h : lookupA l k = some v) : p (k, v) = true := by
  have hm := lookupA_mem h
  simp only [List.all_eq_true] at hall
  exact hall _ hm

theorem all_insertA {l : AList K V} {p : K × V → Bool} (hall : l.all p = true)
    {k : K} {v : V} (hv : p (k, v) = true) : (insertA l k v).all p = true := by
  induction l with
  | nil => simp [insertA, hv]
  | cons hd tl ih =>
    obtain ⟨k1, v1⟩ := hd
    simp only [List.all_cons, Bool.and_eq_true] at hall
    by_cases h1 : k1 = k
    · simp [insertA, h1, hv, hall.2]
    · simp [insertA, h1, hall.1, ih hall.2]

end AListOps

/-! ## Fork schedule, bytecode, accounts -/

/-- Hard-fork identifiers (`SpecId`), restricted to the forks named by the spec. -/
inductive SpecId
  | FRONTIER
  | HOMESTEAD
  | TANGERINE
  | SPURIOUS_DRAGON
  | BYZANTIUM
  | PETERSBURG
  | ISTANBUL
  | BERLIN
  | LONDON
  | SHANGHAI
  | CANCUN
  | PRAGUE
deriving DecidableEq, Repr

/-- Ordinal of a fork in chronological order. -/
def SpecId.ord : SpecId → Nat
  | .FRONTIER => 0
  | .HOMESTEAD => 1
  | .TANGERINE => 2
  | .SPURIOUS_DRAGON => 3
  | .BYZANTIUM => 4
  | .PETERSBURG => 5
  | .ISTANBUL => 6
  | .BERLIN => 7
  | .LONDON => 8
  | .SHANGHAI => 9
  | .CANCUN => 10
  | .PRAGUE => 11

/-- `SpecId::is_enabled_in(other)`: the current fork is at least `other`. -/
def SpecId.is_enabled_in (s other : SpecId) : Bool := other.ord ≤ s.ord

/-- The hash sentinel of empty code (`KECCAK_EMPTY`), abstracted to `0`. -/
def keccakEmpty : Nat := 0

/-- Bytecode: empty (`Bytecode::default()`), raw bytes, or an EIP-7702
delegation pointer. Modelled from the spec (the `bytecode` crate is outside
the four core source files). -/
inductive Bytecode
  | default
  | raw (bytes : List Nat)
  | eip7702 (delegate : Addr)
deriving DecidableEq, Repr

/-- `Bytecode::hash_slow`. Modelled from the spec: an abstract code-hash
function whose only pinned value is that empty code hashes to `KECCAK_EMPTY`. -/
def Bytecode.hash_slow : Bytecode → Nat
  | .default => keccakEmpty
  | .raw bytes => Nat.pair 1 (bytes.foldl (fun h b => Nat.pair h b) 0) + 1
  | .eip7702 delegate => Nat.pair 2 delegate + 1

/-- `AccountInfo { balance, nonce, code_hash, code }`. -/
structure AccountInfo where
  balance : Nat
  nonce : Nat
  codeHash : Nat
  code : Option Bytecode
deriving DecidableEq, Repr

/-- The default (empty) `AccountInfo`. -/
def AccountInfo.empty : AccountInfo :=
  { balance := 0, nonce := 0, codeHash := keccakEmpty, code := none }

/-- `EvmStorageSlot { original_value, present_value, transaction_id }`.
Modelled from the spec: the tx id of the last touch decides cold/warm. -/
structure EvmStorageSlot where
  originalValue : Nat
  presentValue : Nat
  transactionId : Nat
deriving DecidableEq, Repr

/-- `EvmStorageSlot::new(value, transaction_id)`. Modelled from the spec:
a fresh slot starts with `original_value = present_value = value`. -/
def EvmStorageSlot.new (value tid : Nat) : EvmStorageSlot :=
  { originalValue := value, presentValue := value, transactionId := tid }

/-- `Account { info, storage, status_flags, transaction_id }`. The status
flags and the warm/cold bookkeeping (`cold` together with `transactionId`,
realising the spec's "drop it from the warm set, or mark its tx-id as
stale") are modelled from the spec; the `state` crate is outside the four
core source files. -/
structure Account where
  info : AccountInfo
  storage : AList Nat EvmStorageSlot
  touched : Bool
  createdLocally : Bool
  createdGlobally : Bool
  selfdestructedLocally : Bool
  selfdestructedGlobally : Bool
  notExisting : Bool
  cold : Bool
  transactionId : Nat
deriving DecidableEq, Repr

namespace Account

/-- `Account::from(info)` at load time. Modelled from the spec: a loaded
account starts with no local flags and is warm for the loading tx. -/
def fromInfo (info : AccountInfo) (tid : Nat) : Account :=
  { info := info, storage := [], touched := false, createdLocally := false,
    createdGlobally := false, selfdestructedLocally := false,
    selfdestructedGlobally := false, notExisting := false, cold := false,
    transactionId := tid }

/-- `Account::new_not_existing(transaction_id)`. Modelled from the spec:
a `NotExisting` sentinel with empty info. -/
def newNotExisting (tid : Nat) : Account :=
  { fromInfo AccountInfo.empty tid with notExisting := true }

/-- `Account::mark_warm_with_transaction_id`. Modelled from the spec:
returns whether the account was cold (stale tx id or explicitly cold) and
marks it warm for the given tx. -/
def markWarmWithTransactionId (acc : Account) (tid : Nat) : Bool × Account :=
  (acc.cold || acc.transactionId != tid, { acc with cold := false, transactionId := tid })

/-- `Account::selfdestruct()`: wipe of a previous-tx selfdestructed account on
cold re-load. Modelled from the spec: "prior-tx selfdestruct fully wipes the
account at this point". -/
def wipe (acc : Account) : Account :=
  { acc with info := AccountInfo.empty, storage := [] }

/-- `Account::mark_created_locally`. Modelled from the spec: marks
`CreatedLocally` and `CreatedGlobally`, returning whether the account was
already created globally. -/
def markCreatedLocally (acc : Account) : Bool × Account :=
  (acc.createdGlobally, { acc with createdLocally := true, createdGlobally := true })

/-- `Account::is_empty` under EIP-161 / the pre-EIP-161 existence notion
(`state_clear_aware_is_empty`). Modelled from the spec. -/
def stateClearAwareIsEmpty (acc : Account) (spec : SpecId) : Bool :=
  if spec.is_enabled_in .SPURIOUS_DRAGON then
    acc.info.balance == 0 && acc.info.nonce == 0 && acc.info.codeHash == keccakEmpty
  else
    acc.notExisting

end Account

/-! ## Journal entries and their revert (modelled from the spec, §4.1) -/

/-- Three-valued selfdestruction revert status (`SelfdestructionRevertStatus`). -/
inductive SdStatus
  | globallySelfdestroyed
  | locallySelfdestroyed
  | repeatedSelfdestruction
deriving DecidableEq, Repr

/-- The journal entry variants (`JournalEntry`). -/
inductive Entry
  | accountWarmed (a : Addr)
  | accountTouched (a : Addr)
  | accountDestroyed (a t : Addr) (status : SdStatus) (hadBalance : Nat)
  | accountCreated (a : Addr) (wasGlobally : Bool)
  | balanceChanged (a : Addr) (old : Nat)
  | nonceChanged (a : Addr)
  | balanceTransfer (source dest : Addr) (amount : Nat)
  | codeChanged (a : Addr)
  | storageWarmed (a : Addr) (k : Nat)
  | storageChanged (a : Addr) (k : Nat) (old : Nat)
  | transientStorageChanged (a : Addr) (k : Nat) (old : Nat)
deriving DecidableEq, Repr

/-- The world state plus optional transient storage a revert acts on
(`&mut EvmState`, `Option<&mut TransientStorage>`). -/
abbrev RevState := AList Addr Account × Option (AList (Addr × Nat) Nat)

/-- `JournalEntry::revert(state, transient_storage, spurious_dragon_enabled)`.
Modelled from the spec: each variant undoes its mutation (`entry.rs` is
outside the four core source files); accounts named by an entry are modified
if present. The spurious-dragon flag changes nothing here, as the spec's
touch-revert "has no additional work" in either mode. -/
def revertEntry (e : Entry) (z : RevState) : RevState :=
  match e with
  | .accountWarmed a => (modifyA z.1 a (fun acc => { acc with cold := true }), z.2)
  | .accountTouched a => (modifyA z.1 a (fun acc => { acc with touched := false }), z.2)
  | .accountDestroyed a t status had =>
      let z1 := modifyA z.1 a (fun acc =>
        let acc := { acc with info := { acc.info with balance := wrapAdd acc.info.balance had } }
        match status with
        | .globallySelfdestroyed =>
            { acc with selfdestructedLocally := false, selfdestructedGlobally := false }
        | .locallySelfdestroyed => { acc with selfdestructedLocally := false }
        | .repeatedSelfdestruction => acc)
      let z2 := if a = t then z1
        else modifyA z1 t (fun acc =>
          { acc with info := { acc.info with balance := wrapSub acc.info.balance had } })
      (z2, z.2)
  | .accountCreated a wasGlobally =>
      (modifyA z.1 a (fun acc =>
        { acc with
          createdLocally := false,
          createdGlobally := if wasGlobally then acc.createdGlobally else false,
          info := { acc.info with nonce := 0, code := none } }), z.2)
  | .balanceChanged a old =>
      (modifyA z.1 a (fun acc => { acc with info := { acc.info with balance := old } }), z.2)
  | .nonceChanged a =>
      (modifyA z.1 a (fun acc => { acc with info := { acc.info with nonce := acc.info.nonce - 1 } }), z.2)
  | .balanceTransfer source dest amount =>
      let z1 := modifyA z.1 source (fun acc =>
        { acc with info := { acc.info with balance := wrapAdd acc.info.balance amount } })
      let z2 := modifyA z1 dest (fun acc =>
        { acc with info := { acc.info with balance := wrapSub acc.info.balance amount } })
      (z2, z.2)
  | .codeChanged a =>
      (modifyA z.1 a (fun acc =>
        { acc with info := { acc.info with code := none, codeHash := keccakEmpty } }), z.2)
  | .storageWarmed a k =>
      (modifyA z.1 a (fun acc => { acc with storage := eraseA acc.storage k }), z.2)
  | .storageChanged a k old =>
      (modifyA z.1 a (fun acc =>
        { acc with storage := modifyA acc.storage k (fun slot => { slot with presentValue := old }) }), z.2)
  | .transientStorageChanged a k old =>
      match z.2 with
      | none => z
      | some tt =>
          if old = 0 then (z.1, some (eraseA tt (a, k)))
          else (z.1, some (insertA tt (a, k) old))

/-- Revert a list of journal entries in reverse (LIFO) order, as
`journal.drain(i..).rev().for_each(revert)` does. -/
def revertAll (entries : List Entry) (z : RevState) : RevState :=
  entries.foldr (fun e acc => revertEntry e acc) z

theorem revertAll_append (l1 l2 : List Entry) (z : RevState) :
    revertAll (l1 ++ l2) z = revertAll l1 (revertAll l2 z) := by
  simp [revertAll, List.foldr_append]


/-! ## The journal state (`JournalInner`) and its operations -/

/-- The external database (`Database`), modelled as total lookup functions;
claims in scope concern the behaviour on successful database reads. -/
structure DB where
  basic : Addr → Option AccountInfo
  storage : Addr → Nat → Nat
  codeByHash : Nat → Bytecode

/-- `TransferError`. -/
inductive TransferError
  | outOfFunds
  | overflowPayment
  | createCollision
deriving DecidableEq, Repr

/-- `JournalCheckpoint { log_i, journal_i }`. -/
structure JournalCheckpoint where
  logI : Nat
  journalI : Nat
deriving DecidableEq, Repr

/-- `JournalInner`: live state, transient storage, logs, depth, journal,
transaction id, spec, warm-preload bookkeeping and precompile set. Logs are
abstracted to naturals. -/
structure JState where
  state : AList Addr Account
  transientStorage : AList (Addr × Nat) Nat
  logs : List Nat
  depth : Nat
  journal : List Entry
  transactionId : Nat
  spec : SpecId
  warmPreloadedAddresses : Finset Addr
  warmCoinbaseAddress : Option Addr
  precompiles : Finset Addr
deriving DecidableEq

/-- `JournalInner::touch_account`: push `AccountTouched` and set the flag,
only if the account is not yet touched. -/
def touchAccount (journal : List Entry) (a : Addr) (acc : Account) :
    List Entry × Account :=
  if acc.touched then (journal, acc)
  else (journal ++ [Entry.accountTouched a], { acc with touched := true })

/-- `JournalInner::touch`: touch the account if it is present in state. -/
def touchF (a : Addr) (s : JState) : JState :=
  match lookupA s.state a with
  | none => s
  | some acc =>
      let p := touchAccount s.journal a acc
      { s with journal := p.1, state := insertA s.state a p.2 }

/-- Result of `sload_with_account`. -/
structure SloadRes where
  value : Nat
  isCold : Bool
  account : Account
  journal : List Entry

/-- Free function `sload_with_account`: warm or insert the storage slot,
journaling `StorageWarmed` on a cold access; a slot missing on an account
created in this tx reads as zero without a database round-trip. -/
def sloadWithAccount (db : DB) (tid : Nat) (a : Addr) (k : Nat)
    (acc : Account) (journal : List Entry) : SloadRes :=
  let isNewlyCreated := acc.createdLocally
  match lookupA acc.storage k with
  | some slot =>
      let isCold := slot.transactionId != tid
      let slot1 := { slot with transactionId := tid }
      { value := slot.presentValue, isCold := isCold,
        account := { acc with storage := insertA acc.storage k slot1 },
        journal := if isCold then journal ++ [Entry.storageWarmed a k] else journal }
  | none =>
      let value := if isNewlyCreated then 0 else db.storage a k
      { value := value, isCold := true,
        account := { acc with storage := insertA acc.storage k (EvmStorageSlot.new value tid) },
        journal := journal ++ [Entry.storageWarmed a k] }

/-- `JournalInner::load_account_optional`: warm or insert the account,
clearing stale local flags on a cold re-hit, journaling `AccountWarmed`
on a cold access, optionally attaching code and pre-warming storage keys. -/
def loadAccountOptional (db : DB) (a : Addr) (withCode : Bool)
    (keys : List Nat) (s : JState) : Bool × JState :=
  let r : Bool × Account :=
    match lookupA s.state a with
    | some acc0 =>
        let w := acc0.markWarmWithTransactionId s.transactionId
        let acc2 :=
          if w.1 then
            let acc1a :=
              if w.2.selfdestructedLocally then
                { w.2.wipe with selfdestructedLocally := false }
              else w.2
            { acc1a with createdLocally := false }
          else w.2
        (w.1, acc2)
    | none =>
        let acc :=
          match db.basic a with
          | some info => Account.fromInfo info s.transactionId
          | none => Account.newNotExisting s.transactionId
        (!(decide (a ∈ s.warmPreloadedAddresses)) &&
           !(decide (s.warmCoinbaseAddress = some a)), acc)
  let isCold := r.1
  let journal1 := if isCold then s.journal ++ [Entry.accountWarmed a] else s.journal
  let acc3 :=
    if withCode ∧ r.2.info.code = none then
      { r.2 with info := { r.2.info with
          code := some (if r.2.info.codeHash = keccakEmpty then Bytecode.default
                        else db.codeByHash r.2.info.codeHash) } }
    else r.2
  let fr := keys.foldl (fun (p : Account × List Entry) k =>
      let q := sloadWithAccount db s.transactionId a k p.1 p.2
      (q.account, q.journal)) (acc3, journal1)
  (isCold, { s with state := insertA s.state a fr.1, journal := fr.2 })

/-- `JournalInner::load_account`. -/
def loadAccount (db : DB) (a : Addr) (s : JState) : Bool × JState :=
  loadAccountOptional db a false [] s

/-- `JournalInner::load_code`. -/
def loadCodeF (db : DB) (a : Addr) (s : JState) : Bool × JState :=
  loadAccountOptional db a true [] s

/-- `JournalInner::set_code_with_hash`: touch, journal `CodeChanged`, install. -/
def setCodeWithHash (a : Addr) (code : Bytecode) (hash : Nat) (s : JState) :
    Option JState :=
  match lookupA s.state a with
  | none => none
  | some acc =>
      let p := touchAccount s.journal a acc
      let acc2 := { p.2 with info := { p.2.info with codeHash := hash, code := some code } }
      some { s with journal := p.1 ++ [Entry.codeChanged a], state := insertA s.state a acc2 }

/-- `JournalInner::set_code`: an EIP-7702 bytecode delegating to the zero
address erases the bytecode; otherwise install the code under its slow hash. -/
def setCode (a : Addr) (code : Bytecode) (s : JState) : Option JState :=
  match code with
  | .eip7702 delegate =>
      if delegate = 0 then setCodeWithHash a Bytecode.default keccakEmpty s
      else setCodeWithHash a code code.hash_slow s
  | _ => setCodeWithHash a code code.hash_slow s

/-- `JournalInner::transfer`: zero amounts only load and touch `to`;
otherwise load both, touch `from`, check funds, debit, touch `to`, check
overflow, credit, and journal a single `BalanceTransfer`.  On
`OverflowPayment` the debit of `from` is deliberately kept. -/
def transferF (db : DB) (source dest : Addr) (amount : Nat) (s : JState) :
    Option (Option TransferError × JState) :=
  if amount = 0 then
    let s1 := (loadAccount db dest s).2
    match lookupA s1.state dest with
    | none => none
    | some accT =>
        let p := touchAccount s1.journal dest accT
        some (none, { s1 with journal := p.1, state := insertA s1.state dest p.2 })
  else
    let s1 := (loadAccount db source s).2
    let s2 := (loadAccount db dest s1).2
    match lookupA s2.state source with
    | none => none
    | some accF =>
        let pF := touchAccount s2.journal source accF
        match checkedSub pF.2.info.balance amount with
        | none =>
            some (some TransferError.outOfFunds,
              { s2 with journal := pF.1, state := insertA s2.state source pF.2 })
        | some newFrom =>
            let accF2 := { pF.2 with info := { pF.2.info with balance := newFrom } }
            let s3 := { s2 with journal := pF.1, state := insertA s2.state source accF2 }
            match lookupA s3.state dest with
            | none => none
            | some accT =>
                let pT := touchAccount s3.journal dest accT
                match checkedAdd pT.2.info.balance amount with
                | none =>
                    some (some TransferError.overflowPayment,
                      { s3 with journal := pT.1, state := insertA s3.state dest pT.2 })
                | some newTo =>
                    let accT2 := { pT.2 with info := { pT.2.info with balance := newTo } }
                    some (none,
                      { s3 with
                          journal := pT.1 ++ [Entry.balanceTransfer source dest amount],
                          state := insertA s3.state dest accT2 })

/-- `JournalInner::checkpoint`: capture the log/journal lengths, bump depth. -/
def checkpointF (s : JState) : JournalCheckpoint × JState :=
  ({ logI := s.logs.length, journalI := s.journal.length }, { s with depth := s.depth + 1 })

/-- `JournalInner::checkpoint_commit`. -/
def checkpointCommit (s : JState) : JState := { s with depth := s.depth - 1 }

/-- `JournalInner::checkpoint_revert`: drain the entries past the checkpoint
in reverse order, reverting each with access to transient storage; truncate
the logs; decrement depth. -/
def checkpointRevert (c : JournalCheckpoint) (s : JState) : JState :=
  let z := revertAll (s.journal.drop c.journalI) (s.state, some s.transientStorage)
  { s with depth := s.depth - 1,
           logs := s.logs.take c.logI,
           journal := s.journal.take c.journalI,
           state := z.1,
           transientStorage := z.2.getD s.transientStorage }

/-- `JournalInner::create_account_checkpoint`: checkpoint; balance check;
collision check; mark created; clear code; bump nonce on Spurious Dragon;
touch; credit target (checked); debit caller; journal the transfer. -/
def createAccountCheckpoint (caller target : Addr) (balance : Nat)
    (specId : SpecId) (s : JState) :
    Option (Except TransferError JournalCheckpoint × JState) :=
  let cp := (checkpointF s).1
  let s0 := (checkpointF s).2
  match lookupA s0.state caller with
  | none => none
  | some accC =>
    if accC.info.balance < balance then
      some (Except.error TransferError.outOfFunds, checkpointRevert cp s0)
    else
      match lookupA s0.state target with
      | none => none
      | some accT =>
        if accT.info.codeHash ≠ keccakEmpty ∨ accT.info.nonce ≠ 0 then
          some (Except.error TransferError.createCollision, checkpointRevert cp s0)
        else
          let mc := accT.markCreatedLocally
          let journal1 := s0.journal ++ [Entry.accountCreated target mc.1]
          let accT2 := { mc.2 with info := { mc.2.info with
              code := none,
              nonce := if specId.is_enabled_in .SPURIOUS_DRAGON then 1 else mc.2.info.nonce } }
          let pT := touchAccount journal1 target accT2
          match checkedAdd pT.2.info.balance balance with
          | none =>
              some (Except.error TransferError.overflowPayment,
                checkpointRevert cp
                  { s0 with journal := pT.1, state := insertA s0.state target pT.2 })
          | some newBal =>
              let accT3 := { pT.2 with info := { pT.2.info with balance := newBal } }
              let s1 := { s0 with journal := pT.1, state := insertA s0.state target accT3 }
              match lookupA s1.state caller with
              | none => none
              | some accC1 =>
                  let accC2 := { accC1 with info := { accC1.info with
                      balance := accC1.info.balance - balance } }
                  some (Except.ok cp,
                    { s1 with
                        journal := s1.journal ++ [Entry.balanceTransfer caller target balance],
                        state := insertA s1.state caller accC2 })

/-- `SelfDestructResult`. -/
structure SelfDestructResult where
  hadValue : Bool
  targetExists : Bool
  previouslyDestroyed : Bool
deriving DecidableEq, Repr

/-- `JournalInner::selfdestruct`: load the target; transfer the balance to a
distinct target (touching it); compute the three-valued revert status;
destroy only when created locally or before Cancun (EIP-6780), otherwise
journal a plain balance transfer, or nothing when the target is the account
itself. Returns the result together with the target-load coldness. -/
def selfdestructF (db : DB) (a t : Addr) (s : JState) :
    Option (SelfDestructResult × Bool × JState) :=
  let l := loadAccount db t s
  let s1 := l.2
  match lookupA s1.state t with
  | none => none
  | some accT =>
    let isEmpty := accT.stateClearAwareIsEmpty s.spec
    let os2 : Option JState :=
      if a = t then some s1
      else
        match lookupA s1.state a with
        | none => none
        | some accA =>
            let p := touchAccount s1.journal t accT
            let accT2 := { p.2 with info := { p.2.info with
                balance := wrapAdd p.2.info.balance accA.info.balance } }
            some { s1 with journal := p.1, state := insertA s1.state t accT2 }
    match os2 with
    | none => none
    | some s2 =>
      match lookupA s2.state a with
      | none => none
      | some acc =>
        let balance := acc.info.balance
        let destroyedStatus :=
          if ¬ acc.selfdestructedGlobally then SdStatus.globallySelfdestroyed
          else if ¬ acc.selfdestructedLocally then SdStatus.locallySelfdestroyed
          else SdStatus.repeatedSelfdestruction
        let isCancunEnabled := s.spec.is_enabled_in .CANCUN
        let step : Option Entry × Account :=
          if acc.createdLocally ∨ isCancunEnabled = false then
            (some (Entry.accountDestroyed a t destroyedStatus balance),
             { acc with selfdestructedLocally := true, selfdestructedGlobally := true,
                        info := { acc.info with balance := 0 } })
          else if a ≠ t then
            (some (Entry.balanceTransfer a t balance),
             { acc with info := { acc.info with balance := 0 } })
          else (none, acc)
        let s3 :=
          { s2 with state := insertA s2.state a step.2,
                    journal := match step.1 with
                      | some e => s2.journal ++ [e]
                      | none => s2.journal }
        some ({ hadValue := balance != 0,
                targetExists := !isEmpty,
                previouslyDestroyed :=
                  decide (destroyedStatus = SdStatus.repeatedSelfdestruction) },
              l.1, s3)

/-- `JournalInner::sload`: requires the account to be loaded. -/
def sloadF (db : DB) (a : Addr) (k : Nat) (s : JState) :
    Option (Nat × Bool × JState) :=
  match lookupA s.state a with
  | none => none
  | some acc =>
      let r := sloadWithAccount db s.transactionId a k acc s.journal
      some (r.value, r.isCold,
        { s with state := insertA s.state a r.account, journal := r.journal })

/-- `SStoreResult` (original, present-before-write, new). -/
structure SStoreResult where
  originalValue : Nat
  presentValue : Nat
  newValue : Nat
deriving DecidableEq, Repr

/-- `JournalInner::sstore`: sload, then journal `StorageChanged` and write
only when the value changes. -/
def sstoreF (db : DB) (a : Addr) (k new : Nat) (s : JState) :
    Option (SStoreResult × Bool × JState) :=
  match sloadF db a k s with
  | none => none
  | some (present, isCold, s1) =>
    match lookupA s1.state a with
    | none => none
    | some acc =>
      match lookupA acc.storage k with
      | none => none
      | some slot =>
        if present = new then
          some ({ originalValue := slot.originalValue, presentValue := present,
                  newValue := new }, isCold, s1)
        else
          let slot1 := { slot with presentValue := new }
          some ({ originalValue := slot1.originalValue, presentValue := present,
                  newValue := new }, isCold,
            { s1 with journal := s1.journal ++ [Entry.storageChanged a k present],
                      state := insertA s1.state a
                        { acc with storage := insertA acc.storage k slot1 } })

/-- `JournalInner::tload`. -/
def tloadF (a : Addr) (k : Nat) (s : JState) : Nat :=
  (lookupA s.transientStorage (a, k)).getD 0

/-- `JournalInner::tstore`: a zero value removes the entry (journaling the
removed previous value); a nonzero value inserts, journaling the previous
value only when it differs. -/
def tstoreF (a : Addr) (k new : Nat) (s : JState) : JState :=
  if new = 0 then
    match lookupA s.transientStorage (a, k) with
    | some had =>
        { s with transientStorage := eraseA s.transientStorage (a, k),
                 journal := s.journal ++ [Entry.transientStorageChanged a k had] }
    | none => { s with transientStorage := eraseA s.transientStorage (a, k) }
  else
    let prev := (lookupA s.transientStorage (a, k)).getD 0
    let tt := insertA s.transientStorage (a, k) new
    if prev ≠ new then
      { s with transientStorage := tt,
               journal := s.journal ++ [Entry.transientStorageChanged a k prev] }
    else { s with transientStorage := tt }

/-- `JournalInner::log`. -/
def logF (l : Nat) (s : JState) : JState := { s with logs := s.logs ++ [l] }

/-- Free function `reset_preloaded_addresses`: skip the clone when the
lengths agree (warm-preloaded is append-only over the precompiles). -/
def resetPreloadedAddresses (warm pre : Finset Addr) : Finset Addr :=
  if warm.card = pre.card then warm else pre

/-- `JournalInner::commit_tx`: clear transient storage, depth, journal,
coinbase warming and logs; reset warm-preloaded to the precompiles; bump the
transaction id. State is retained. -/
def commitTx (s : JState) : JState :=
  { s with transientStorage := [], depth := 0, journal := [], logs := [],
           warmCoinbaseAddress := none,
           warmPreloadedAddresses :=
             resetPreloadedAddresses s.warmPreloadedAddresses s.precompiles,
           transactionId := s.transactionId + 1 }

/-- `JournalInner::discard_tx`: revert all journal entries in reverse order
(without transient-storage access), then clear as `commit_tx` does. -/
def discardTx (s : JState) : JState :=
  let z := revertAll s.journal (s.state, none)
  { s with state := z.1, transientStorage := [], depth := 0, logs := [],
           journal := [],
           transactionId := s.transactionId + 1,
           warmCoinbaseAddress := none,
           warmPreloadedAddresses :=
             resetPreloadedAddresses s.warmPreloadedAddresses s.precompiles }

/-- `JournalInner::finalize`: take the state, reset everything including the
transaction id. -/
def finalizeF (s : JState) : AList Addr Account × JState :=
  (s.state,
   { s with warmCoinbaseAddress := none,
            warmPreloadedAddresses :=
              resetPreloadedAddresses s.warmPreloadedAddresses s.precompiles,
            state := [], logs := [], transientStorage := [], journal := [],
            depth := 0, transactionId := 0 })


/-! ## Basic lemmas about the journal operations -/

theorem insertA_lookup_self {K V : Type} [DecidableEq K] {l : AList K V} {k : K} {v : V}
    (h : lookupA l k = some v) : insertA l k v = l := by
  induction l with
  | nil => simp [lookupA] at h
  | cons hd tl ih =>
    obtain ⟨k1, v1⟩ := hd
    by_cases h1 : k1 = k
    · subst h1
      simp [lookupA] at h
      simp [insertA, h]
    · simp [lookupA, h1] at h
      simp [insertA, h1, ih h]

/-- A present account with no stale local flags loads by warming in place:
the cold bit is computed from the stored cold flag and tx id, and a cold
access journals `AccountWarmed`. -/
theorem loadAccount_present (db : DB) (a : Addr) (s : JState) (acc : Account)
    (h : lookupA s.state a = some acc)
    (hsd : acc.selfdestructedLocally = false)
    (hcl : acc.createdLocally = false) :
    loadAccount db a s =
      (acc.cold || acc.transactionId != s.transactionId,
       { s with
           state := insertA s.state a
             { acc with cold := false, transactionId := s.transactionId },
           journal := s.journal ++ (if acc.cold || acc.transactionId != s.transactionId
                      then [Entry.accountWarmed a] else []) }) := by
  unfold loadAccount loadAccountOptional
  rw [h]
  simp only [Account.markWarmWithTransactionId, hsd, hcl, if_false, Bool.false_eq_true]
  by_cases hc : (acc.cold || acc.transactionId != s.transactionId) = true
  · simp [hc, Account.wipe]
  · simp [hc]

/-- A warm present account loads as a no-op. -/
theorem loadAccount_warm (db : DB) (a : Addr) (s : JState) (acc : Account)
    (h : lookupA s.state a = some acc)
    (hw : acc.cold = false) (ht : acc.transactionId = s.transactionId) :
    loadAccount db a s = (false, s) := by
  have hcold : (acc.cold || acc.transactionId != s.transactionId) = false := by
    simp [hw, ht]
  have hacc : { acc with cold := false, transactionId := s.transactionId } = acc := by
    cases acc
    simp_all
  unfold loadAccount loadAccountOptional
  rw [h]
  simp only [Account.markWarmWithTransactionId, hcold]
  simp [hacc, insertA_lookup_self h]

/-- Reverting a checkpoint with no entries or logs after it is the identity
up to the depth decrement, hence exactly inverse to taking the checkpoint. -/
theorem checkpointRevert_immediate (s : JState) :
    checkpointRevert (checkpointF s).1 (checkpointF s).2 = s := by
  unfold checkpointRevert checkpointF revertAll
  simp


/-! ## Shared concrete fixtures for witnesses and counterexamples -/

/-- A database with no accounts, zero storage and empty code. -/
def dbEmpty : DB :=
  { basic := fun _ => none, storage := fun _ _ => 0, codeByHash := fun _ => Bytecode.default }

/-- An account with the given balance, clean flags, warm for tx 0. -/
def mkAcc (bal : Nat) : Account :=
  Account.fromInfo { AccountInfo.empty with balance := bal } 0

/-- A base journal state for tx 0 under a given spec. -/
def mkState (spec : SpecId) (st : AList Addr Account) : JState :=
  { state := st, transientStorage := [], logs := [], depth := 0, journal := [],
    transactionId := 0, spec := spec,
    warmPreloadedAddresses := ∅, warmCoinbaseAddress := none, precompiles := ∅ }

/-! ## C4: transaction boundaries -/

theorem resetPreloadedAddresses_eq {warm pre : Finset Addr} (h : pre ⊆ warm) :
    resetPreloadedAddresses warm pre = pre := by
  unfold resetPreloadedAddresses
  split_ifs with hc
  · exact (Finset.eq_of_subset_of_card_le h (le_of_eq hc)).symm
  · rfl

/-- C4: after `commit_tx()` or `discard_tx()`, depth is zero, the journal,
logs and transient storage are empty, the coinbase warming is cleared, the
warm-preloaded set equals exactly the precompiles, and the transaction id
grows by exactly one — given the invariant that the warm-preloaded set
contains the precompiles. -/
theorem commit_discard_tx_boundary (s : JState)
    (h : s.precompiles ⊆ s.warmPreloadedAddresses) :
    ((commitTx s).depth = 0 ∧ (commitTx s).journal = [] ∧ (commitTx s).logs = [] ∧
      (commitTx s).transientStorage = [] ∧ (commitTx s).warmCoinbaseAddress = none ∧
      (commitTx s).warmPreloadedAddresses = s.precompiles ∧
      (commitTx s).transactionId = s.transactionId + 1) ∧
    ((discardTx s).depth = 0 ∧ (discardTx s).journal = [] ∧ (discardTx s).logs = [] ∧
      (discardTx s).transientStorage = [] ∧ (discardTx s).warmCoinbaseAddress = none ∧
      (discardTx s).warmPreloadedAddresses = s.precompiles ∧
      (discardTx s).transactionId = s.transactionId + 1) := by
  refine ⟨⟨rfl, rfl, rfl, rfl, rfl, ?_, rfl⟩, ⟨rfl, rfl, rfl, rfl, rfl, ?_, rfl⟩⟩ <;>
    simpa [commitTx, discardTx] using resetPreloadedAddresses_eq h

/-- Witness for C4 at a concrete state. -/
theorem commit_discard_tx_boundary_witness :
    (mkState SpecId.CANCUN [(1, mkAcc 5)]).precompiles ⊆
        (mkState SpecId.CANCUN [(1, mkAcc 5)]).warmPreloadedAddresses ∧
      ((commitTx (mkState SpecId.CANCUN [(1, mkAcc 5)])).transactionId = 0 + 1 ∧
        (discardTx (mkState SpecId.CANCUN [(1, mkAcc 5)])).warmPreloadedAddresses = ∅) := by
  have h : (mkState SpecId.CANCUN [(1, mkAcc 5)]).precompiles ⊆
      (mkState SpecId.CANCUN [(1, mkAcc 5)]).warmPreloadedAddresses := by
    simp [mkState]
  have hmain := commit_discard_tx_boundary (mkState SpecId.CANCUN [(1, mkAcc 5)]) h
  exact ⟨h, hmain.1.2.2.2.2.2.2, hmain.2.2.2.2.2.2.1⟩

/-! ## C9: `set_code` with an EIP-7702 delegation to the zero address -/

/-- C9: installing EIP-7702 bytecode whose delegate is the zero address via
`set_code` erases the delegation: empty bytecode with `KECCAK_EMPTY` hash is
installed instead, the account is touched, and a `CodeChanged` entry is
appended (after an `AccountTouched` entry when the account was untouched). -/
theorem setCode_eip7702_zero_erases (a : Addr) (s : JState) (acc : Account)
    (h : lookupA s.state a = some acc) :
    ∃ s1, setCode a (Bytecode.eip7702 0) s = some s1 ∧
      (∃ acc1, lookupA s1.state a = some acc1 ∧
        acc1.info.code = some Bytecode.default ∧
        acc1.info.codeHash = keccakEmpty ∧
        acc1.touched = true) ∧
      s1.journal = s.journal ++ (if acc.touched then [] else [Entry.accountTouched a])
        ++ [Entry.codeChanged a] := by
  by_cases ht : acc.touched = true
  · have hs : setCode a (Bytecode.eip7702 0) s = some
        { s with journal := s.journal ++ [Entry.codeChanged a],
                 state := insertA s.state a
                   { acc with info := { acc.info with
                       codeHash := keccakEmpty, code := some Bytecode.default } } } := by
      simp [setCode, setCodeWithHash, touchAccount, h, ht]
    refine ⟨_, hs, ⟨{ acc with info := { acc.info with
        codeHash := keccakEmpty, code := some Bytecode.default } },
        by simp [lookupA_insertA], rfl, rfl, by simpa using ht⟩, by simp [ht]⟩
  · have hs : setCode a (Bytecode.eip7702 0) s = some
        { s with journal := s.journal ++ [Entry.accountTouched a, Entry.codeChanged a],
                 state := insertA s.state a
                   { acc with touched := true, info := { acc.info with
                       codeHash := keccakEmpty, code := some Bytecode.default } } } := by
      simp [setCode, setCodeWithHash, touchAccount, h, ht]
    refine ⟨_, hs, ⟨{ acc with touched := true, info := { acc.info with
        codeHash := keccakEmpty, code := some Bytecode.default } },
        by simp [lookupA_insertA], rfl, rfl, rfl⟩, by simp [ht]⟩

/-- Witness for C9 at a concrete account. -/
theorem setCode_eip7702_zero_erases_witness :
    lookupA (mkState SpecId.PRAGUE [(1, mkAcc 5)]).state 1 = some (mkAcc 5) ∧
      ∃ s1, setCode 1 (Bytecode.eip7702 0) (mkState SpecId.PRAGUE [(1, mkAcc 5)]) = some s1 ∧
        (∃ acc1, lookupA s1.state 1 = some acc1 ∧
          acc1.info.code = some Bytecode.default ∧
          acc1.info.codeHash = keccakEmpty ∧
          acc1.touched = true) ∧
        s1.journal = (mkState SpecId.PRAGUE [(1, mkAcc 5)]).journal ++
          (if (mkAcc 5).touched then [] else [Entry.accountTouched 1]) ++ [Entry.codeChanged 1] :=
  ⟨by decide, setCode_eip7702_zero_erases 1 (mkState SpecId.PRAGUE [(1, mkAcc 5)]) (mkAcc 5) (by decide)⟩


/-! ## C2 / C10: `transfer` error paths -/

/-- `touch_account` in closed form: append the touch entry exactly when the
account is untouched, and set the flag. -/
theorem touchAccount_eq (journal : List Entry) (a : Addr) (acc : Account) :
    touchAccount journal a acc =
      (journal ++ (if acc.touched then [] else [Entry.accountTouched a]),
       { acc with touched := true }) := by
  unfold touchAccount
  by_cases ht : acc.touched = true
  · have hacc : { acc with touched := true } = acc := by
      cases acc
      simp_all
    simp [ht, hacc]
  · simp [ht]

/-- Counterexample to C2 as stated: with `from.balance = 5`,
`to.balance = U256::MAX` and `amt = 1`, `transfer` returns
`Ok(Some(OverflowPayment))` but `from`'s balance has become `4`. -/
theorem transfer_overflow_balance_counterexample :
    (transferF dbEmpty 1 2 1
        (mkState SpecId.CANCUN [(1, mkAcc 5), (2, mkAcc (u256Limit - 1))])).map
      (fun p => (p.1, (lookupA p.2.state 1).map (fun a => a.info.balance),
        (lookupA p.2.state 2).map (fun a => a.info.balance))) =
      some (some TransferError.overflowPayment, some 4, some (u256Limit - 1)) ∧
    (lookupA (mkState SpecId.CANCUN [(1, mkAcc 5), (2, mkAcc (u256Limit - 1))]).state 1).map
        (fun a => a.info.balance) = some 5 := by
  constructor <;> decide

/-- C2 (amended): on the `OverflowPayment` path, `to`'s balance is unchanged
and no `BalanceTransfer` entry is appended (only load/touch bookkeeping is),
but `from`'s balance has been debited by `amt` and deliberately stays so. -/
theorem transfer_overflow_effects
    (db : DB) (s : JState) (source dest : Addr) (amount : Nat) (accF accT : Account)
    (hF : lookupA s.state source = some accF) (hT : lookupA s.state dest = some accT)
    (hFw : accF.cold = false) (hFt : accF.transactionId = s.transactionId)
    (hTw : accT.cold = false) (hTt : accT.transactionId = s.transactionId)
    (hne : source ≠ dest) (hamt : amount ≠ 0)
    (hsub : amount ≤ accF.info.balance)
    (hover : u256Limit ≤ accT.info.balance + amount) :
    ∃ s1, transferF db source dest amount s = some (some TransferError.overflowPayment, s1) ∧
      (∃ a1, lookupA s1.state source = some a1 ∧
        a1.info.balance = accF.info.balance - amount ∧ a1.touched = true) ∧
      (∃ a2, lookupA s1.state dest = some a2 ∧
        a2.info.balance = accT.info.balance ∧ a2.touched = true) ∧
      s1.journal = s.journal ++ (if accF.touched then [] else [Entry.accountTouched source])
        ++ (if accT.touched then [] else [Entry.accountTouched dest]) := by
  have hl1 : loadAccount db source s = (false, s) :=
    loadAccount_warm db source s accF hF hFw hFt
  have hl2 : loadAccount db dest s = (false, s) :=
    loadAccount_warm db dest s accT hT hTw hTt
  have hdest : ¬ dest = source := fun hh => hne hh.symm
  have hsub2 : checkedSub accF.info.balance amount = some (accF.info.balance - amount) := by
    unfold checkedSub
    rw [if_pos hsub]
  have hadd : checkedAdd accT.info.balance amount = none := by
    unfold checkedAdd
    rw [if_neg (by omega)]
  unfold transferF
  simp only [if_neg hamt, hl1, hl2, hF, hT, touchAccount_eq, lookupA_insertA, hdest, if_false,
    hsub2, hadd]
  refine ⟨_, rfl,
    ⟨{ accF with touched := true, info := { accF.info with balance := accF.info.balance - amount } },
      ?_, rfl, rfl⟩,
    ⟨{ accT with touched := true }, ?_, rfl, rfl⟩, rfl⟩
  · rw [lookupA_insertA, if_neg hne, lookupA_insertA, if_pos rfl]
  · rw [lookupA_insertA, if_pos rfl]

/-- Witness for the amended C2. -/
theorem transfer_overflow_effects_witness :
    ∃ s1, transferF dbEmpty 1 2 1
          (mkState SpecId.CANCUN [(1, mkAcc 5), (2, mkAcc (u256Limit - 1))]) =
        some (some TransferError.overflowPayment, s1) ∧
      (∃ a1, lookupA s1.state 1 = some a1 ∧
        a1.info.balance = (mkAcc 5).info.balance - 1 ∧ a1.touched = true) ∧
      (∃ a2, lookupA s1.state 2 = some a2 ∧
        a2.info.balance = (mkAcc (u256Limit - 1)).info.balance ∧ a2.touched = true) ∧
      s1.journal = (mkState SpecId.CANCUN [(1, mkAcc 5), (2, mkAcc (u256Limit - 1))]).journal
        ++ (if (mkAcc 5).touched then [] else [Entry.accountTouched 1])
        ++ (if (mkAcc (u256Limit - 1)).touched then [] else [Entry.accountTouched 2]) :=
  transfer_overflow_effects dbEmpty
    (mkState SpecId.CANCUN [(1, mkAcc 5), (2, mkAcc (u256Limit - 1))]) 1 2 1
    (mkAcc 5) (mkAcc (u256Limit - 1)) (by decide) (by decide) rfl rfl rfl rfl
    (by decide) (by decide) (by decide) (by simp [mkAcc, Account.fromInfo, u256Limit])


/-- C10: `transfer` with insufficient funds returns `Ok(Some(OutOfFunds))`
with both balances unchanged, but it is not side-effect free: both accounts
have been loaded (an `AccountWarmed` entry is appended for each cold one)
and `from` has been marked touched (with an `AccountTouched` entry when it
was untouched), while `to`'s touched flag is unchanged. -/
theorem transfer_out_of_funds_effects
    (db : DB) (s : JState) (source dest : Addr) (amount : Nat) (accF accT : Account)
    (hF : lookupA s.state source = some accF) (hT : lookupA s.state dest = some accT)
    (hFsd : accF.selfdestructedLocally = false) (hFcl : accF.createdLocally = false)
    (hTsd : accT.selfdestructedLocally = false) (hTcl : accT.createdLocally = false)
    (hne : source ≠ dest) (hamt : amount ≠ 0)
    (hlt : accF.info.balance < amount) :
    ∃ s1, transferF db source dest amount s = some (some TransferError.outOfFunds, s1) ∧
      (∃ a1, lookupA s1.state source = some a1 ∧
        a1.info.balance = accF.info.balance ∧ a1.touched = true) ∧
      (∃ a2, lookupA s1.state dest = some a2 ∧
        a2.info.balance = accT.info.balance ∧ a2.touched = accT.touched) ∧
      s1.journal = s.journal
        ++ (if accF.cold || accF.transactionId != s.transactionId
            then [Entry.accountWarmed source] else [])
        ++ (if accT.cold || accT.transactionId != s.transactionId
            then [Entry.accountWarmed dest] else [])
        ++ (if accF.touched then [] else [Entry.accountTouched source]) := by
  have hdest : ¬ dest = source := fun hh => hne hh.symm
  have hl1 := loadAccount_present db source s accF hF hFsd hFcl
  have hTA : lookupA (insertA s.state source
      { accF with cold := false, transactionId := s.transactionId }) dest = some accT := by
    rw [lookupA_insertA, if_neg hdest]
    exact hT
  have hl2 := loadAccount_present db dest
    { s with
        state := insertA s.state source
          { accF with cold := false, transactionId := s.transactionId },
        journal := s.journal ++ (if accF.cold || accF.transactionId != s.transactionId
                    then [Entry.accountWarmed source] else []) }
    accT hTA hTsd hTcl
  have hsub2 : checkedSub accF.info.balance amount = none := by
    unfold checkedSub
    rw [if_neg (by omega)]
  have hFB : lookupA (insertA (insertA s.state source
      { accF with cold := false, transactionId := s.transactionId }) dest
      { accT with cold := false, transactionId := s.transactionId }) source =
      some { accF with cold := false, transactionId := s.transactionId } := by
    rw [lookupA_insertA, if_neg hne, lookupA_insertA, if_pos rfl]
  unfold transferF
  simp only [if_neg hamt, hl1, hl2, hFB, touchAccount_eq, hsub2]
  refine ⟨_, rfl,
    ⟨{ accF with cold := false, transactionId := s.transactionId, touched := true },
      ?_, rfl, rfl⟩,
    ⟨{ accT with cold := false, transactionId := s.transactionId }, ?_, rfl, rfl⟩, rfl⟩
  · rw [lookupA_insertA, if_pos rfl]
  · rw [lookupA_insertA, if_neg hdest, lookupA_insertA, if_pos rfl]

/-- Witness for C10. -/
theorem transfer_out_of_funds_effects_witness :
    ∃ s1, transferF dbEmpty 1 2 7 (mkState SpecId.CANCUN [(1, mkAcc 5), (2, mkAcc 9)]) =
        some (some TransferError.outOfFunds, s1) ∧
      (∃ a1, lookupA s1.state 1 = some a1 ∧
        a1.info.balance = (mkAcc 5).info.balance ∧ a1.touched = true) ∧
      (∃ a2, lookupA s1.state 2 = some a2 ∧
        a2.info.balance = (mkAcc 9).info.balance ∧ a2.touched = (mkAcc 9).touched) ∧
      s1.journal = (mkState SpecId.CANCUN [(1, mkAcc 5), (2, mkAcc 9)]).journal
        ++ (if (mkAcc 5).cold || (mkAcc 5).transactionId !=
              (mkState SpecId.CANCUN [(1, mkAcc 5), (2, mkAcc 9)]).transactionId
            then [Entry.accountWarmed 1] else [])
        ++ (if (mkAcc 9).cold || (mkAcc 9).transactionId !=
              (mkState SpecId.CANCUN [(1, mkAcc 5), (2, mkAcc 9)]).transactionId
            then [Entry.accountWarmed 2] else [])
        ++ (if (mkAcc 5).touched then [] else [Entry.accountTouched 1]) :=
  transfer_out_of_funds_effects dbEmpty (mkState SpecId.CANCUN [(1, mkAcc 5), (2, mkAcc 9)])
    1 2 7 (mkAcc 5) (mkAcc 9) (by decide) (by decide) rfl rfl rfl rfl (by decide) (by decide)
    (by decide)


/-! ## C5: `create_account_checkpoint` -/

/-- Reverting a just-taken checkpoint of an unchanged journal restores the
state exactly. -/
theorem checkpointRevert_fresh (s : JState) :
    checkpointRevert { logI := s.logs.length, journalI := s.journal.length }
      { s with depth := s.depth + 1 } = s := by
  unfold checkpointRevert revertAll
  simp

/-- C5: `create_account_checkpoint` returns `CreateCollision` exactly when
the caller can fund the transfer and the target has non-empty code hash or
nonzero nonce; in that case the entry checkpoint is fully reverted (the
state is unchanged); on success the new account's nonce is `1` from
Spurious Dragon on and `0` before. -/
theorem createAccountCheckpoint_spec
    (s : JState) (caller target : Addr) (value : Nat) (specId : SpecId)
    (accC accT : Account)
    (hC : lookupA s.state caller = some accC) (hT : lookupA s.state target = some accT) :
    ((∃ s1, createAccountCheckpoint caller target value specId s =
        some (Except.error TransferError.createCollision, s1)) ↔
      (value ≤ accC.info.balance ∧
        (accT.info.codeHash ≠ keccakEmpty ∨ accT.info.nonce ≠ 0))) ∧
    (∀ s1, createAccountCheckpoint caller target value specId s =
        some (Except.error TransferError.createCollision, s1) → s1 = s) ∧
    (∀ cp s1, createAccountCheckpoint caller target value specId s =
        some (Except.ok cp, s1) →
      ∃ acc1, lookupA s1.state target = some acc1 ∧
        acc1.info.nonce = (if specId.is_enabled_in SpecId.SPURIOUS_DRAGON then 1 else 0)) := by
  by_cases hbal : accC.info.balance < value
  · have heq : createAccountCheckpoint caller target value specId s =
        some (Except.error TransferError.outOfFunds, s) := by
      simp only [createAccountCheckpoint, checkpointF, hC, if_pos hbal, checkpointRevert_fresh]
    refine ⟨⟨?_, ?_⟩, ?_, ?_⟩
    · rintro ⟨s1, hs1⟩
      rw [heq] at hs1
      simp at hs1
    · rintro ⟨hv, _⟩
      exact absurd hv (by omega)
    · intro s1 hs1
      rw [heq] at hs1
      simp at hs1
    · intro cp s1 hs1
      rw [heq] at hs1
      simp at hs1
  · by_cases hcol : accT.info.codeHash ≠ keccakEmpty ∨ accT.info.nonce ≠ 0
    · have heq : createAccountCheckpoint caller target value specId s =
          some (Except.error TransferError.createCollision, s) := by
        simp only [createAccountCheckpoint, checkpointF, hC, if_neg hbal, hT, if_pos hcol,
          checkpointRevert_fresh]
      refine ⟨⟨fun _ => ⟨by omega, hcol⟩, fun _ => ⟨s, heq⟩⟩, ?_, ?_⟩
      · intro s1 hs1
        rw [heq] at hs1
        simpa using hs1.symm
      · intro cp s1 hs1
        rw [heq] at hs1
        simp at hs1
    · have hnonce : accT.info.nonce = 0 := by
        simpa using (not_or.1 hcol).2
      by_cases hov : accT.info.balance + value < u256Limit
      · have hadd2 : checkedAdd accT.info.balance value = some (accT.info.balance + value) := by
          unfold checkedAdd
          rw [if_pos hov]
        by_cases hct : target = caller
        · subst hct
          have hCT : accC = accT := by
            rw [hC] at hT
            exact Option.some.inj hT
          subst hCT
          have hLK : ∀ X : Account, lookupA (insertA s.state target X) target = some X :=
            fun X => by rw [lookupA_insertA, if_pos rfl]
          have hLK2 : ∀ X Y : Account,
              lookupA (insertA (insertA s.state target X) target Y) target = some Y :=
            fun X Y => by rw [lookupA_insertA, if_pos rfl]
          have heq : ∃ sx, createAccountCheckpoint target target value specId s =
              some (Except.ok { logI := s.logs.length, journalI := s.journal.length }, sx) := by
            simp only [createAccountCheckpoint, checkpointF, hC, if_neg hbal, hT,
              if_neg hcol, Account.markCreatedLocally, touchAccount_eq, hadd2, hLK]
            exact ⟨_, rfl⟩
          refine ⟨⟨?_, ?_⟩, ?_, ?_⟩
          · rintro ⟨s1, hs1⟩
            obtain ⟨sx, hx⟩ := heq
            rw [hx] at hs1
            simp at hs1
          · rintro ⟨_, hcol2⟩
            exact absurd hcol2 hcol
          · intro s1 hs1
            obtain ⟨sx, hx⟩ := heq
            rw [hx] at hs1
            simp at hs1
          · intro cp s1 hs1
            simp only [createAccountCheckpoint, checkpointF, hC, if_neg hbal, hT,
              if_neg hcol, Account.markCreatedLocally, touchAccount_eq, hadd2, hLK,
              Option.some.injEq, Prod.mk.injEq, Except.ok.injEq] at hs1
            obtain ⟨-, hs⟩ := hs1
            subst hs
            refine ⟨_, by rw [hLK2], ?_⟩
            simp [hnonce]
        · have hct2 : ¬ caller = target := fun hh => hct hh.symm
          have hCB : ∀ X : Account,
              lookupA (insertA s.state target X) caller = lookupA s.state caller :=
            fun X => by rw [lookupA_insertA, if_neg hct2]
          have hLK2 : ∀ X Y : Account,
              lookupA (insertA (insertA s.state target X) caller Y) target =
                lookupA (insertA s.state target X) target :=
            fun X Y => by rw [lookupA_insertA, if_neg hct]
          have heq : ∃ sx, createAccountCheckpoint caller target value specId s =
              some (Except.ok { logI := s.logs.length, journalI := s.journal.length }, sx) := by
            simp only [createAccountCheckpoint, checkpointF, hC, if_neg hbal, hT,
              if_neg hcol, Account.markCreatedLocally, touchAccount_eq, hadd2, hCB]
            exact ⟨_, rfl⟩
          refine ⟨⟨?_, ?_⟩, ?_, ?_⟩
          · rintro ⟨s1, hs1⟩
            obtain ⟨sx, hx⟩ := heq
            rw [hx] at hs1
            simp at hs1
          · rintro ⟨_, hcol2⟩
            exact absurd hcol2 hcol
          · intro s1 hs1
            obtain ⟨sx, hx⟩ := heq
            rw [hx] at hs1
            simp at hs1
          · intro cp s1 hs1
            simp only [createAccountCheckpoint, checkpointF, hC, if_neg hbal, hT,
              if_neg hcol, Account.markCreatedLocally, touchAccount_eq, hadd2, hCB,
              Option.some.injEq, Prod.mk.injEq, Except.ok.injEq] at hs1
            obtain ⟨-, hs⟩ := hs1
            subst hs
            refine ⟨_, by rw [hLK2, lookupA_insertA, if_pos rfl], ?_⟩
            simp [hnonce]
      · have hadd2 : checkedAdd accT.info.balance value = none := by
          unfold checkedAdd
          rw [if_neg hov]
        have heq : ∃ sx, createAccountCheckpoint caller target value specId s =
            some (Except.error TransferError.overflowPayment, sx) := by
          simp only [createAccountCheckpoint, checkpointF, hC, if_neg hbal, hT,
            if_neg hcol, Account.markCreatedLocally, touchAccount_eq, hadd2]
          exact ⟨_, rfl⟩
        refine ⟨⟨?_, ?_⟩, ?_, ?_⟩
        · rintro ⟨s1, hs1⟩
          obtain ⟨sx, hx⟩ := heq
          rw [hx] at hs1
          simp at hs1
        · rintro ⟨_, hcol2⟩
          exact absurd hcol2 hcol
        · intro s1 hs1
          obtain ⟨sx, hx⟩ := heq
          rw [hx] at hs1
          simp at hs1
        · intro cp s1 hs1
          obtain ⟨sx, hx⟩ := heq
          rw [hx] at hs1
          simp at hs1

/-- Witness for C5: collision on a target with nonce 1 under Istanbul. -/
theorem createAccountCheckpoint_spec_witness :
    let s := mkState SpecId.ISTANBUL
      [(1, mkAcc 5), (2, { mkAcc 0 with info := { AccountInfo.empty with nonce := 1 } })]
    (∃ s1, createAccountCheckpoint 1 2 0 SpecId.ISTANBUL s =
        some (Except.error TransferError.createCollision, s1)) ∧
      (∀ s1, createAccountCheckpoint 1 2 0 SpecId.ISTANBUL s =
          some (Except.error TransferError.createCollision, s1) → s1 = s) := by
  intro s
  have h := createAccountCheckpoint_spec s 1 2 0 SpecId.ISTANBUL
    (mkAcc 5) { mkAcc 0 with info := { AccountInfo.empty with nonce := 1 } }
    (by decide) (by decide)
  exact ⟨h.1.2 ⟨by decide, by decide⟩, h.2.1⟩


/-! ## C3: `selfdestruct` under EIP-6780 -/

/-- C3: with the spec at Cancun or later and the account not created in this
transaction, `selfdestruct` does not mark the account selfdestructed: for a
distinct target it moves the whole balance and journals a single
`BalanceTransfer` (beyond the target's load/touch bookkeeping), and for
`target == address` it changes nothing. Before Cancun the account is always
marked locally selfdestructed, its balance zeroed, and an `AccountDestroyed`
entry appended. -/
theorem selfdestruct_eip6780
    (db : DB) (s : JState) (a t : Addr) (accA accT : Account)
    (hA : lookupA s.state a = some accA) (hT : lookupA s.state t = some accT)
    (hAw : accA.cold = false) (hAt : accA.transactionId = s.transactionId)
    (hTsd : accT.selfdestructedLocally = false) (hTcl : accT.createdLocally = false)
    (hbound : accT.info.balance + accA.info.balance < u256Limit) :
    (s.spec.is_enabled_in SpecId.CANCUN = true → accA.createdLocally = false →
      ((t ≠ a → ∃ s1 res isCold,
          selfdestructF db a t s = some (res, isCold, s1) ∧
          (∃ acc1, lookupA s1.state a = some acc1 ∧ acc1.info.balance = 0 ∧
            acc1.selfdestructedLocally = accA.selfdestructedLocally ∧
            acc1.selfdestructedGlobally = accA.selfdestructedGlobally) ∧
          (∃ acc2, lookupA s1.state t = some acc2 ∧
            acc2.info.balance = accT.info.balance + accA.info.balance) ∧
          s1.journal = s.journal
            ++ (if accT.cold || accT.transactionId != s.transactionId
                then [Entry.accountWarmed t] else [])
            ++ (if accT.touched then [] else [Entry.accountTouched t])
            ++ [Entry.balanceTransfer a t accA.info.balance]) ∧
       (t = a → ∃ res, selfdestructF db a t s = some (res, false, s)))) ∧
    (s.spec.is_enabled_in SpecId.CANCUN = false →
      ∃ s1 res isCold, selfdestructF db a t s = some (res, isCold, s1) ∧
        (∃ acc1, lookupA s1.state a = some acc1 ∧
          acc1.selfdestructedLocally = true ∧ acc1.info.balance = 0) ∧
        ∃ st, s1.journal = s.journal
          ++ (if t = a then []
              else (if accT.cold || accT.transactionId != s.transactionId
                    then [Entry.accountWarmed t] else [])
                ++ (if accT.touched then [] else [Entry.accountTouched t]))
          ++ [Entry.accountDestroyed a t st accA.info.balance]) := by
  by_cases hta : t = a
  · subst hta
    have hTA : accA = accT := by
      rw [hA] at hT
      exact Option.some.inj hT
    subst hTA
    have hl : loadAccount db t s = (false, s) := loadAccount_warm db t s accA hA hAw hAt
    refine ⟨fun hc hclA => ⟨fun hne => absurd rfl hne, fun _ => ?_⟩, fun hc => ?_⟩
    · -- Cancun, not created, target = address: nothing happens
      have hcond : ¬ (accA.createdLocally = true ∨ s.spec.is_enabled_in SpecId.CANCUN = false) := by
        simp [hclA, hc]
      simp only [selfdestructF, hl, hA, if_pos rfl, if_true, if_neg hcond, ite_not,
        insertA_lookup_self hA]
      exact ⟨_, rfl⟩
    · -- pre-Cancun, target = address: destroy
      have hcond : accA.createdLocally = true ∨ s.spec.is_enabled_in SpecId.CANCUN = false :=
        Or.inr hc
      simp only [selfdestructF, hl, hA, if_pos rfl, if_true, if_pos hcond]
      refine ⟨_, _, _, rfl, ?_, ?_⟩
      · refine ⟨{ accA with selfdestructedLocally := true, selfdestructedGlobally := true, info := { accA.info with balance := 0 } },
          ?_, rfl, rfl⟩
        rw [lookupA_insertA, if_pos rfl]
      · refine ⟨(if ¬accA.selfdestructedGlobally = true then SdStatus.globallySelfdestroyed
          else if ¬accA.selfdestructedLocally = true then SdStatus.locallySelfdestroyed
          else SdStatus.repeatedSelfdestruction), ?_⟩
        simp
  · have hl := loadAccount_present db t s accT hT hTsd hTcl
    have hat : ¬ a = t := fun hh => hta hh.symm
    have hTW : lookupA (insertA s.state t
        { accT with cold := false, transactionId := s.transactionId }) t =
        some { accT with cold := false, transactionId := s.transactionId } := by
      rw [lookupA_insertA, if_pos rfl]
    have hAW : ∀ X : Account, lookupA (insertA s.state t X) a = some accA :=
      fun X => by rw [lookupA_insertA, if_neg hat]; exact hA
    have hAW2 : ∀ X Y : Account,
        lookupA (insertA (insertA s.state t X) t Y) a = some accA :=
      fun X Y => by rw [lookupA_insertA, if_neg hat, lookupA_insertA, if_neg hat]; exact hA
    have hwadd : wrapAdd accT.info.balance accA.info.balance =
        accT.info.balance + accA.info.balance := by
      unfold wrapAdd
      exact Nat.mod_eq_of_lt hbound
    refine ⟨fun hc hclA => ⟨fun _ => ?_, fun hte => absurd hte hta⟩, fun hc => ?_⟩
    · -- Cancun, not created, distinct target: plain transfer
      have hcond : ¬ (accA.createdLocally = true ∨ s.spec.is_enabled_in SpecId.CANCUN = false) := by
        simp [hclA, hc]
      simp only [selfdestructF, hl, hTW, if_neg hat, hAW, touchAccount_eq, hwadd, hAW2,
        if_neg hcond, ite_not, if_neg hat]
      refine ⟨_, _, _, rfl, ?_, ?_, ?_⟩
      · refine ⟨{ accA with info := { accA.info with balance := 0 } }, ?_, rfl, rfl, rfl⟩
        rw [lookupA_insertA, if_pos rfl]
      · refine ⟨{ accT with cold := false, transactionId := s.transactionId, touched := true, info := { accT.info with balance := accT.info.balance + accA.info.balance } },
          ?_, rfl⟩
        rw [lookupA_insertA, if_neg hta, lookupA_insertA, if_pos rfl]
      · simp
    · -- pre-Cancun, distinct target: destroy after crediting the target
      have hcond : accA.createdLocally = true ∨ s.spec.is_enabled_in SpecId.CANCUN = false :=
        Or.inr hc
      simp only [selfdestructF, hl, hTW, if_neg hat, hAW, touchAccount_eq, hwadd, hAW2,
        if_pos hcond]
      refine ⟨_, _, _, rfl, ?_, ?_⟩
      · refine ⟨{ accA with selfdestructedLocally := true, selfdestructedGlobally := true, info := { accA.info with balance := 0 } },
          ?_, rfl, rfl⟩
        rw [lookupA_insertA, if_pos rfl]
      · refine ⟨(if ¬accA.selfdestructedGlobally = true then SdStatus.globallySelfdestroyed
          else if ¬accA.selfdestructedLocally = true then SdStatus.locallySelfdestroyed
          else SdStatus.repeatedSelfdestruction), ?_⟩
        simp [hta]

/-- Witness for C3: Cancun, account not created this tx, distinct target. -/
theorem selfdestruct_eip6780_witness :
    ∃ s1 res isCold,
      selfdestructF dbEmpty 1 2 (mkState SpecId.CANCUN [(1, mkAcc 100), (2, mkAcc 7)]) =
        some (res, isCold, s1) ∧
      (∃ acc1, lookupA s1.state 1 = some acc1 ∧ acc1.info.balance = 0 ∧
        acc1.selfdestructedLocally = (mkAcc 100).selfdestructedLocally ∧
        acc1.selfdestructedGlobally = (mkAcc 100).selfdestructedGlobally) ∧
      (∃ acc2, lookupA s1.state 2 = some acc2 ∧
        acc2.info.balance = (mkAcc 7).info.balance + (mkAcc 100).info.balance) ∧
      s1.journal = (mkState SpecId.CANCUN [(1, mkAcc 100), (2, mkAcc 7)]).journal
        ++ (if (mkAcc 7).cold || (mkAcc 7).transactionId !=
              (mkState SpecId.CANCUN [(1, mkAcc 100), (2, mkAcc 7)]).transactionId
            then [Entry.accountWarmed 2] else [])
        ++ (if (mkAcc 7).touched then [] else [Entry.accountTouched 2])
        ++ [Entry.balanceTransfer 1 2 (mkAcc 100).info.balance] :=
  ((selfdestruct_eip6780 dbEmpty (mkState SpecId.CANCUN [(1, mkAcc 100), (2, mkAcc 7)])
      1 2 (mkAcc 100) (mkAcc 7) (by decide) (by decide) rfl rfl rfl rfl
      (by decide)).1 rfl rfl).1 (by decide)


/-! ## C7: the CALL instruction and `calc_call_gas` -/

/-- Interpreter outcomes relevant to the CALL model
(`InstructionResult` / frame emission). -/
inductive CallOutcome
  | halt (reason : Nat)
  | noAction
  | frame (gasLimit : Nat)
deriving DecidableEq, Repr

/-- `InstructionResult::CallNotAllowedInsideStatic`, abstracted to a code. -/
def callNotAllowedInsideStatic : Nat := 1

/-- `InstructionResult::FatalExternalError`, abstracted to a code. -/
def fatalExternalError : Nat := 2

/-- `InstructionResult::OutOfGas`, abstracted to a code. -/
def outOfGasHalt : Nat := 3

/-- `gas::CALL_STIPEND`. Modelled from the spec: the fixed stipend added to
value-bearing calls (gas constants are outside the four core source files). -/
def callStipend : Nat := 2300

/-- The CALL instruction (`instructions/contract.rs::call` together with
`call_helpers.rs::calc_call_gas`), shallowly embedded over the popped stack
values. Memory-range resolution and the host account load are abstracted to
success flags (`memOk`, `loadOk`), and `gas::call_cost` to the charged
amount `callCost`; the claim concerns the static check and the gas-limit
arithmetic, which are modelled exactly: convert the popped gas limit to u64
saturating at `u64::MAX`; halt on a value-bearing static call; charge the
call cost; cap the child gas by EIP-150's all-but-one-64th of the remaining
gas from Tangerine on; charge the child gas; add `CALL_STIPEND` for
value-bearing calls (u64-saturating). -/
def callInstr (spec : SpecId) (isStatic : Bool) (remaining : Nat)
    (localGasLimitU256 value : Nat) (memOk loadOk : Bool) (callCost : Nat) :
    CallOutcome :=
  let localGasLimit := if localGasLimitU256 ≤ u64Max then localGasLimitU256 else u64Max
  if isStatic ∧ value ≠ 0 then CallOutcome.halt callNotAllowedInsideStatic
  else if memOk = false then CallOutcome.noAction
  else if loadOk = false then CallOutcome.halt fatalExternalError
  else if remaining < callCost then CallOutcome.halt outOfGasHalt
  else
    let remaining1 := remaining - callCost
    let gasLimit := if spec.is_enabled_in SpecId.TANGERINE
      then min (remaining1 - remaining1 / 64) localGasLimit
      else localGasLimit
    if remaining1 < gasLimit then CallOutcome.halt outOfGasHalt
    else if value ≠ 0 then CallOutcome.frame (satAdd64 gasLimit callStipend)
    else CallOutcome.frame gasLimit

/-- C7: a value-bearing CALL in a static frame halts with
`CallNotAllowedInsideStatic` and emits no frame; any emitted frame's gas
limit is min(local, remaining·63/64 the EIP-150 way) after the call-cost
charge from Tangerine on and the plain local gas limit before, plus
`CALL_STIPEND` exactly when the value is nonzero. -/
theorem call_static_and_gas (spec : SpecId) (isStatic : Bool) (remaining : Nat)
    (lgl value : Nat) (memOk loadOk : Bool) (callCost : Nat) :
    (isStatic = true → value ≠ 0 →
      callInstr spec isStatic remaining lgl value memOk loadOk callCost =
        CallOutcome.halt callNotAllowedInsideStatic) ∧
    (∀ g, callInstr spec isStatic remaining lgl value memOk loadOk callCost =
        CallOutcome.frame g →
      g = (if value ≠ 0 then satAdd64 else fun x _ => x)
            (if spec.is_enabled_in SpecId.TANGERINE
             then min ((remaining - callCost) - (remaining - callCost) / 64)
                    (if lgl ≤ u64Max then lgl else u64Max)
             else (if lgl ≤ u64Max then lgl else u64Max))
            callStipend) := by
  constructor
  · intro hs hv
    unfold callInstr
    rw [if_pos ⟨hs, hv⟩]
  · intro g hg
    unfold callInstr at hg
    by_cases h1 : isStatic = true ∧ value ≠ 0
    · rw [if_pos h1] at hg
      simp at hg
    · rw [if_neg h1] at hg
      by_cases h2 : memOk = false
      · rw [if_pos h2] at hg
        simp at hg
      · rw [if_neg h2] at hg
        by_cases h3 : loadOk = false
        · rw [if_pos h3] at hg
          simp at hg
        · rw [if_neg h3] at hg
          by_cases h4 : remaining < callCost
          · rw [if_pos h4] at hg
            simp at hg
          · rw [if_neg h4] at hg
            simp only at hg
            by_cases h5 : remaining - callCost <
                (if spec.is_enabled_in SpecId.TANGERINE
                 then min ((remaining - callCost) - (remaining - callCost) / 64)
                        (if lgl ≤ u64Max then lgl else u64Max)
                 else (if lgl ≤ u64Max then lgl else u64Max))
            · rw [if_pos h5] at hg
              simp at hg
            · rw [if_neg h5] at hg
              by_cases h6 : value ≠ 0
              · rw [if_pos h6] at hg
                simp only [CallOutcome.frame.injEq] at hg
                subst hg
                rw [if_pos h6]
              · rw [if_neg h6] at hg
                simp only [CallOutcome.frame.injEq] at hg
                subst hg
                rw [if_neg h6]

/-- Witness for C7: static value-bearing call halts; a plain call's frame
gas is capped by EIP-150. -/
theorem call_static_and_gas_witness :
    (true = true → (5 : Nat) ≠ 0 →
      callInstr SpecId.CANCUN true 1000 800 5 true true 100 =
        CallOutcome.halt callNotAllowedInsideStatic) ∧
    (∀ g, callInstr SpecId.CANCUN true 1000 800 5 true true 100 =
        CallOutcome.frame g →
      g = (if (5 : Nat) ≠ 0 then satAdd64 else fun x _ => x)
            (if SpecId.CANCUN.is_enabled_in SpecId.TANGERINE
             then min ((1000 - 100) - (1000 - 100) / 64)
                    (if (800 : Nat) ≤ u64Max then 800 else u64Max)
             else (if (800 : Nat) ≤ u64Max then 800 else u64Max))
            callStipend) :=
  call_static_and_gas SpecId.CANCUN true 1000 800 5 true true 100


/-! ## C8: the handler pipeline (`Handler::run`) -/

/-- Deferred context error (`ContextError`): database or custom. -/
inductive CtxError
  | db (e : Nat)
  | custom (msg : Nat)
deriving DecidableEq, Repr

/-- The handler-facing context: the journal, the local context (initcode
cache and buffers, abstracted to a list cleared by `clear`), the frame
stack (abstracted), and the deferred error slot (`ContextTr::error`). -/
structure HCtx where
  journal : JState
  localCtx : List Nat
  frames : List Nat
  errorSlot : Option CtxError
deriving DecidableEq

/-- The phase implementations a `Handler` dispatches to (each takes the
context by `&mut`, modelled as value-passing), plus the error conversions
(`From<DbError>` and `FromStringError`). `E` is the handler error type,
`R` the execution result, `F` the frame result. -/
structure Phases (E R F : Type) where
  validate : HCtx → Except E Nat × HCtx
  preExecution : HCtx → Except E Nat × HCtx
  execution : HCtx → Nat → Except E F × HCtx
  postExecution : HCtx → F → Nat → Nat → Except E F × HCtx
  output : HCtx → F → R × HCtx
  fromDb : Nat → E
  fromString : Nat → E

/-- `Handler::execution_result`: drain the deferred context error first
(database errors and custom errors become handler errors before anything is
committed); on the clean path produce the output, `commit_tx` the journal,
and clear the local context and the frame stack. -/
def executionResult {E R F : Type} (ph : Phases E R F) (c : HCtx) (result : F) :
    Except E R × HCtx :=
  let c0 := { c with errorSlot := none }
  match c.errorSlot with
  | some (CtxError.db e) => (Except.error (ph.fromDb e), c0)
  | some (CtxError.custom m) => (Except.error (ph.fromString m), c0)
  | none =>
      let o := ph.output c0 result
      (Except.ok o.1,
        { o.2 with journal := commitTx o.2.journal, localCtx := [], frames := [] })

/-- `Handler::catch_error`: clear the local context, discard the
transaction in the journal, clear the frame stack, return the error
unchanged. -/
def catchError {E R : Type} (c : HCtx) (e : E) : Except E R × HCtx :=
  (Except.error e,
   { c with localCtx := [], journal := discardTx c.journal, frames := [] })

/-- `Handler::run_without_catch_error`: validate, pre-execute, execute,
post-execute, then `execution_result`. -/
def runWithoutCatchError {E R F : Type} (ph : Phases E R F) (c : HCtx) :
    Except E R × HCtx :=
  match ph.validate c with
  | (Except.error e, c1) => (Except.error e, c1)
  | (Except.ok initGas, c1) =>
    match ph.preExecution c1 with
    | (Except.error e, c2) => (Except.error e, c2)
    | (Except.ok refund, c2) =>
      match ph.execution c2 initGas with
      | (Except.error e, c3) => (Except.error e, c3)
      | (Except.ok fr, c3) =>
        match ph.postExecution c3 fr initGas refund with
        | (Except.error e, c4) => (Except.error e, c4)
        | (Except.ok fr2, c4) => executionResult ph c4 fr2

/-- `Handler::run`: run the phases, catching any error with `catch_error`. -/
def runHandler {E R F : Type} (ph : Phases E R F) (c : HCtx) : Except E R × HCtx :=
  match runWithoutCatchError ph c with
  | (Except.ok r, c1) => (Except.ok r, c1)
  | (Except.error e, c1) => catchError c1 e

/-- C8: if any phase errors, `catch_error` clears the local context,
discards the transaction, clears the frame stack and returns the original
error unchanged; on the success path `execution_result` commits the journal
before returning, and a deferred `ContextError` found there becomes an
error (and is caught) before any commit happens. -/
theorem handler_run_error_policy {E R F : Type} (ph : Phases E R F) (c : HCtx) :
    (∀ e m, ph.validate c = (Except.error e, m) →
      runHandler ph c = (Except.error e,
        { m with localCtx := [], journal := discardTx m.journal, frames := [] })) ∧
    (∀ g c1 e m, ph.validate c = (Except.ok g, c1) →
      ph.preExecution c1 = (Except.error e, m) →
      runHandler ph c = (Except.error e,
        { m with localCtx := [], journal := discardTx m.journal, frames := [] })) ∧
    (∀ g c1 rf c2 e m, ph.validate c = (Except.ok g, c1) →
      ph.preExecution c1 = (Except.ok rf, c2) →
      ph.execution c2 g = (Except.error e, m) →
      runHandler ph c = (Except.error e,
        { m with localCtx := [], journal := discardTx m.journal, frames := [] })) ∧
    (∀ g c1 rf c2 fr c3 e m, ph.validate c = (Except.ok g, c1) →
      ph.preExecution c1 = (Except.ok rf, c2) →
      ph.execution c2 g = (Except.ok fr, c3) →
      ph.postExecution c3 fr g rf = (Except.error e, m) →
      runHandler ph c = (Except.error e,
        { m with localCtx := [], journal := discardTx m.journal, frames := [] })) ∧
    (∀ g c1 rf c2 fr c3 fr2 c4, ph.validate c = (Except.ok g, c1) →
      ph.preExecution c1 = (Except.ok rf, c2) →
      ph.execution c2 g = (Except.ok fr, c3) →
      ph.postExecution c3 fr g rf = (Except.ok fr2, c4) →
      (∀ e, c4.errorSlot = some (CtxError.db e) →
        runHandler ph c = (Except.error (ph.fromDb e),
          { c4 with errorSlot := none, localCtx := [], journal := discardTx c4.journal, frames := [] })) ∧
      (∀ msg, c4.errorSlot = some (CtxError.custom msg) →
        runHandler ph c = (Except.error (ph.fromString msg),
          { c4 with errorSlot := none, localCtx := [], journal := discardTx c4.journal, frames := [] })) ∧
      (c4.errorSlot = none →
        runHandler ph c = (Except.ok (ph.output { c4 with errorSlot := none } fr2).1,
          { (ph.output { c4 with errorSlot := none } fr2).2 with
              journal := commitTx (ph.output { c4 with errorSlot := none } fr2).2.journal,
              localCtx := [], frames := [] }))) := by
  refine ⟨?_, ?_, ?_, ?_, ?_⟩
  · intro e m hv
    unfold runHandler runWithoutCatchError catchError
    simp only [hv]
  · intro g c1 e m hv hp
    unfold runHandler runWithoutCatchError catchError
    simp only [hv, hp]
  · intro g c1 rf c2 e m hv hp hx
    unfold runHandler runWithoutCatchError catchError
    simp only [hv, hp, hx]
  · intro g c1 rf c2 fr c3 e m hv hp hx hpost
    unfold runHandler runWithoutCatchError catchError
    simp only [hv, hp, hx, hpost]
  · intro g c1 rf c2 fr c3 fr2 c4 hv hp hx hpost
    refine ⟨?_, ?_, ?_⟩
    · intro e herr
      unfold runHandler runWithoutCatchError executionResult catchError
      simp only [hv, hp, hx, hpost, herr]
    · intro msg herr
      unfold runHandler runWithoutCatchError executionResult catchError
      simp only [hv, hp, hx, hpost, herr]
    · intro herr
      unfold runHandler runWithoutCatchError executionResult
      simp only [hv, hp, hx, hpost, herr]

/-- A trivial phase implementation whose validation fails, for the C8
witness. -/
def phFailValidate : Phases Nat Nat Nat :=
  { validate := fun c => (Except.error 42, c),
    preExecution := fun c => (Except.ok 0, c),
    execution := fun c _ => (Except.ok 0, c),
    postExecution := fun c f _ _ => (Except.ok f, c),
    output := fun c _ => (7, c),
    fromDb := id, fromString := id }

/-- A base context for the C8 witness. -/
def hctx0 : HCtx :=
  { journal := mkState SpecId.CANCUN [], localCtx := [3], frames := [5], errorSlot := none }

/-- Witness for C8: a failing validation phase is caught, the journal is
discarded and the error returned unchanged. -/
theorem handler_run_error_policy_witness :
    phFailValidate.validate hctx0 = (Except.error 42, hctx0) ∧
    runHandler phFailValidate hctx0 = (Except.error 42,
      { hctx0 with localCtx := [], journal := discardTx hctx0.journal, frames := [] }) :=
  ⟨rfl, (handler_run_error_policy phFailValidate hctx0).1 42 hctx0 rfl⟩


/-! ## C1: revert soundness over sequences of journaled operations

The claim quantifies over sequences of journaled operations between a
checkpoint and its revert. `Op` is that operation language; `applyOp`
executes one operation through the journal functions above (`none` models
the panics of the source on unloaded accounts). -/

/-- The journaled operations named by the claim. -/
inductive Op
  | loadAccountOp (a : Addr)
  | loadCodeOp (a : Addr)
  | touchOp (a : Addr)
  | transferOp (source dest : Addr) (amount : Nat)
  | createOp (caller target : Addr) (value : Nat) (specId : SpecId)
  | selfdestructOp (a t : Addr)
  | sloadOp (a : Addr) (k : Nat)
  | sstoreOp (a : Addr) (k v : Nat)
  | tstoreOp (a : Addr) (k v : Nat)
  | logOp (l : Nat)
deriving DecidableEq, Repr

/-- Execute one operation; `none` models a panic on a missing account. -/
def applyOp (db : DB) : Op → JState → Option JState
  | .loadAccountOp a, s => some (loadAccount db a s).2
  | .loadCodeOp a, s => some (loadCodeF db a s).2
  | .touchOp a, s => some (touchF a s)
  | .transferOp source dest amount, s => (transferF db source dest amount s).map (·.2)
  | .createOp caller target value specId, s =>
      (createAccountCheckpoint caller target value specId s).map (·.2)
  | .selfdestructOp a t, s => (selfdestructF db a t s).map (·.2.2)
  | .sloadOp a k, s => (sloadF db a k s).map (·.2.2)
  | .sstoreOp a k v, s => (sstoreF db a k v s).map (·.2.2)
  | .tstoreOp a k v, s => some (tstoreF a k v s)
  | .logOp l, s => some (logF l s)

/-- Execute a sequence of operations. -/
def runOps (db : DB) : List Op → JState → Option JState
  | [], s => some s
  | op :: rest, s =>
      match applyOp db op s with
      | none => none
      | some s1 => runOps db rest s1

/-- Validity of one operation for revert soundness: the transfer overflow
path (which deliberately keeps an unjournaled debit of `from`) is excluded,
and `selfdestruct` and `create_account_checkpoint` are only applied to warm
accounts, as the code assumes (both are called on accounts the caller has
already loaded in this transaction). -/
def opValid (db : DB) (op : Op) (s : JState) : Bool :=
  match op with
  | .transferOp source dest amount =>
      match transferF db source dest amount s with
      | some (some TransferError.overflowPayment, _) => false
      | _ => true
  | .selfdestructOp a _ =>
      match lookupA s.state a with
      | some acc => !(acc.cold || acc.transactionId != s.transactionId)
      | none => true
  | .createOp _ target _ _ =>
      match lookupA s.state target with
      | some acc => !(acc.cold || acc.transactionId != s.transactionId)
      | none => true
  | _ => true

/-- Validity along a run. -/
def runValid (db : DB) : List Op → JState → Bool
  | [], _ => true
  | op :: rest, s =>
      opValid db op s &&
        (match applyOp db op s with
         | none => true
         | some s1 => runValid db rest s1)

/-- Per-account well-formedness used by revert soundness: local flags only
on warm accounts (a state the journal maintains within a transaction),
balances in U256 range, and local selfdestruction implying global. -/
def accountOk (txid : Nat) (acc : Account) : Bool :=
  (!(acc.createdLocally || acc.selfdestructedLocally) ||
    (acc.transactionId == txid && !acc.cold)) &&
  (acc.info.balance < u256Limit) &&
  (!acc.selfdestructedLocally || acc.selfdestructedGlobally)

/-- State well-formedness for revert soundness. -/
def PreB (s : JState) : Bool :=
  s.state.all (fun p => accountOk s.transactionId p.2) &&
  s.transientStorage.all (fun p => p.2 != 0)

/-- The database yields in-range balances. -/
def DbOk (db : DB) : Prop :=
  ∀ a info, db.basic a = some info → info.balance < u256Limit

/-- Cache-equivalence of storage: slots warm in the reference transaction
are preserved exactly; cold slots are preserved or dropped (a revert of
their warming removes them); absent slots stay absent. -/
def slotRel (txid : Nat) (os cs : AList Nat EvmStorageSlot) : Prop :=
  ∀ k, match lookupA os k with
    | some slot =>
        if slot.transactionId = txid then lookupA cs k = some slot
        else lookupA cs k = some slot ∨ lookupA cs k = none
    | none => lookupA cs k = none

/-- Cache-equivalence of one account: everything but the warm/cold
bookkeeping (`cold`, `transactionId`) and the lazily loaded `code` body is
preserved; `createdLocally` may additionally have been cleared (reverting
one of two same-transaction creations of the same account clears it). -/
structure AccEq (txid : Nat) (orig cur : Account) : Prop where
  balance : cur.info.balance = orig.info.balance
  nonce : cur.info.nonce = orig.info.nonce
  codeHash : cur.info.codeHash = orig.info.codeHash
  touched : cur.touched = orig.touched
  createdLocally : cur.createdLocally = orig.createdLocally ∨ cur.createdLocally = false
  createdGlobally : cur.createdGlobally = orig.createdGlobally
  selfdestructedLocally : cur.selfdestructedLocally = orig.selfdestructedLocally
  selfdestructedGlobally : cur.selfdestructedGlobally = orig.selfdestructedGlobally
  notExisting : cur.notExisting = orig.notExisting
  storage : slotRel txid orig.storage cur.storage

/-- Reflexivity of account cache-equivalence. -/
theorem accEq_refl (txid : Nat) (acc : Account) : AccEq txid acc acc := by
  refine ⟨rfl, rfl, rfl, rfl, Or.inl rfl, rfl, rfl, rfl, rfl, ?_⟩
  intro k
  cases h : lookupA acc.storage k with
  | none => simp
  | some slot =>
      by_cases ht : slot.transactionId = txid <;> simp [ht, h]

/-- The revert-side relation between a reference journal state and a pair
of world state and (live) transient storage being reverted. -/
def StRel (s : JState) (z : RevState) : Prop :=
  (∃ tt, z.2 = some tt ∧ ∀ key, lookupA tt key = lookupA s.transientStorage key) ∧
  (∀ a acc, lookupA s.state a = some acc →
    ∃ acc2, lookupA z.1 a = some acc2 ∧ AccEq s.transactionId acc acc2)

/-- Reflexivity of the revert-side relation. -/
theorem strel_refl (s : JState) : StRel s (s.state, some s.transientStorage) := by
  refine ⟨⟨s.transientStorage, rfl, fun _ => rfl⟩, ?_⟩
  intro a acc h
  exact ⟨acc, h, accEq_refl _ _⟩

/-- `Δ` transports the revert-side relation from `s1` back to `s`. -/
def Transports (s s1 : JState) (Δ : List Entry) : Prop :=
  ∀ z, StRel s1 z → StRel s (revertAll Δ z)

theorem Transports.comp {s s1 s2 : JState} {d1 d2 : List Entry}
    (h1 : Transports s s1 d1) (h2 : Transports s1 s2 d2) :
    Transports s s2 (d1 ++ d2) := by
  intro z hz
  rw [revertAll_append]
  exact h1 _ (h2 _ hz)

/-- One valid step of the journal between two states: the journal and logs
only grow, the transaction id and spec are unchanged, well-formedness is
preserved, and the appended journal entries revert the step. -/
def StepOk (s s1 : JState) : Prop :=
  s1.transactionId = s.transactionId ∧ s1.spec = s.spec ∧
  (PreB s = true → PreB s1 = true) ∧
  (∃ l, s1.logs = s.logs ++ l) ∧
  (∃ d, s1.journal = s.journal ++ d ∧ Transports s s1 d)

theorem stepOk_refl (s : JState) : StepOk s s := by
  refine ⟨rfl, rfl, fun h => h, ⟨[], by simp⟩, ⟨[], by simp, ?_⟩⟩
  intro z hz
  exact hz

theorem StepOk.trans {s s1 s2 : JState} (h1 : StepOk s s1) (h2 : StepOk s1 s2) :
    StepOk s s2 := by
  obtain ⟨ht1, hs1, hp1, ⟨l1, hl1⟩, ⟨d1, hd1, htr1⟩⟩ := h1
  obtain ⟨ht2, hs2, hp2, ⟨l2, hl2⟩, ⟨d2, hd2, htr2⟩⟩ := h2
  refine ⟨ht2.trans ht1, hs2.trans hs1, fun h => hp2 (hp1 h),
    ⟨l1 ++ l2, by rw [hl2, hl1, List.append_assoc]⟩,
    ⟨d1 ++ d2, by rw [hd2, hd1, List.append_assoc], Transports.comp htr1 htr2⟩⟩

/-- The code-attaching step of `load_account_optional` (`load_code`). -/
def codeAttach (db : DB) (wc : Bool) (acc : Account) : Account :=
  if wc ∧ acc.info.code = none then
    { acc with info := { acc.info with
        code := some (if acc.info.codeHash = keccakEmpty then Bytecode.default
                      else db.codeByHash acc.info.codeHash) } }
  else acc

theorem codeAttach_shape (db : DB) (wc : Bool) (acc : Account) :
    ∃ c, codeAttach db wc acc = { acc with info := { acc.info with code := c } } := by
  by_cases h : wc = true ∧ acc.info.code = none
  · refine ⟨some (if acc.info.codeHash = keccakEmpty then Bytecode.default
      else db.codeByHash acc.info.codeHash), ?_⟩
    unfold codeAttach
    rw [if_pos h]
  · refine ⟨acc.info.code, ?_⟩
    unfold codeAttach
    rw [if_neg h]

/-- `load_account_optional` on a present, cold, flag-clean account. -/
theorem loadAccountOptional_cold (db : DB) (a : Addr) (wc : Bool) (s : JState)
    (acc : Account) (h : lookupA s.state a = some acc)
    (hcold : (acc.cold || acc.transactionId != s.transactionId) = true)
    (hsd : acc.selfdestructedLocally = false) (hcl : acc.createdLocally = false) :
    loadAccountOptional db a wc [] s =
      (true, { s with state := insertA s.state a (codeAttach db wc { acc with cold := false, transactionId := s.transactionId }), journal := s.journal ++ [Entry.accountWarmed a] }) := by
  have hacc : { acc with cold := false, transactionId := s.transactionId, createdLocally := false, selfdestructedLocally := false } = { acc with cold := false, transactionId := s.transactionId } := by
    cases acc
    simp_all
  unfold loadAccountOptional Account.markWarmWithTransactionId
  rw [h]
  simp only [hcold, hsd, if_true, Bool.false_eq_true, if_false, codeAttach]
  simp only [hacc]
  simp [hcl, hsd]

/-- `load_account_optional` on a present warm account. -/
theorem loadAccountOptional_warm (db : DB) (a : Addr) (wc : Bool) (s : JState)
    (acc : Account) (h : lookupA s.state a = some acc)
    (hcold : (acc.cold || acc.transactionId != s.transactionId) = false) :
    loadAccountOptional db a wc [] s =
      (false, { s with state := insertA s.state a (codeAttach db wc { acc with cold := false, transactionId := s.transactionId }) }) := by
  unfold loadAccountOptional Account.markWarmWithTransactionId
  rw [h]
  simp only [hcold, Bool.false_eq_true, if_false, codeAttach]
  simp

/-- The account inserted by a load of an absent address: the database
account or the `NotExisting` sentinel. -/
def loadedAccountOf (db : DB) (tid : Nat) (a : Addr) : Account :=
  match db.basic a with
  | some info => Account.fromInfo info tid
  | none => Account.newNotExisting tid

/-- `load_account_optional` on an absent account. -/
theorem loadAccountOptional_absent (db : DB) (a : Addr) (wc : Bool) (s : JState)
    (h : lookupA s.state a = none) :
    loadAccountOptional db a wc [] s =
      (!(decide (a ∈ s.warmPreloadedAddresses)) && !(decide (s.warmCoinbaseAddress = some a)), { s with state := insertA s.state a (codeAttach db wc (loadedAccountOf db s.transactionId a)), journal := if !(decide (a ∈ s.warmPreloadedAddresses)) && !(decide (s.warmCoinbaseAddress = some a)) then s.journal ++ [Entry.accountWarmed a] else s.journal }) := by
  unfold loadAccountOptional loadedAccountOf
  rw [h]
  simp only [codeAttach]
  by_cases hb : (!(decide (a ∈ s.warmPreloadedAddresses)) &&
      !(decide (s.warmCoinbaseAddress = some a))) = true
  · simp only [hb]
    simp
  · rw [Bool.not_eq_true] at hb
    simp only [hb]
    simp

/-! ## Wrapping arithmetic, list and well-formedness helpers for revert soundness -/

theorem u256Limit_pos : 0 < u256Limit := by
  unfold u256Limit
  positivity

theorem wrapSub_shift {x a : Nat} (ha : a < u256Limit) :
    wrapSub x a = (x + (u256Limit - a)) % u256Limit := by
  unfold wrapSub
  rw [Nat.mod_eq_of_lt ha]
  congr 1
  omega

theorem wrapSub_wrapAdd {b a : Nat} (hb : b < u256Limit) (ha : a < u256Limit) :
    wrapSub (wrapAdd b a) a = b := by
  rw [wrapSub_shift ha]
  unfold wrapAdd
  rw [Nat.mod_add_mod]
  have h1 : b + a + (u256Limit - a) = b + u256Limit := by omega
  rw [h1, Nat.add_mod_right, Nat.mod_eq_of_lt hb]

theorem wrapSub_add_self {b a : Nat} (hb : b < u256Limit) (ha : a < u256Limit) :
    wrapSub (b + a) a = b := by
  rw [wrapSub_shift ha]
  have h1 : b + a + (u256Limit - a) = b + u256Limit := by omega
  rw [h1, Nat.add_mod_right, Nat.mod_eq_of_lt hb]

theorem wrapAdd_sub_self {b a : Nat} (ha : a ≤ b) (hb : b < u256Limit) :
    wrapAdd (b - a) a = b := by
  unfold wrapAdd
  have h1 : b - a + a = b := by omega
  rw [h1, Nat.mod_eq_of_lt hb]

theorem wrapAdd_zero_left {a : Nat} (ha : a < u256Limit) : wrapAdd 0 a = a := by
  unfold wrapAdd
  rw [Nat.zero_add, Nat.mod_eq_of_lt ha]

theorem all_eraseA {K V : Type} [DecidableEq K] {l : AList K V} {p : K × V → Bool}
    (hall : l.all p = true) (k : K) : (eraseA l k).all p = true := by
  simp only [List.all_eq_true] at hall ⊢
  intro x hx
  exact hall x (List.mem_of_mem_filter hx)

/-- Reading `PreB` at one account. -/
theorem PreB_lookup {s : JState} (hpre : PreB s = true) {a : Addr} {acc : Account}
    (h : lookupA s.state a = some acc) : accountOk s.transactionId acc = true := by
  unfold PreB at hpre
  rw [Bool.and_eq_true] at hpre
  exact all_lookupA hpre.1 h

/-- Reading `PreB` at one transient slot. -/
theorem PreB_transient {s : JState} (hpre : PreB s = true) {key : Addr × Nat} {v : Nat}
    (h : lookupA s.transientStorage key = some v) : v ≠ 0 := by
  unfold PreB at hpre
  rw [Bool.and_eq_true] at hpre
  have := all_lookupA hpre.2 h
  simpa using this

/-- The balance bound of `accountOk`. -/
theorem accountOk_balance {txid : Nat} {acc : Account}
    (h : accountOk txid acc = true) : acc.info.balance < u256Limit := by
  unfold accountOk at h
  simp only [Bool.and_eq_true, decide_eq_true_eq] at h
  exact h.1.2

/-- `accountOk`: a cold or stale account has no local flags. -/
theorem accountOk_cold_flags {txid : Nat} {acc : Account}
    (h : accountOk txid acc = true)
    (hc : (acc.cold || acc.transactionId != txid) = true) :
    acc.createdLocally = false ∧ acc.selfdestructedLocally = false := by
  unfold accountOk at h
  simp only [Bool.and_eq_true, Bool.or_eq_true, Bool.not_eq_true', Bool.or_eq_false_iff,
    Bool.and_eq_true, beq_iff_eq, Bool.not_eq_true] at h
  rcases h.1.1 with h1 | h1
  · exact h1
  · exfalso
    simp only [Bool.or_eq_true, bne_iff_ne, ne_eq] at hc
    rcases hc with hc | hc
    · rw [h1.2] at hc
      cases hc
    · exact hc h1.1

/-- `accountOk`: local selfdestruction implies global. -/
theorem accountOk_sd {txid : Nat} {acc : Account}
    (h : accountOk txid acc = true) (hl : acc.selfdestructedLocally = true) :
    acc.selfdestructedGlobally = true := by
  unfold accountOk at h
  simp only [Bool.and_eq_true, Bool.or_eq_true, Bool.not_eq_true'] at h
  rcases h.2 with h1 | h1
  · rw [hl] at h1
    cases h1
  · exact h1

/-! ## Generic transport lemmas -/

/-- No journal delta: a step that is invisible to state, transient storage
and transaction id transports the revert relation. -/
theorem transports_nil_tt {s s1 : JState} (hst : s1.state = s.state)
    (htid : s1.transactionId = s.transactionId)
    (htt : ∀ key, lookupA s1.transientStorage key = lookupA s.transientStorage key) :
    Transports s s1 [] := by
  intro z hz
  obtain ⟨⟨tt, hz2, hz3⟩, hz4⟩ := hz
  refine ⟨⟨tt, hz2, fun key => ?_⟩, fun a acc h => ?_⟩
  · rw [hz3 key, htt key]
  · rw [← hst] at h
    obtain ⟨acc2, h1, h2⟩ := hz4 a acc h
    exact ⟨acc2, h1, htid ▸ h2⟩

theorem transports_nil {s s1 : JState} (hst : s1.state = s.state)
    (htid : s1.transactionId = s.transactionId)
    (htt : s1.transientStorage = s.transientStorage) :
    Transports s s1 [] :=
  transports_nil_tt hst htid (fun key => by rw [htt])

/-- No journal delta, state changed at one key to an account that is
cache-equivalence-compatible with the original. -/
theorem transports_insert_nil {s s1 : JState} {a : Addr} {newAcc : Account}
    (hst : s1.state = insertA s.state a newAcc)
    (htt : s1.transientStorage = s.transientStorage)
    (htid : s1.transactionId = s.transactionId)
    (hacc : ∀ acc acc2, lookupA s.state a = some acc →
        AccEq s.transactionId newAcc acc2 → AccEq s.transactionId acc acc2) :
    Transports s s1 [] := by
  intro z hz
  obtain ⟨⟨tt, hz2, hz3⟩, hz4⟩ := hz
  refine ⟨⟨tt, hz2, fun key => by rw [hz3 key, htt]⟩, ?_⟩
  intro a0 acc0 h0
  by_cases ha0 : a0 = a
  · subst ha0
    have h1 : lookupA s1.state a0 = some newAcc := by
      rw [hst, lookupA_insertA]
      simp
    obtain ⟨acc2, hl2, he2⟩ := hz4 _ _ h1
    exact ⟨acc2, hl2, hacc _ _ h0 (htid ▸ he2)⟩
  · obtain ⟨acc2, hl2, he2⟩ :=
      hz4 a0 acc0 (by rw [hst, lookupA_insertA, if_neg ha0]; exact h0)
    exact ⟨acc2, hl2, htid ▸ he2⟩

/-- One journal entry whose revert modifies a single account, with the state
changed at that key; the revert function must re-establish cache-equivalence
with the original account. -/
theorem transports_modify_one {s s1 : JState} {a : Addr} {newAcc : Account}
    {e : Entry} {f : Account → Account}
    (hst : s1.state = insertA s.state a newAcc)
    (htt : s1.transientStorage = s.transientStorage)
    (htid : s1.transactionId = s.transactionId)
    (hrev : ∀ z : RevState, revertEntry e z = (modifyA z.1 a f, z.2))
    (hacc : ∀ acc acc2, lookupA s.state a = some acc →
        AccEq s.transactionId newAcc acc2 → AccEq s.transactionId acc (f acc2)) :
    Transports s s1 [e] := by
  intro z hz
  obtain ⟨⟨tt, hz2, hz3⟩, hz4⟩ := hz
  have hre : revertAll [e] z = (modifyA z.1 a f, z.2) := hrev z
  rw [show revertAll [e] z = revertEntry e z from rfl, hrev z]
  refine ⟨⟨tt, hz2, fun key => by rw [hz3 key, htt]⟩, ?_⟩
  intro a0 acc0 h0
  by_cases ha0 : a0 = a
  · subst ha0
    have h1 : lookupA s1.state a0 = some newAcc := by
      rw [hst, lookupA_insertA]
      simp
    obtain ⟨acc2, hl2, he2⟩ := hz4 _ _ h1
    refine ⟨f acc2, ?_, hacc _ _ h0 (htid ▸ he2)⟩
    rw [lookupA_modifyA]
    simp [hl2]
  · obtain ⟨acc2, hl2, he2⟩ :=
      hz4 a0 acc0 (by rw [hst, lookupA_insertA, if_neg ha0]; exact h0)
    refine ⟨acc2, ?_, htid ▸ he2⟩
    rw [lookupA_modifyA, if_neg ha0]
    exact hl2

/-! ## Componentwise `PreB` -/

theorem PreB_state {s : JState} (hpre : PreB s = true) :
    s.state.all (fun p => accountOk s.transactionId p.2) = true := by
  unfold PreB at hpre
  rw [Bool.and_eq_true] at hpre
  exact hpre.1

theorem PreB_tt {s : JState} (hpre : PreB s = true) :
    s.transientStorage.all (fun p => p.2 != 0) = true := by
  unfold PreB at hpre
  rw [Bool.and_eq_true] at hpre
  exact hpre.2

theorem PreB_of_parts {s1 : JState}
    (h1 : s1.state.all (fun p => accountOk s1.transactionId p.2) = true)
    (h2 : s1.transientStorage.all (fun p => p.2 != 0) = true) : PreB s1 = true := by
  unfold PreB
  rw [h1, h2]
  rfl

/-! ## StepOk for the simple operations -/

/-- `log` is a pure log append. -/
theorem stepOk_logF (l : Nat) (s : JState) : StepOk s (logF l s) := by
  refine ⟨rfl, rfl, fun h => h, ⟨[l], rfl⟩, ⟨[], by simp [logF], ?_⟩⟩
  exact transports_nil rfl rfl rfl

/-- Reduction of `touch` on a present account. -/
theorem touchF_present {a : Addr} {s : JState} {acc : Account}
    (h : lookupA s.state a = some acc) :
    touchF a s =
      { s with journal := s.journal ++ (if acc.touched then [] else [Entry.accountTouched a]),
               state := insertA s.state a { acc with touched := true } } := by
  unfold touchF
  split
  · rename_i hn
    rw [h] at hn
    cases hn
  · rename_i acc1 hs
    rw [h] at hs
    cases hs
    rw [touchAccount_eq]

/-- `touch` is reverted by its `AccountTouched` entry. -/
theorem stepOk_touchF (a : Addr) (s : JState) : StepOk s (touchF a s) := by
  cases h : lookupA s.state a with
  | none =>
    unfold touchF
    rw [h]
    exact stepOk_refl s
  | some acc =>
    rw [touchF_present h]
    by_cases ht : acc.touched = true
    · have hacc : { acc with touched := true } = acc := by
        cases acc
        simp_all
      rw [ht, if_pos rfl, hacc, insertA_lookup_self h]
      simp only [List.append_nil]
      exact stepOk_refl s
    · simp only [Bool.not_eq_true] at ht
      rw [ht]
      simp only [Bool.false_eq_true, if_false]
      refine ⟨rfl, rfl, ?_, ⟨[], by simp⟩, ⟨[Entry.accountTouched a], by simp, ?_⟩⟩
      · intro hpre
        have hok := PreB_lookup hpre h
        have hok2 : accountOk s.transactionId { acc with touched := true } = true := by
          unfold accountOk at hok ⊢
          simpa using hok
        have h1 := all_insertA (k := a) (PreB_state hpre) hok2
        have h3 := PreB_tt hpre
        exact PreB_of_parts h1 h3
      · refine transports_modify_one rfl rfl rfl (fun z => rfl) ?_
        intro acc0 acc2 h0 he
        rw [h] at h0
        cases h0
        obtain ⟨e1, e2, e3, e4, e5, e6, e7, e8, e9, e10⟩ := he
        refine ⟨e1, e2, e3, ?_, ?_, e6, e7, e8, e9, e10⟩
        · simp [ht]
        · simpa using e5

/-- `tstore` is reverted by its `TransientStorageChanged` entry. -/
theorem stepOk_tstoreF (a : Addr) (k new : Nat) (s : JState) (hpre : PreB s = true) :
    StepOk s (tstoreF a k new s) := by
  unfold tstoreF
  by_cases h0 : new = 0
  · rw [if_pos h0]
    split
    · rename_i had hl
      have hhad : had ≠ 0 := PreB_transient hpre hl
      refine ⟨rfl, rfl, ?_, ⟨[], by simp⟩,
        ⟨[Entry.transientStorageChanged a k had], by simp, ?_⟩⟩
      · intro hp
        have h1 := PreB_state hp
        have h2 := all_eraseA (PreB_tt hp) (a, k)
        exact PreB_of_parts h1 h2
      · intro z hz
        obtain ⟨⟨tt, hz2, hz3⟩, hz4⟩ := hz
        obtain ⟨z1, z2⟩ := z
        simp only at hz2
        subst hz2
        refine ⟨⟨insertA tt (a, k) had, ?_, ?_⟩, ?_⟩
        · simp [revertAll, revertEntry, hhad]
        · intro key
          rw [lookupA_insertA]
          by_cases hk : key = (a, k)
          · rw [if_pos hk, hk, hl]
          · rw [if_neg hk, hz3 key]
            show lookupA (eraseA s.transientStorage (a, k)) key = _
            rw [lookupA_eraseA, if_neg hk]
        · intro a0 acc0 hl0
          obtain ⟨acc2, hl2, he2⟩ := hz4 a0 acc0 hl0
          exact ⟨acc2, by simpa [revertAll, revertEntry, hhad] using hl2, he2⟩
    · rename_i hl
      refine ⟨rfl, rfl, ?_, ⟨[], by simp⟩, ⟨[], by simp, ?_⟩⟩
      · intro hp
        have h1 := PreB_state hp
        have h2 := all_eraseA (PreB_tt hp) (a, k)
        exact PreB_of_parts h1 h2
      · refine transports_nil_tt rfl rfl ?_
        intro key
        show lookupA (eraseA s.transientStorage (a, k)) key = _
        rw [lookupA_eraseA]
        by_cases hk : key = (a, k)
        · rw [if_pos hk, hk, hl]
        · rw [if_neg hk]
  · rw [if_neg h0]
    by_cases hne : (lookupA s.transientStorage (a, k)).getD 0 ≠ new
    · rw [if_pos hne]
      refine ⟨rfl, rfl, ?_, ⟨[], by simp⟩,
        ⟨[Entry.transientStorageChanged a k ((lookupA s.transientStorage (a, k)).getD 0)],
          by simp, ?_⟩⟩
      · intro hp
        have hv : (new != 0) = true := by simpa using h0
        have h2 := all_insertA (k := (a, k)) (v := new) (PreB_tt hp) hv
        have h1 := PreB_state hp
        exact PreB_of_parts h1 h2
      · intro z hz
        obtain ⟨⟨tt, hz2, hz3⟩, hz4⟩ := hz
        obtain ⟨z1, z2⟩ := z
        simp only at hz2
        subst hz2
        cases hl : lookupA s.transientStorage (a, k) with
        | none =>
          refine ⟨⟨eraseA tt (a, k), ?_, ?_⟩, ?_⟩
          · simp [revertAll, revertEntry, hl]
          · intro key
            rw [lookupA_eraseA]
            by_cases hk : key = (a, k)
            · rw [if_pos hk, hk, hl]
            · rw [if_neg hk, hz3 key]
              show lookupA (insertA s.transientStorage (a, k) new) key = _
              rw [lookupA_insertA, if_neg hk]
          · intro a0 acc0 hl0
            obtain ⟨acc2, hl2, he2⟩ := hz4 a0 acc0 hl0
            exact ⟨acc2, by simpa [revertAll, revertEntry, hl] using hl2, he2⟩
        | some prev =>
          have hprev : prev ≠ 0 := PreB_transient hpre hl
          refine ⟨⟨insertA tt (a, k) prev, ?_, ?_⟩, ?_⟩
          · simp [revertAll, revertEntry, hl, hprev]
          · intro key
            rw [lookupA_insertA]
            by_cases hk : key = (a, k)
            · rw [if_pos hk, hk, hl]
            · rw [if_neg hk, hz3 key]
              show lookupA (insertA s.transientStorage (a, k) new) key = _
              rw [lookupA_insertA, if_neg hk]
          · intro a0 acc0 hl0
            obtain ⟨acc2, hl2, he2⟩ := hz4 a0 acc0 hl0
            exact ⟨acc2, by simpa [revertAll, revertEntry, hl, hprev] using hl2, he2⟩
    · rw [if_neg hne]
      rw [Ne, not_not] at hne
      refine ⟨rfl, rfl, ?_, ⟨[], by simp⟩, ⟨[], by simp, ?_⟩⟩
      · intro hp
        have hv : (new != 0) = true := by simpa using h0
        have h2 := all_insertA (k := (a, k)) (v := new) (PreB_tt hp) hv
        have h1 := PreB_state hp
        exact PreB_of_parts h1 h2
      · refine transports_nil_tt rfl rfl ?_
        intro key
        show lookupA (insertA s.transientStorage (a, k) new) key = _
        rw [lookupA_insertA]
        by_cases hk : key = (a, k)
        · rw [if_pos hk, hk]
          cases hl : lookupA s.transientStorage (a, k) with
          | none =>
            rw [hl] at hne
            simp at hne
            exact absurd hne.symm h0
          | some prev =>
            rw [hl] at hne
            simp at hne
            rw [hne]
        · rw [if_neg hk]

/-! ## StepOk for account loads -/

/-- Attaching code does not change account well-formedness. -/
theorem accountOk_codeAttach (db : DB) (wc : Bool) (txid : Nat) (acc : Account) :
    accountOk txid (codeAttach db wc acc) = accountOk txid acc := by
  obtain ⟨c, hc⟩ := codeAttach_shape db wc acc
  rw [hc]
  rfl

/-- A freshly loaded account is well-formed (database balances are in range). -/
theorem accountOk_loadedAccountOf {db : DB} (hdb : DbOk db) (txid : Nat) (a : Addr) :
    accountOk txid (loadedAccountOf db txid a) = true := by
  unfold loadedAccountOf
  split
  · rename_i info hb
    have hbal := hdb a info hb
    unfold Account.fromInfo accountOk
    simp [hbal]
  · unfold Account.newNotExisting Account.fromInfo accountOk AccountInfo.empty
    simp [u256Limit_pos]

/-- `load_account_optional` (without storage-key prewarming) is a valid step. -/
theorem stepOk_loadAccountOptional (db : DB) (a : Addr) (wc : Bool) (s : JState)
    (hdb : DbOk db) (hpre : PreB s = true) :
    StepOk s (loadAccountOptional db a wc [] s).2 := by
  cases h : lookupA s.state a with
  | some acc =>
    by_cases hcold : (acc.cold || acc.transactionId != s.transactionId) = true
    · obtain ⟨hcl, hsd⟩ := accountOk_cold_flags (PreB_lookup hpre h) hcold
      have heq := loadAccountOptional_cold db a wc s acc h hcold hsd hcl
      rw [heq]
      refine ⟨rfl, rfl, ?_, ⟨[], by simp⟩, ⟨[Entry.accountWarmed a], rfl, ?_⟩⟩
      · intro hp
        have hok := PreB_lookup hp h
        have hbal := accountOk_balance hok
        have hok2 : accountOk s.transactionId
            { acc with cold := false, transactionId := s.transactionId } = true := by
          unfold accountOk
          simp [hsd, hbal]
        have hok3 : accountOk s.transactionId
            (codeAttach db wc { acc with cold := false, transactionId := s.transactionId }) = true := by
          rw [accountOk_codeAttach]
          exact hok2
        have h1 := all_insertA (k := a) (PreB_state hp) hok3
        have h3 := PreB_tt hp
        exact PreB_of_parts h1 h3
      · refine transports_modify_one rfl rfl rfl (fun z => rfl) ?_
        intro acc0 acc2 h0 he
        rw [h] at h0
        cases h0
        obtain ⟨c, hc⟩ :=
          codeAttach_shape db wc { acc with cold := false, transactionId := s.transactionId }
        rw [hc] at he
        obtain ⟨e1, e2, e3, e4, e5, e6, e7, e8, e9, e10⟩ := he
        exact ⟨e1, e2, e3, e4, e5, e6, e7, e8, e9, e10⟩
    · rw [Bool.not_eq_true] at hcold
      have heq := loadAccountOptional_warm db a wc s acc h hcold
      rw [heq]
      refine ⟨rfl, rfl, ?_, ⟨[], by simp⟩, ⟨[], by simp, ?_⟩⟩
      · intro hp
        have hok := PreB_lookup hp h
        have hwarm : acc.cold = false ∧ acc.transactionId = s.transactionId := by
          simpa using hcold
        have haccw : { acc with cold := false, transactionId := s.transactionId } = acc := by
          cases acc
          simp_all
        have hok3 : accountOk s.transactionId
            (codeAttach db wc { acc with cold := false, transactionId := s.transactionId }) = true := by
          rw [accountOk_codeAttach, haccw]
          exact hok
        have h1 := all_insertA (k := a) (PreB_state hp) hok3
        have h3 := PreB_tt hp
        exact PreB_of_parts h1 h3
      · refine transports_insert_nil rfl rfl rfl ?_
        intro acc0 acc2 h0 he
        rw [h] at h0
        cases h0
        obtain ⟨c, hc⟩ :=
          codeAttach_shape db wc { acc with cold := false, transactionId := s.transactionId }
        rw [hc] at he
        obtain ⟨e1, e2, e3, e4, e5, e6, e7, e8, e9, e10⟩ := he
        exact ⟨e1, e2, e3, e4, e5, e6, e7, e8, e9, e10⟩
  | none =>
    have heq := loadAccountOptional_absent db a wc s h
    rw [heq]
    have hok3 : accountOk s.transactionId
        (codeAttach db wc (loadedAccountOf db s.transactionId a)) = true := by
      rw [accountOk_codeAttach]
      exact accountOk_loadedAccountOf hdb s.transactionId a
    by_cases hc : (!(decide (a ∈ s.warmPreloadedAddresses)) &&
        !(decide (s.warmCoinbaseAddress = some a))) = true
    · simp only [hc, if_true]
      refine ⟨rfl, rfl, ?_, ⟨[], by simp⟩, ⟨[Entry.accountWarmed a], rfl, ?_⟩⟩
      · intro hp
        have h1 := all_insertA (k := a) (PreB_state hp) hok3
        have h3 := PreB_tt hp
        exact PreB_of_parts h1 h3
      · refine transports_modify_one rfl rfl rfl (fun z => rfl) ?_
        intro acc0 acc2 h0 he
        rw [h] at h0
        cases h0
    · rw [Bool.not_eq_true] at hc
      simp only [hc, Bool.false_eq_true, if_false]
      refine ⟨rfl, rfl, ?_, ⟨[], by simp⟩, ⟨[], by simp, ?_⟩⟩
      · intro hp
        have h1 := all_insertA (k := a) (PreB_state hp) hok3
        have h3 := PreB_tt hp
        exact PreB_of_parts h1 h3
      · refine transports_insert_nil rfl rfl rfl ?_
        intro acc0 acc2 h0 he
        rw [h] at h0
        cases h0

/-! ## StepOk for storage reads -/

/-- `accountOk` does not look at storage. -/
theorem accountOk_storage (txid : Nat) (acc : Account) (st : AList Nat EvmStorageSlot) :
    accountOk txid { acc with storage := st } = accountOk txid acc := rfl

/-- `sload` on a warm slot is a no-op. -/
theorem sloadF_warm (db : DB) (a : Addr) (k : Nat) (s : JState) (acc : Account)
    (slot : EvmStorageSlot) (ha : lookupA s.state a = some acc)
    (hs : lookupA acc.storage k = some slot)
    (hw : (slot.transactionId != s.transactionId) = false) :
    sloadF db a k s = some (slot.presentValue, false, s) := by
  have hw2 : slot.transactionId = s.transactionId := by simpa using hw
  have hslot1 : { slot with transactionId := s.transactionId } = slot := by
    cases slot
    simp_all
  have hacc1 : { acc with storage := insertA acc.storage k slot } = acc := by
    rw [insertA_lookup_self hs]
  unfold sloadF sloadWithAccount
  rw [ha]
  simp only [hs, hw, Bool.false_eq_true, if_false, hslot1, hacc1, insertA_lookup_self ha]

/-- `sload` on a cold (stale-transaction) slot warms it and journals
`StorageWarmed`. -/
theorem sloadF_cold (db : DB) (a : Addr) (k : Nat) (s : JState) (acc : Account)
    (slot : EvmStorageSlot) (ha : lookupA s.state a = some acc)
    (hs : lookupA acc.storage k = some slot)
    (hw : (slot.transactionId != s.transactionId) = true) :
    sloadF db a k s = some (slot.presentValue, true,
      { s with state := insertA s.state a { acc with storage := insertA acc.storage k { slot with transactionId := s.transactionId } },
               journal := s.journal ++ [Entry.storageWarmed a k] }) := by
  unfold sloadF sloadWithAccount
  rw [ha]
  simp only [hs, hw, if_true]

/-- `sload` on an absent slot inserts a fresh warm slot and journals
`StorageWarmed`; a locally created account reads zero without the database. -/
theorem sloadF_absent (db : DB) (a : Addr) (k : Nat) (s : JState) (acc : Account)
    (ha : lookupA s.state a = some acc) (hs : lookupA acc.storage k = none) :
    sloadF db a k s = some ((if acc.createdLocally = true then 0 else db.storage a k), true,
      { s with state := insertA s.state a { acc with storage := insertA acc.storage k (EvmStorageSlot.new (if acc.createdLocally = true then 0 else db.storage a k) s.transactionId) },
               journal := s.journal ++ [Entry.storageWarmed a k] }) := by
  unfold sloadF sloadWithAccount
  rw [ha]
  simp only [hs]

/-- `sload` is a valid step. -/
theorem stepOk_sloadF (db : DB) (a : Addr) (k : Nat) (s : JState)
    (out : Nat × Bool × JState) (hpre : PreB s = true)
    (h : sloadF db a k s = some out) : StepOk s out.2.2 := by
  cases ha : lookupA s.state a with
  | none =>
    unfold sloadF at h
    rw [ha] at h
    cases h
  | some acc =>
    cases hs : lookupA acc.storage k with
    | some slot =>
      by_cases hw : (slot.transactionId != s.transactionId) = true
      · rw [sloadF_cold db a k s acc slot ha hs hw] at h
        injection h with h2
        subst h2
        refine ⟨rfl, rfl, ?_, ⟨[], by simp⟩, ⟨[Entry.storageWarmed a k], rfl, ?_⟩⟩
        · intro hp
          have hok := PreB_lookup hp ha
          have hok2 : accountOk s.transactionId
              { acc with storage := insertA acc.storage k { slot with transactionId := s.transactionId } } = true := by
            rw [accountOk_storage]
            exact hok
          have h1 := all_insertA (k := a) (PreB_state hp) hok2
          have h3 := PreB_tt hp
          exact PreB_of_parts h1 h3
        · refine transports_modify_one rfl rfl rfl (fun z => rfl) ?_
          intro acc0 acc2 h0 he
          rw [ha] at h0
          cases h0
          obtain ⟨e1, e2, e3, e4, e5, e6, e7, e8, e9, e10⟩ := he
          refine ⟨e1, e2, e3, e4, e5, e6, e7, e8, e9, ?_⟩
          intro j
          by_cases hj : j = k
          · subst hj
            simp only [hs]
            have hwne : ¬ slot.transactionId = s.transactionId := by simpa using hw
            rw [if_neg hwne]
            right
            show lookupA (eraseA acc2.storage j) j = none
            rw [lookupA_eraseA, if_pos rfl]
          · have e10j := e10 j
            rw [lookupA_insertA, if_neg hj] at e10j
            show (match lookupA acc.storage j with
              | some slot => if slot.transactionId = s.transactionId
                  then lookupA (eraseA acc2.storage k) j = some slot
                  else lookupA (eraseA acc2.storage k) j = some slot ∨
                       lookupA (eraseA acc2.storage k) j = none
              | none => lookupA (eraseA acc2.storage k) j = none)
            rw [lookupA_eraseA, if_neg hj]
            exact e10j
      · rw [Bool.not_eq_true] at hw
        rw [sloadF_warm db a k s acc slot ha hs hw] at h
        injection h with h2
        subst h2
        exact stepOk_refl s
    | none =>
      rw [sloadF_absent db a k s acc ha hs] at h
      injection h with h2
      subst h2
      refine ⟨rfl, rfl, ?_, ⟨[], by simp⟩, ⟨[Entry.storageWarmed a k], rfl, ?_⟩⟩
      · intro hp
        have hok := PreB_lookup hp ha
        have hok2 : accountOk s.transactionId
            { acc with storage := insertA acc.storage k (EvmStorageSlot.new (if acc.createdLocally = true then 0 else db.storage a k) s.transactionId) } = true := by
          rw [accountOk_storage]
          exact hok
        have h1 := all_insertA (k := a) (PreB_state hp) hok2
        have h3 := PreB_tt hp
        exact PreB_of_parts h1 h3
      · refine transports_modify_one rfl rfl rfl (fun z => rfl) ?_
        intro acc0 acc2 h0 he
        rw [ha] at h0
        cases h0
        obtain ⟨e1, e2, e3, e4, e5, e6, e7, e8, e9, e10⟩ := he
        refine ⟨e1, e2, e3, e4, e5, e6, e7, e8, e9, ?_⟩
        intro j
        by_cases hj : j = k
        · subst hj
          simp only [hs]
          show lookupA (eraseA acc2.storage j) j = none
          rw [lookupA_eraseA, if_pos rfl]
        · have e10j := e10 j
          rw [lookupA_insertA, if_neg hj] at e10j
          show (match lookupA acc.storage j with
            | some slot => if slot.transactionId = s.transactionId
                then lookupA (eraseA acc2.storage k) j = some slot
                else lookupA (eraseA acc2.storage k) j = some slot ∨
                     lookupA (eraseA acc2.storage k) j = none
            | none => lookupA (eraseA acc2.storage k) j = none)
          rw [lookupA_eraseA, if_neg hj]
          exact e10j

/-! ## StepOk for storage writes -/

/-- After a successful `sload`, the address holds the read slot, warm for the
current transaction, with the returned value as present value. -/
theorem sloadF_slot (db : DB) (a : Addr) (k : Nat) (s : JState)
    (v : Nat) (c : Bool) (s1 : JState) (h : sloadF db a k s = some (v, c, s1)) :
    s1.transactionId = s.transactionId ∧
    ∃ acc slot, lookupA s1.state a = some acc ∧ lookupA acc.storage k = some slot ∧
      slot.presentValue = v ∧ slot.transactionId = s.transactionId := by
  cases ha : lookupA s.state a with
  | none =>
    unfold sloadF at h
    rw [ha] at h
    cases h
  | some acc =>
    cases hs : lookupA acc.storage k with
    | some slot =>
      by_cases hw : (slot.transactionId != s.transactionId) = true
      · rw [sloadF_cold db a k s acc slot ha hs hw] at h
        injection h with h1
        injection h1 with h1a h1r
        injection h1r with h1b h1c
        subst h1a h1c
        refine ⟨rfl, { acc with storage := insertA acc.storage k { slot with transactionId := s.transactionId } }, { slot with transactionId := s.transactionId }, ?_, ?_, rfl, rfl⟩
        · show lookupA (insertA s.state a _) a = _
          rw [lookupA_insertA, if_pos rfl]
        · show lookupA (insertA acc.storage k _) k = _
          rw [lookupA_insertA, if_pos rfl]
      · rw [Bool.not_eq_true] at hw
        rw [sloadF_warm db a k s acc slot ha hs hw] at h
        injection h with h1
        injection h1 with h1a h1r
        injection h1r with h1b h1c
        subst h1a h1c
        exact ⟨rfl, acc, slot, ha, hs, rfl, by simpa using hw⟩
    | none =>
      rw [sloadF_absent db a k s acc ha hs] at h
      injection h with h1
      injection h1 with h1a h1r
      injection h1r with h1b h1c
      subst h1a h1c
      refine ⟨rfl, { acc with storage := insertA acc.storage k (EvmStorageSlot.new (if acc.createdLocally = true then 0 else db.storage a k) s.transactionId) }, EvmStorageSlot.new (if acc.createdLocally = true then 0 else db.storage a k) s.transactionId, ?_, ?_, rfl, rfl⟩
      · show lookupA (insertA s.state a _) a = _
        rw [lookupA_insertA, if_pos rfl]
      · show lookupA (insertA acc.storage k _) k = _
        rw [lookupA_insertA, if_pos rfl]

/-- `sstore` is a valid step. -/
theorem stepOk_sstoreF (db : DB) (a : Addr) (k new : Nat) (s : JState)
    (out : SStoreResult × Bool × JState) (hpre : PreB s = true)
    (h : sstoreF db a k new s = some out) : StepOk s out.2.2 := by
  unfold sstoreF at h
  split at h
  · cases h
  · rename_i present isCold s1 hsl
    have hstep1 : StepOk s s1 := stepOk_sloadF db a k s (present, isCold, s1) hpre hsl
    obtain ⟨htid1, acc', slot', hacc', hslot', hpv', htid'⟩ := sloadF_slot db a k s _ _ _ hsl
    split at h
    · cases h
    · rename_i acc hacc
      rw [hacc'] at hacc
      injection hacc with hacc
      subst hacc
      split at h
      · cases h
      · rename_i slot hslot
        rw [hslot'] at hslot
        injection hslot with hslot
        subst hslot
        split at h
        · injection h with h2
          subst h2
          exact hstep1
        · rename_i hne
          injection h with h2
          subst h2
          refine StepOk.trans hstep1 ?_
          refine ⟨rfl, rfl, ?_, ⟨[], by simp⟩, ⟨[Entry.storageChanged a k present], rfl, ?_⟩⟩
          · intro hp
            have hok := PreB_lookup hp hacc'
            have hok2 : accountOk s1.transactionId
                { acc' with storage := insertA acc'.storage k { slot' with presentValue := new } } = true := by
              rw [accountOk_storage]
              exact hok
            have h1 := all_insertA (k := a) (PreB_state hp) hok2
            have h3 := PreB_tt hp
            exact PreB_of_parts h1 h3
          · refine transports_modify_one rfl rfl rfl (fun z => rfl) ?_
            intro acc0 acc2 h0 he
            rw [hacc'] at h0
            cases h0
            obtain ⟨e1, e2, e3, e4, e5, e6, e7, e8, e9, e10⟩ := he
            refine ⟨e1, e2, e3, e4, e5, e6, e7, e8, e9, ?_⟩
            intro j
            by_cases hj : j = k
            · subst hj
              simp only [hslot']
              have hw1 : slot'.transactionId = s1.transactionId := by
                rw [htid', htid1]
              rw [if_pos hw1]
              have e10j := e10 j
              rw [lookupA_insertA] at e10j
              split at e10j
              · rename_i slotx heqx
                rw [if_pos rfl] at heqx
                injection heqx with heqx
                subst heqx
                split at e10j
                · show lookupA (modifyA acc2.storage j _) j = some slot'
                  rw [lookupA_modifyA, if_pos rfl, e10j]
                  have hback : ({ { slot' with presentValue := new } with presentValue := present }
                      : EvmStorageSlot) = slot' := by
                    cases slot'
                    simp_all
                  simp [hback]
                · rename_i hcond
                  exact absurd hw1 hcond
              · rename_i heqx
                rw [if_pos rfl] at heqx
                cases heqx
            · have e10j := e10 j
              rw [lookupA_insertA, if_neg hj] at e10j
              show (match lookupA acc'.storage j with
                | some slot => if slot.transactionId = s1.transactionId
                    then lookupA (modifyA acc2.storage k _) j = some slot
                    else lookupA (modifyA acc2.storage k _) j = some slot ∨
                         lookupA (modifyA acc2.storage k _) j = none
                | none => lookupA (modifyA acc2.storage k _) j = none)
              rw [lookupA_modifyA, if_neg hj]
              exact e10j

/-! ## The debit-credit core of `transfer` -/

theorem insertA_insertA {K V : Type} [DecidableEq K] (l : AList K V) (k : K) (v1 v2 : V) :
    insertA (insertA l k v1) k v2 = insertA l k v2 := by
  induction l with
  | nil => simp [insertA]
  | cons hd tl ih =>
    obtain ⟨k1, w⟩ := hd
    by_cases h1 : k1 = k
    · simp [insertA, h1]
    · simp [insertA, h1, ih]

/-- `accountOk` with a rewritten in-range balance. -/
theorem accountOk_set_balance {txid : Nat} {acc : Account} (h : accountOk txid acc = true)
    {b : Nat} (hb : b < u256Limit) :
    accountOk txid { acc with info := { acc.info with balance := b } } = true := by
  unfold accountOk at h ⊢
  simp only [Bool.and_eq_true, decide_eq_true_eq] at h ⊢
  exact ⟨⟨h.1.1, hb⟩, h.2⟩

/-- `accountOk` ignores the touched flag. -/
theorem accountOk_touch (txid : Nat) (acc : Account) :
    accountOk txid { acc with touched := true } = accountOk txid acc := rfl

/-- The shape of a `BalanceTransfer` revert. -/
theorem revertEntry_bt (source dest : Addr) (amount : Nat) (z : RevState) :
    revertEntry (Entry.balanceTransfer source dest amount) z =
      (modifyA (modifyA z.1 source
          (fun acc => { acc with info := { acc.info with balance := wrapAdd acc.info.balance amount } })) dest
          (fun acc => { acc with info := { acc.info with balance := wrapSub acc.info.balance amount } }),
       z.2) := rfl

/-- The shape of a conditional touch revert. -/
theorem revertAll_touch (t : Bool) (a : Addr) (z : RevState) :
    revertAll (if t then [] else [Entry.accountTouched a]) z =
      if t then z else (modifyA z.1 a (fun x => { x with touched := false }), z.2) := by
  cases t <;> simp [revertAll, revertEntry]

/-- Touch `dest`, debit `source`, credit `dest` and journal one
`BalanceTransfer`: the core of a non-zero in-range `transfer`, reverted by
the `AccountTouched`/`BalanceTransfer` entries it appends. -/
theorem stepOk_balanceTransfer (s : JState) (source dest : Addr) (amount : Nat)
    (accF accT : Account)
    (hF : lookupA s.state source = some accF)
    (htF : accF.touched = true)
    (hamtF : amount ≤ accF.info.balance)
    (hbalF : accF.info.balance < u256Limit)
    (hT : lookupA (insertA s.state source
        { accF with info := { accF.info with balance := accF.info.balance - amount } }) dest = some accT)
    (hbalT : accT.info.balance + amount < u256Limit) :
    StepOk s { s with
      journal := s.journal ++ ((if accT.touched then [] else [Entry.accountTouched dest]) ++ [Entry.balanceTransfer source dest amount]),
      state := insertA (insertA s.state source { accF with info := { accF.info with balance := accF.info.balance - amount } }) dest
        { accT with touched := true, info := { accT.info with balance := accT.info.balance + amount } } } := by
  have hbF0 : accF.info.balance - amount < u256Limit := by omega
  have hbT0 : accT.info.balance < u256Limit := by omega
  have hamtL : amount < u256Limit := by omega
  refine ⟨rfl, rfl, ?_, ⟨[], by simp⟩,
    ⟨(if accT.touched then [] else [Entry.accountTouched dest]) ++ [Entry.balanceTransfer source dest amount],
     rfl, ?_⟩⟩
  · intro hp
    have hokF := PreB_lookup hp hF
    have hokF2 := accountOk_set_balance hokF hbF0
    have hall1 := all_insertA (k := source) (PreB_state hp) hokF2
    have hokT : accountOk s.transactionId accT = true := by
      by_cases hds : dest = source
      · subst hds
        rw [lookupA_insertA, if_pos rfl] at hT
        injection hT with hT
        rw [← hT]
        exact hokF2
      · rw [lookupA_insertA, if_neg hds] at hT
        exact PreB_lookup hp hT
    have hokT1 : accountOk s.transactionId { accT with touched := true } = true := by
      rw [accountOk_touch]
      exact hokT
    have hokT2 := accountOk_set_balance hokT1 hbalT
    have hall2 := all_insertA (k := dest) hall1 hokT2
    have h3 := PreB_tt hp
    exact PreB_of_parts hall2 h3
  · intro z hz
    obtain ⟨⟨tt, hz2, hz3⟩, hz4⟩ := hz
    rw [revertAll_append]
    have hzb : revertAll [Entry.balanceTransfer source dest amount] z =
        (modifyA (modifyA z.1 source
          (fun acc => { acc with info := { acc.info with balance := wrapAdd acc.info.balance amount } })) dest
          (fun acc => { acc with info := { acc.info with balance := wrapSub acc.info.balance amount } }),
         z.2) := revertEntry_bt source dest amount z
    rw [hzb, revertAll_touch]
    by_cases hds : dest = source
    · subst hds
      rw [lookupA_insertA, if_pos rfl] at hT
      injection hT with hT
      subst hT
      have htT : ({ accF with info := { accF.info with balance := accF.info.balance - amount } } : Account).touched = true := htF
      rw [htT, if_pos rfl]
      refine ⟨⟨tt, hz2, fun key => by rw [hz3 key]⟩, ?_⟩
      intro a0 acc0 h0
      by_cases ha0 : dest = a0
      · subst ha0
        rw [hF] at h0
        injection h0 with h0
        subst h0
        have hlk : lookupA (insertA (insertA s.state dest
            { accF with info := { accF.info with balance := accF.info.balance - amount } }) dest
            { { accF with info := { accF.info with balance := accF.info.balance - amount } } with touched := true, info := { { accF with info := { accF.info with balance := accF.info.balance - amount } }.info with balance := { accF with info := { accF.info with balance := accF.info.balance - amount } }.info.balance + amount } }) dest =
            some { { accF with info := { accF.info with balance := accF.info.balance - amount } } with touched := true, info := { { accF with info := { accF.info with balance := accF.info.balance - amount } }.info with balance := { accF with info := { accF.info with balance := accF.info.balance - amount } }.info.balance + amount } } := by
          rw [lookupA_insertA, if_pos rfl]
        obtain ⟨acc2, hl2, he2⟩ := hz4 _ _ hlk
        obtain ⟨e1, e2, e3, e4, e5, e6, e7, e8, e9, e10⟩ := he2
        refine ⟨{ acc2 with info := { acc2.info with balance := wrapSub (wrapAdd acc2.info.balance amount) amount } }, ?_, ?_⟩
        · rw [lookupA_modifyA, if_pos rfl, lookupA_modifyA, if_pos rfl, hl2]
          rfl
        · have e1' : acc2.info.balance = accF.info.balance - amount + amount := e1
          have ebal : wrapSub (wrapAdd acc2.info.balance amount) amount = accF.info.balance := by
            rw [e1']
            have h9 : accF.info.balance - amount + amount = accF.info.balance := by omega
            rw [h9]
            exact wrapSub_wrapAdd hbalF hamtL
          refine ⟨ebal, e2, e3, ?_, e5, e6, e7, e8, e9, e10⟩
          have e4' : acc2.touched = true := e4
          show acc2.touched = accF.touched
          rw [e4', htF]
      · have hlk : lookupA (insertA (insertA s.state dest
            { accF with info := { accF.info with balance := accF.info.balance - amount } }) dest
            { { accF with info := { accF.info with balance := accF.info.balance - amount } } with touched := true, info := { { accF with info := { accF.info with balance := accF.info.balance - amount } }.info with balance := { accF with info := { accF.info with balance := accF.info.balance - amount } }.info.balance + amount } }) a0 =
            some acc0 := by
          rw [lookupA_insertA, if_neg (fun hh => ha0 hh.symm), lookupA_insertA,
            if_neg (fun hh => ha0 hh.symm)]
          exact h0
        obtain ⟨acc2, hl2, he2⟩ := hz4 _ _ hlk
        refine ⟨acc2, ?_, he2⟩
        rw [lookupA_modifyA, if_neg (fun hh => ha0 hh.symm), lookupA_modifyA,
          if_neg (fun hh => ha0 hh.symm)]
        exact hl2
    · rw [lookupA_insertA, if_neg hds] at hT
      by_cases htT : accT.touched = true
      · rw [htT, if_pos rfl]
        refine ⟨⟨tt, hz2, fun key => by rw [hz3 key]⟩, ?_⟩
        intro a0 acc0 h0
        by_cases haS : source = a0
        · subst haS
          rw [hF] at h0
          injection h0 with h0
          subst h0
          have hlk : lookupA (insertA (insertA s.state source
              { accF with info := { accF.info with balance := accF.info.balance - amount } }) dest
              { accT with touched := true, info := { accT.info with balance := accT.info.balance + amount } }) source =
              some { accF with info := { accF.info with balance := accF.info.balance - amount } } := by
            rw [lookupA_insertA, if_neg (fun hh => hds hh.symm), lookupA_insertA, if_pos rfl]
          obtain ⟨acc2, hl2, he2⟩ := hz4 _ _ hlk
          obtain ⟨e1, e2, e3, e4, e5, e6, e7, e8, e9, e10⟩ := he2
          refine ⟨{ acc2 with info := { acc2.info with balance := wrapAdd acc2.info.balance amount } }, ?_, ?_⟩
          · rw [lookupA_modifyA, if_neg (fun hh => hds hh.symm), lookupA_modifyA, if_pos rfl, hl2]
            rfl
          · have e1' : acc2.info.balance = accF.info.balance - amount := e1
            have ebal : wrapAdd acc2.info.balance amount = accF.info.balance := by
              rw [e1']
              exact wrapAdd_sub_self hamtF hbalF
            exact ⟨ebal, e2, e3, e4, e5, e6, e7, e8, e9, e10⟩
        · by_cases haT : dest = a0
          · subst haT
            rw [hT] at h0
            injection h0 with h0
            subst h0
            have hlk : lookupA (insertA (insertA s.state source
                { accF with info := { accF.info with balance := accF.info.balance - amount } }) dest
                { accT with touched := true, info := { accT.info with balance := accT.info.balance + amount } }) dest =
                some { accT with touched := true, info := { accT.info with balance := accT.info.balance + amount } } := by
              rw [lookupA_insertA, if_pos rfl]
            obtain ⟨acc2, hl2, he2⟩ := hz4 _ _ hlk
            obtain ⟨e1, e2, e3, e4, e5, e6, e7, e8, e9, e10⟩ := he2
            refine ⟨{ acc2 with info := { acc2.info with balance := wrapSub acc2.info.balance amount } }, ?_, ?_⟩
            · rw [lookupA_modifyA, if_pos rfl, lookupA_modifyA, if_neg hds, hl2]
              rfl
            · have e1' : acc2.info.balance = accT.info.balance + amount := e1
              have ebal : wrapSub acc2.info.balance amount = accT.info.balance := by
                rw [e1']
                exact wrapSub_add_self hbT0 hamtL
              refine ⟨ebal, e2, e3, ?_, e5, e6, e7, e8, e9, e10⟩
              have e4' : acc2.touched = true := e4
              show acc2.touched = accT.touched
              rw [e4', htT]
          · have hlk : lookupA (insertA (insertA s.state source
                { accF with info := { accF.info with balance := accF.info.balance - amount } }) dest
                { accT with touched := true, info := { accT.info with balance := accT.info.balance + amount } }) a0 =
                some acc0 := by
              rw [lookupA_insertA, if_neg (fun hh => haT hh.symm), lookupA_insertA,
                if_neg (fun hh => haS hh.symm)]
              exact h0
            obtain ⟨acc2, hl2, he2⟩ := hz4 _ _ hlk
            refine ⟨acc2, ?_, he2⟩
            rw [lookupA_modifyA, if_neg (fun hh => haT hh.symm), lookupA_modifyA,
              if_neg (fun hh => haS hh.symm)]
            exact hl2
      · rw [Bool.not_eq_true] at htT
        rw [htT]
        simp only [Bool.false_eq_true, if_false]
        refine ⟨⟨tt, hz2, fun key => by rw [hz3 key]⟩, ?_⟩
        intro a0 acc0 h0
        by_cases haT : dest = a0
        · subst haT
          rw [hT] at h0
          injection h0 with h0
          subst h0
          have hlk : lookupA (insertA (insertA s.state source
              { accF with info := { accF.info with balance := accF.info.balance - amount } }) dest
              { accT with touched := true, info := { accT.info with balance := accT.info.balance + amount } }) dest =
              some { accT with touched := true, info := { accT.info with balance := accT.info.balance + amount } } := by
            rw [lookupA_insertA, if_pos rfl]
          obtain ⟨acc2, hl2, he2⟩ := hz4 _ _ hlk
          obtain ⟨e1, e2, e3, e4, e5, e6, e7, e8, e9, e10⟩ := he2
          refine ⟨{ acc2 with touched := false, info := { acc2.info with balance := wrapSub acc2.info.balance amount } }, ?_, ?_⟩
          · rw [lookupA_modifyA, if_pos rfl, lookupA_modifyA, if_pos rfl,
              lookupA_modifyA, if_neg hds, hl2]
            rfl
          · have e1' : acc2.info.balance = accT.info.balance + amount := e1
            have ebal : wrapSub acc2.info.balance amount = accT.info.balance := by
              rw [e1']
              exact wrapSub_add_self hbT0 hamtL
            refine ⟨ebal, e2, e3, ?_, e5, e6, e7, e8, e9, e10⟩
            show false = accT.touched
            rw [htT]
        · by_cases haS : source = a0
          · subst haS
            rw [hF] at h0
            injection h0 with h0
            subst h0
            have hlk : lookupA (insertA (insertA s.state source
                { accF with info := { accF.info with balance := accF.info.balance - amount } }) dest
                { accT with touched := true, info := { accT.info with balance := accT.info.balance + amount } }) source =
                some { accF with info := { accF.info with balance := accF.info.balance - amount } } := by
              rw [lookupA_insertA, if_neg (fun hh => haT hh.symm), lookupA_insertA, if_pos rfl]
            obtain ⟨acc2, hl2, he2⟩ := hz4 _ _ hlk
            obtain ⟨e1, e2, e3, e4, e5, e6, e7, e8, e9, e10⟩ := he2
            refine ⟨{ acc2 with info := { acc2.info with balance := wrapAdd acc2.info.balance amount } }, ?_, ?_⟩
            · rw [lookupA_modifyA, if_neg (fun hh => haT hh.symm), lookupA_modifyA,
                if_neg (fun hh => haT hh.symm), lookupA_modifyA, if_pos rfl, hl2]
              rfl
            · have e1' : acc2.info.balance = accF.info.balance - amount := e1
              have ebal : wrapAdd acc2.info.balance amount = accF.info.balance := by
                rw [e1']
                exact wrapAdd_sub_self hamtF hbalF
              exact ⟨ebal, e2, e3, e4, e5, e6, e7, e8, e9, e10⟩
          · have hlk : lookupA (insertA (insertA s.state source
                { accF with info := { accF.info with balance := accF.info.balance - amount } }) dest
                { accT with touched := true, info := { accT.info with balance := accT.info.balance + amount } }) a0 =
                some acc0 := by
              rw [lookupA_insertA, if_neg (fun hh => haT hh.symm), lookupA_insertA,
                if_neg (fun hh => haS hh.symm)]
              exact h0
            obtain ⟨acc2, hl2, he2⟩ := hz4 _ _ hlk
            refine ⟨acc2, ?_, he2⟩
            rw [lookupA_modifyA, if_neg (fun hh => haT hh.symm), lookupA_modifyA,
              if_neg (fun hh => haT hh.symm), lookupA_modifyA, if_neg (fun hh => haS hh.symm)]
            exact hl2

/-! ## StepOk for `transfer` -/

/-- A zero-amount `transfer` only loads and touches `to`. -/
theorem transferF_zero (db : DB) (source dest : Addr) (s : JState) (accT : Account)
    (hT : lookupA (loadAccount db dest s).2.state dest = some accT) :
    transferF db source dest 0 s = some (none, touchF dest (loadAccount db dest s).2) := by
  unfold transferF touchF
  simp [hT]

/-- An out-of-funds `transfer` loads both and touches `from`. -/
theorem transferF_oof (db : DB) (source dest : Addr) (amount : Nat) (s : JState)
    (accF : Account) (hamt : amount ≠ 0)
    (hF : lookupA (loadAccount db dest (loadAccount db source s).2).2.state source = some accF)
    (hsub : checkedSub accF.info.balance amount = none) :
    transferF db source dest amount s =
      some (some TransferError.outOfFunds,
        touchF source (loadAccount db dest (loadAccount db source s).2).2) := by
  unfold transferF touchF
  simp [hamt, hF, touchAccount_eq, hsub]

/-- A successful non-zero `transfer`: loads, touches, debit, credit and a
single `BalanceTransfer` entry. -/
theorem transferF_ok (db : DB) (source dest : Addr) (amount : Nat) (s s2 : JState)
    (accF accT : Account) (hamt : amount ≠ 0)
    (hs2 : (loadAccount db dest (loadAccount db source s).2).2 = s2)
    (hF : lookupA s2.state source = some accF)
    (hsub : amount ≤ accF.info.balance)
    (hT : lookupA (insertA s2.state source { accF with touched := true, info := { accF.info with balance := accF.info.balance - amount } }) dest = some accT)
    (hadd : accT.info.balance + amount < u256Limit) :
    transferF db source dest amount s = some (none,
      { s2 with
        journal := (s2.journal ++ (if accF.touched then [] else [Entry.accountTouched source])) ++ ((if accT.touched then [] else [Entry.accountTouched dest]) ++ [Entry.balanceTransfer source dest amount]),
        state := insertA (insertA (insertA s2.state source { accF with touched := true }) source { accF with touched := true, info := { accF.info with balance := accF.info.balance - amount } }) dest { accT with touched := true, info := { accT.info with balance := accT.info.balance + amount } } }) := by
  unfold transferF
  simp [hamt, hs2, hF, touchAccount_eq, checkedSub, hsub, hT, checkedAdd, hadd,
    insertA_insertA, List.append_assoc]

/-- An overflowing non-zero `transfer` keeps the debit of `from` and reports
`OverflowPayment`. -/
theorem transferF_overflow (db : DB) (source dest : Addr) (amount : Nat) (s s2 : JState)
    (accF accT : Account) (hamt : amount ≠ 0)
    (hs2 : (loadAccount db dest (loadAccount db source s).2).2 = s2)
    (hF : lookupA s2.state source = some accF)
    (hsub : amount ≤ accF.info.balance)
    (hT : lookupA (insertA s2.state source { accF with touched := true, info := { accF.info with balance := accF.info.balance - amount } }) dest = some accT)
    (hadd : ¬ accT.info.balance + amount < u256Limit) :
    transferF db source dest amount s = some (some TransferError.overflowPayment,
      { s2 with
        journal := (s2.journal ++ (if accF.touched then [] else [Entry.accountTouched source])) ++ (if accT.touched then [] else [Entry.accountTouched dest]),
        state := insertA (insertA s2.state source { accF with touched := true, info := { accF.info with balance := accF.info.balance - amount } }) dest { accT with touched := true } }) := by
  unfold transferF
  simp [hamt, hs2, hF, touchAccount_eq, checkedSub, hsub, hT, checkedAdd, hadd,
    insertA_insertA, List.append_assoc]

/-- `transfer` is a valid step whenever it does not report `OverflowPayment`. -/
theorem stepOk_transferF (db : DB) (source dest : Addr) (amount : Nat) (s : JState)
    (out : Option TransferError × JState) (hdb : DbOk db) (hpre : PreB s = true)
    (h : transferF db source dest amount s = some out)
    (hov : out.1 ≠ some TransferError.overflowPayment) : StepOk s out.2 := by
  by_cases hamt : amount = 0
  · subst hamt
    cases hT : lookupA (loadAccount db dest s).2.state dest with
    | none =>
      unfold transferF at h
      simp [hT] at h
    | some accT =>
      rw [transferF_zero db source dest s accT hT] at h
      injection h with h1
      subst h1
      exact StepOk.trans (stepOk_loadAccountOptional db dest false s hdb hpre)
        (stepOk_touchF dest (loadAccount db dest s).2)
  · have hstep1 : StepOk s (loadAccount db source s).2 :=
      stepOk_loadAccountOptional db source false s hdb hpre
    have hpre1 : PreB (loadAccount db source s).2 = true := hstep1.2.2.1 hpre
    have hstep2 : StepOk (loadAccount db source s).2
        (loadAccount db dest (loadAccount db source s).2).2 :=
      stepOk_loadAccountOptional db dest false (loadAccount db source s).2 hdb hpre1
    have hpre2 : PreB (loadAccount db dest (loadAccount db source s).2).2 = true :=
      hstep2.2.2.1 hpre1
    have hsteps : StepOk s (loadAccount db dest (loadAccount db source s).2).2 :=
      StepOk.trans hstep1 hstep2
    cases hF : lookupA (loadAccount db dest (loadAccount db source s).2).2.state source with
    | none =>
      unfold transferF at h
      simp [hamt, hF] at h
    | some accF =>
      by_cases hsub : amount ≤ accF.info.balance
      · cases hT : lookupA (insertA (loadAccount db dest (loadAccount db source s).2).2.state source
            { accF with touched := true, info := { accF.info with balance := accF.info.balance - amount } }) dest with
        | none =>
          unfold transferF at h
          simp [hamt, hF, touchAccount_eq, checkedSub, hsub, hT] at h
        | some accT =>
          by_cases hadd : accT.info.balance + amount < u256Limit
          · rw [transferF_ok db source dest amount s _ accF accT hamt rfl hF hsub hT hadd] at h
            injection h with h1
            subst h1
            refine StepOk.trans hsteps ?_
            have htch := stepOk_touchF source (loadAccount db dest (loadAccount db source s).2).2
            rw [touchF_present hF] at htch
            refine StepOk.trans htch ?_
            have hbalF : ({ accF with touched := true } : Account).info.balance < u256Limit := by
              have hok := PreB_lookup hpre2 hF
              exact accountOk_balance hok
            have hT' : lookupA (insertA (insertA (loadAccount db dest (loadAccount db source s).2).2.state source { accF with touched := true }) source
                { accF with touched := true, info := { accF.info with balance := accF.info.balance - amount } }) dest = some accT := by
              rw [insertA_insertA]
              exact hT
            exact stepOk_balanceTransfer _ source dest amount { accF with touched := true } accT
              (by rw [lookupA_insertA, if_pos rfl]) rfl hsub hbalF hT' hadd
          · rw [transferF_overflow db source dest amount s _ accF accT hamt rfl hF hsub hT hadd] at h
            injection h with h1
            subst h1
            exact absurd rfl hov
      · have hsubn : checkedSub accF.info.balance amount = none := by
          unfold checkedSub
          rw [if_neg hsub]
        rw [transferF_oof db source dest amount s accF hamt hF hsubn] at h
        injection h with h1
        subst h1
        exact StepOk.trans hsteps
          (stepOk_touchF source (loadAccount db dest (loadAccount db source s).2).2)

/-! ## StepOk for `selfdestruct` -/

/-- A load only rewrites the loaded address in state. -/
theorem loadAccountOptional_state_other (db : DB) (t : Addr) (wc : Bool) (s : JState)
    (a : Addr) (hne : ¬ a = t) :
    lookupA (loadAccountOptional db t wc [] s).2.state a = lookupA s.state a := by
  show lookupA (insertA s.state t _) a = lookupA s.state a
  rw [lookupA_insertA, if_neg hne]

/-- After a load the loaded address is present. -/
theorem loadAccountOptional_state_self (db : DB) (t : Addr) (wc : Bool) (s : JState) :
    ∃ accT, lookupA (loadAccountOptional db t wc [] s).2.state t = some accT := by
  have h2 : ∀ (st : AList Addr Account) (x : Account), lookupA (insertA st t x) t = some x :=
    fun st x => by rw [lookupA_insertA, if_pos rfl]
  exact ⟨_, h2 _ _⟩

/-- The three-valued revert status computed by `selfdestruct`. -/
def sdStatusOf (acc : Account) : SdStatus :=
  if ¬ acc.selfdestructedGlobally = true then SdStatus.globallySelfdestroyed
  else if ¬ acc.selfdestructedLocally = true then SdStatus.locallySelfdestroyed
  else SdStatus.repeatedSelfdestruction

/-- `selfdestruct` to self, destroying (created locally or pre-Cancun). -/
theorem selfdestructF_self_destroy (db : DB) (a : Addr) (s s1 : JState) (accT : Account)
    (hs1 : (loadAccount db a s).2 = s1)
    (hT : lookupA s1.state a = some accT)
    (hdes : accT.createdLocally = true ∨ s.spec.is_enabled_in SpecId.CANCUN = false) :
    selfdestructF db a a s = some
      ({ hadValue := accT.info.balance != 0,
         targetExists := !(accT.stateClearAwareIsEmpty s.spec),
         previouslyDestroyed := decide (sdStatusOf accT = SdStatus.repeatedSelfdestruction) },
       (loadAccount db a s).1,
       { s1 with
         journal := s1.journal ++ [Entry.accountDestroyed a a (sdStatusOf accT) accT.info.balance],
         state := insertA s1.state a { accT with selfdestructedLocally := true, selfdestructedGlobally := true, info := { accT.info with balance := 0 } } }) := by
  unfold selfdestructF sdStatusOf
  simp only [hs1, hT]
  simp only [if_true]
  simp [hT, hdes]

/-- `selfdestruct` to self without destruction (EIP-6780): a no-op after the
load. -/
theorem selfdestructF_self_keep (db : DB) (a : Addr) (s s1 : JState) (accT : Account)
    (hs1 : (loadAccount db a s).2 = s1)
    (hT : lookupA s1.state a = some accT)
    (hdes : ¬ (accT.createdLocally = true ∨ s.spec.is_enabled_in SpecId.CANCUN = false)) :
    selfdestructF db a a s = some
      ({ hadValue := accT.info.balance != 0,
         targetExists := !(accT.stateClearAwareIsEmpty s.spec),
         previouslyDestroyed := decide (sdStatusOf accT = SdStatus.repeatedSelfdestruction) },
       (loadAccount db a s).1, s1) := by
  unfold selfdestructF sdStatusOf
  simp only [hs1, hT]
  simp only [if_true]
  simp [hT, hdes, insertA_lookup_self hT]

/-- `selfdestruct` to a distinct target, destroying. -/
theorem selfdestructF_other_destroy (db : DB) (a t : Addr) (s s1 : JState)
    (accA accT : Account) (hne : ¬ a = t)
    (hs1 : (loadAccount db t s).2 = s1)
    (hT : lookupA s1.state t = some accT)
    (hA : lookupA s1.state a = some accA)
    (hdes : accA.createdLocally = true ∨ s.spec.is_enabled_in SpecId.CANCUN = false) :
    selfdestructF db a t s = some
      ({ hadValue := accA.info.balance != 0,
         targetExists := !(accT.stateClearAwareIsEmpty s.spec),
         previouslyDestroyed := decide (sdStatusOf accA = SdStatus.repeatedSelfdestruction) },
       (loadAccount db t s).1,
       { s1 with
         journal := (s1.journal ++ (if accT.touched then [] else [Entry.accountTouched t])) ++ [Entry.accountDestroyed a t (sdStatusOf accA) accA.info.balance],
         state := insertA (insertA s1.state t { accT with touched := true, info := { accT.info with balance := wrapAdd accT.info.balance accA.info.balance } }) a { accA with selfdestructedLocally := true, selfdestructedGlobally := true, info := { accA.info with balance := 0 } } }) := by
  unfold selfdestructF sdStatusOf
  simp only [hs1, hT]
  rw [if_neg hne]
  have hA2 : lookupA (insertA s1.state t { { accT with touched := true } with info := { ({ accT with touched := true } : Account).info with balance := wrapAdd ({ accT with touched := true } : Account).info.balance accA.info.balance } }) a = some accA := by
    rw [lookupA_insertA, if_neg hne]
    exact hA
  simp [hA, touchAccount_eq, hA2, hdes, List.append_assoc]

/-- `selfdestruct` to a distinct target without destruction (EIP-6780): a
plain balance transfer. -/
theorem selfdestructF_other_transfer (db : DB) (a t : Addr) (s s1 : JState)
    (accA accT : Account) (hne : ¬ a = t)
    (hs1 : (loadAccount db t s).2 = s1)
    (hT : lookupA s1.state t = some accT)
    (hA : lookupA s1.state a = some accA)
    (hdes : ¬ (accA.createdLocally = true ∨ s.spec.is_enabled_in SpecId.CANCUN = false)) :
    selfdestructF db a t s = some
      ({ hadValue := accA.info.balance != 0,
         targetExists := !(accT.stateClearAwareIsEmpty s.spec),
         previouslyDestroyed := decide (sdStatusOf accA = SdStatus.repeatedSelfdestruction) },
       (loadAccount db t s).1,
       { s1 with
         journal := (s1.journal ++ (if accT.touched then [] else [Entry.accountTouched t])) ++ [Entry.balanceTransfer a t accA.info.balance],
         state := insertA (insertA s1.state t { accT with touched := true, info := { accT.info with balance := wrapAdd accT.info.balance accA.info.balance } }) a { accA with info := { accA.info with balance := 0 } } }) := by
  unfold selfdestructF sdStatusOf
  simp only [hs1, hT]
  rw [if_neg hne]
  have hA2 : lookupA (insertA s1.state t { { accT with touched := true } with info := { ({ accT with touched := true } : Account).info with balance := wrapAdd ({ accT with touched := true } : Account).info.balance accA.info.balance } }) a = some accA := by
    rw [lookupA_insertA, if_neg hne]
    exact hA
  simp [hA, touchAccount_eq, hA2, hdes, hne, List.append_assoc]

/-! ## Core transport lemmas for `selfdestruct` -/

theorem wrapAdd_lt (a b : Nat) : wrapAdd a b < u256Limit :=
  Nat.mod_lt _ u256Limit_pos

/-- After a load the loaded address is present, warm for the current tx. -/
theorem loadAccountOptional_state_self_warm (db : DB) (t : Addr) (wc : Bool) (s : JState)
    (hpre : PreB s = true) :
    ∃ accT, lookupA (loadAccountOptional db t wc [] s).2.state t = some accT ∧
      accT.cold = false ∧ accT.transactionId = s.transactionId := by
  have hself : ∀ (st : AList Addr Account) (x : Account), lookupA (insertA st t x) t = some x :=
    fun st x => by rw [lookupA_insertA, if_pos rfl]
  cases h : lookupA s.state t with
  | some acc =>
    by_cases hcold : (acc.cold || acc.transactionId != s.transactionId) = true
    · obtain ⟨hcl, hsd⟩ := accountOk_cold_flags (PreB_lookup hpre h) hcold
      rw [loadAccountOptional_cold db t wc s acc h hcold hsd hcl]
      obtain ⟨c, hc⟩ := codeAttach_shape db wc { acc with cold := false, transactionId := s.transactionId }
      refine ⟨_, hself _ _, ?_, ?_⟩
      · rw [hc]
      · rw [hc]
    · rw [Bool.not_eq_true] at hcold
      rw [loadAccountOptional_warm db t wc s acc h hcold]
      obtain ⟨c, hc⟩ := codeAttach_shape db wc { acc with cold := false, transactionId := s.transactionId }
      refine ⟨_, hself _ _, ?_, ?_⟩
      · rw [hc]
      · rw [hc]
  | none =>
    rw [loadAccountOptional_absent db t wc s h]
    obtain ⟨c, hc⟩ := codeAttach_shape db wc (loadedAccountOf db s.transactionId t)
    have hl : (loadedAccountOf db s.transactionId t).cold = false ∧
        (loadedAccountOf db s.transactionId t).transactionId = s.transactionId := by
      unfold loadedAccountOf
      split <;> exact ⟨rfl, rfl⟩
    refine ⟨_, hself _ _, ?_, ?_⟩
    · rw [hc]
      exact hl.1
    · rw [hc]
      exact hl.2

/-- Journal one entry whose revert rewrites the single account `a`,
with the state rewritten at `a` to an account `D` whose revert `g`
restores cache-equivalence. -/
theorem stepOk_sdSelfCore (s : JState) (a : Addr) (D : Account) (e : Entry)
    (g : Account → Account)
    (hokD : accountOk s.transactionId D = true)
    (hrevE : ∀ z : RevState, revertEntry e z = (modifyA z.1 a g, z.2))
    (hrestore : ∀ acc acc2, lookupA s.state a = some acc →
      AccEq s.transactionId D acc2 → AccEq s.transactionId acc (g acc2)) :
    StepOk s { s with journal := s.journal ++ [e], state := insertA s.state a D } := by
  refine ⟨rfl, rfl, ?_, ⟨[], by simp⟩, ⟨[e], rfl, ?_⟩⟩
  · intro hp
    have h1 := all_insertA (k := a) (PreB_state hp) hokD
    have h3 := PreB_tt hp
    exact PreB_of_parts h1 h3
  · exact transports_modify_one rfl rfl rfl hrevE hrestore

/-- Touch and credit a distinct target `t`, rewrite account `a` to `D`, and
journal one entry whose revert restores `a` through `g` and debits `t`. -/
theorem stepOk_sdCore (s : JState) (a t : Addr) (accA accT D : Account) (e : Entry)
    (g : Account → Account)
    (hne : ¬ a = t)
    (hA : lookupA s.state a = some accA)
    (hT : lookupA s.state t = some accT)
    (hokD : accountOk s.transactionId D = true)
    (hbT : accT.info.balance < u256Limit)
    (hbA : accA.info.balance < u256Limit)
    (hrevE : ∀ z : RevState, revertEntry e z =
      (modifyA (modifyA z.1 a g) t
        (fun acc => { acc with info := { acc.info with balance := wrapSub acc.info.balance accA.info.balance } }), z.2))
    (hrestore : ∀ acc2, AccEq s.transactionId D acc2 → AccEq s.transactionId accA (g acc2)) :
    StepOk s { s with
      journal := (s.journal ++ (if accT.touched then [] else [Entry.accountTouched t])) ++ [e],
      state := insertA (insertA s.state t { accT with touched := true, info := { accT.info with balance := wrapAdd accT.info.balance accA.info.balance } }) a D } := by
  have htne : ¬ t = a := fun hh => hne hh.symm
  refine ⟨rfl, rfl, ?_, ⟨[], by simp⟩,
    ⟨(if accT.touched then [] else [Entry.accountTouched t]) ++ [e], by simp, ?_⟩⟩
  · intro hp
    have hokT := PreB_lookup hp hT
    have hokT1 : accountOk s.transactionId { accT with touched := true } = true := by
      rw [accountOk_touch]
      exact hokT
    have hokT2 := accountOk_set_balance hokT1 (wrapAdd_lt accT.info.balance accA.info.balance)
    have hall1 := all_insertA (k := t) (PreB_state hp) hokT2
    have hall2 := all_insertA (k := a) hall1 hokD
    have h3 := PreB_tt hp
    exact PreB_of_parts hall2 h3
  · intro z hz
    obtain ⟨⟨tt, hz2, hz3⟩, hz4⟩ := hz
    rw [revertAll_append]
    rw [show revertAll [e] z = revertEntry e z from rfl, hrevE z, revertAll_touch]
    by_cases htT : accT.touched = true
    · rw [htT, if_pos rfl]
      refine ⟨⟨tt, hz2, fun key => by rw [hz3 key]⟩, ?_⟩
      intro a0 acc0 h0
      by_cases haA : a = a0
      · subst haA
        rw [hA] at h0
        injection h0 with h0
        subst h0
        have hlk : lookupA (insertA (insertA s.state t { accT with touched := true, info := { accT.info with balance := wrapAdd accT.info.balance accA.info.balance } }) a D) a = some D := by
          rw [lookupA_insertA, if_pos rfl]
        obtain ⟨acc2, hl2, he2⟩ := hz4 _ _ hlk
        refine ⟨g acc2, ?_, hrestore acc2 he2⟩
        rw [lookupA_modifyA, if_neg hne, lookupA_modifyA, if_pos rfl, hl2]
        rfl
      · by_cases haT : t = a0
        · subst haT
          rw [hT] at h0
          injection h0 with h0
          subst h0
          have hlk : lookupA (insertA (insertA s.state t { accT with touched := true, info := { accT.info with balance := wrapAdd accT.info.balance accA.info.balance } }) a D) t = some { accT with touched := true, info := { accT.info with balance := wrapAdd accT.info.balance accA.info.balance } } := by
            rw [lookupA_insertA, if_neg htne, lookupA_insertA, if_pos rfl]
          obtain ⟨acc2, hl2, he2⟩ := hz4 _ _ hlk
          obtain ⟨e1, e2, e3, e4, e5, e6, e7, e8, e9, e10⟩ := he2
          refine ⟨{ acc2 with info := { acc2.info with balance := wrapSub acc2.info.balance accA.info.balance } }, ?_, ?_⟩
          · rw [lookupA_modifyA, if_pos rfl, lookupA_modifyA, if_neg (fun hh => hne hh.symm), hl2]
            rfl
          · have e1' : acc2.info.balance = wrapAdd accT.info.balance accA.info.balance := e1
            have ebal : wrapSub acc2.info.balance accA.info.balance = accT.info.balance := by
              rw [e1']
              exact wrapSub_wrapAdd hbT hbA
            refine ⟨ebal, e2, e3, ?_, e5, e6, e7, e8, e9, e10⟩
            have e4' : acc2.touched = true := e4
            show acc2.touched = accT.touched
            rw [e4', htT]
        · have hlk : lookupA (insertA (insertA s.state t { accT with touched := true, info := { accT.info with balance := wrapAdd accT.info.balance accA.info.balance } }) a D) a0 = some acc0 := by
            rw [lookupA_insertA, if_neg (fun hh => haA hh.symm), lookupA_insertA,
              if_neg (fun hh => haT hh.symm)]
            exact h0
          obtain ⟨acc2, hl2, he2⟩ := hz4 _ _ hlk
          refine ⟨acc2, ?_, he2⟩
          rw [lookupA_modifyA, if_neg (fun hh => haT hh.symm), lookupA_modifyA,
            if_neg (fun hh => haA hh.symm)]
          exact hl2
    · rw [Bool.not_eq_true] at htT
      rw [htT]
      simp only [Bool.false_eq_true, if_false]
      refine ⟨⟨tt, hz2, fun key => by rw [hz3 key]⟩, ?_⟩
      intro a0 acc0 h0
      by_cases haA : a = a0
      · subst haA
        rw [hA] at h0
        injection h0 with h0
        subst h0
        have hlk : lookupA (insertA (insertA s.state t { accT with touched := true, info := { accT.info with balance := wrapAdd accT.info.balance accA.info.balance } }) a D) a = some D := by
          rw [lookupA_insertA, if_pos rfl]
        obtain ⟨acc2, hl2, he2⟩ := hz4 _ _ hlk
        refine ⟨g acc2, ?_, hrestore acc2 he2⟩
        rw [lookupA_modifyA, if_neg hne, lookupA_modifyA, if_neg hne,
          lookupA_modifyA, if_pos rfl, hl2]
        rfl
      · by_cases haT : t = a0
        · subst haT
          rw [hT] at h0
          injection h0 with h0
          subst h0
          have hlk : lookupA (insertA (insertA s.state t { accT with touched := true, info := { accT.info with balance := wrapAdd accT.info.balance accA.info.balance } }) a D) t = some { accT with touched := true, info := { accT.info with balance := wrapAdd accT.info.balance accA.info.balance } } := by
            rw [lookupA_insertA, if_neg htne, lookupA_insertA, if_pos rfl]
          obtain ⟨acc2, hl2, he2⟩ := hz4 _ _ hlk
          obtain ⟨e1, e2, e3, e4, e5, e6, e7, e8, e9, e10⟩ := he2
          refine ⟨{ acc2 with touched := false, info := { acc2.info with balance := wrapSub acc2.info.balance accA.info.balance } }, ?_, ?_⟩
          · rw [lookupA_modifyA, if_pos rfl, lookupA_modifyA, if_pos rfl,
              lookupA_modifyA, if_neg (fun hh => hne hh.symm), hl2]
            rfl
          · have e1' : acc2.info.balance = wrapAdd accT.info.balance accA.info.balance := e1
            have ebal : wrapSub acc2.info.balance accA.info.balance = accT.info.balance := by
              rw [e1']
              exact wrapSub_wrapAdd hbT hbA
            refine ⟨ebal, e2, e3, ?_, e5, e6, e7, e8, e9, e10⟩
            show false = accT.touched
            rw [htT]
        · have hlk : lookupA (insertA (insertA s.state t { accT with touched := true, info := { accT.info with balance := wrapAdd accT.info.balance accA.info.balance } }) a D) a0 = some acc0 := by
            rw [lookupA_insertA, if_neg (fun hh => haA hh.symm), lookupA_insertA,
              if_neg (fun hh => haT hh.symm)]
            exact h0
          obtain ⟨acc2, hl2, he2⟩ := hz4 _ _ hlk
          refine ⟨acc2, ?_, he2⟩
          rw [lookupA_modifyA, if_neg (fun hh => haT hh.symm), lookupA_modifyA,
            if_neg (fun hh => haT hh.symm), lookupA_modifyA, if_neg (fun hh => haA hh.symm)]
          exact hl2

/-- `selfdestruct` of a warm account is a valid step. -/
theorem stepOk_selfdestructF (db : DB) (a t : Addr) (s : JState)
    (out : SelfDestructResult × Bool × JState) (hdb : DbOk db) (hpre : PreB s = true)
    (hvalid : ∀ acc, lookupA s.state a = some acc →
      (acc.cold || acc.transactionId != s.transactionId) = false)
    (h : selfdestructF db a t s = some out) : StepOk s out.2.2 := by
  have hstep1 : StepOk s (loadAccount db t s).2 :=
    stepOk_loadAccountOptional db t false s hdb hpre
  have hpre1 : PreB (loadAccount db t s).2 = true := hstep1.2.2.1 hpre
  have htid1 : (loadAccount db t s).2.transactionId = s.transactionId := hstep1.1
  by_cases hat : a = t
  · subst hat
    obtain ⟨accT, hT, hcoldT, htidT⟩ := loadAccountOptional_state_self_warm db a false s hpre
    have hT2 : lookupA (loadAccount db a s).2.state a = some accT := hT
    have hokT : accountOk (loadAccount db a s).2.transactionId accT = true :=
      PreB_lookup hpre1 hT
    have hbT : accT.info.balance < u256Limit := accountOk_balance hokT
    have htidT1 : accT.transactionId = (loadAccount db a s).2.transactionId :=
      htidT.trans htid1.symm
    by_cases hdes : accT.createdLocally = true ∨ s.spec.is_enabled_in SpecId.CANCUN = false
    · rw [selfdestructF_self_destroy db a s _ accT rfl hT hdes] at h
      injection h with h1
      subst h1
      refine StepOk.trans hstep1 ?_
      have hokD : accountOk (loadAccount db a s).2.transactionId
          { accT with selfdestructedLocally := true, selfdestructedGlobally := true, info := { accT.info with balance := 0 } } = true := by
        unfold accountOk
        simp [htidT1, hcoldT, u256Limit_pos]
      by_cases hgG : accT.selfdestructedGlobally = true
      · by_cases hgL : accT.selfdestructedLocally = true
        · have hst : sdStatusOf accT = SdStatus.repeatedSelfdestruction := by
            simp [sdStatusOf, hgG, hgL]
          rw [hst]
          refine stepOk_sdSelfCore _ a _ _
            (fun acc => { acc with info := { acc.info with balance := wrapAdd acc.info.balance accT.info.balance } })
            hokD (fun z => by simp [revertEntry]) ?_
          intro acc acc2 hacc he
          rw [hT2] at hacc
          injection hacc with hacc
          subst hacc
          obtain ⟨e1, e2, e3, e4, e5, e6, e7, e8, e9, e10⟩ := he
          refine ⟨?_, e2, e3, e4, e5, e6, ?_, ?_, e9, e10⟩
          · have e1' : acc2.info.balance = 0 := e1
            show wrapAdd acc2.info.balance accT.info.balance = accT.info.balance
            rw [e1']
            exact wrapAdd_zero_left hbT
          · have e7' : acc2.selfdestructedLocally = true := e7
            show acc2.selfdestructedLocally = accT.selfdestructedLocally
            rw [e7', hgL]
          · have e8' : acc2.selfdestructedGlobally = true := e8
            show acc2.selfdestructedGlobally = accT.selfdestructedGlobally
            rw [e8', hgG]
        · rw [Bool.not_eq_true] at hgL
          have hst : sdStatusOf accT = SdStatus.locallySelfdestroyed := by
            simp [sdStatusOf, hgG, hgL]
          rw [hst]
          refine stepOk_sdSelfCore _ a _ _
            (fun acc => { acc with selfdestructedLocally := false, info := { acc.info with balance := wrapAdd acc.info.balance accT.info.balance } })
            hokD (fun z => by simp [revertEntry]) ?_
          intro acc acc2 hacc he
          rw [hT2] at hacc
          injection hacc with hacc
          subst hacc
          obtain ⟨e1, e2, e3, e4, e5, e6, e7, e8, e9, e10⟩ := he
          refine ⟨?_, e2, e3, e4, e5, e6, ?_, ?_, e9, e10⟩
          · have e1' : acc2.info.balance = 0 := e1
            show wrapAdd acc2.info.balance accT.info.balance = accT.info.balance
            rw [e1']
            exact wrapAdd_zero_left hbT
          · show false = accT.selfdestructedLocally
            rw [hgL]
          · have e8' : acc2.selfdestructedGlobally = true := e8
            show acc2.selfdestructedGlobally = accT.selfdestructedGlobally
            rw [e8', hgG]
      · rw [Bool.not_eq_true] at hgG
        have hgL : accT.selfdestructedLocally = false := by
          by_contra hx
          rw [Bool.not_eq_false] at hx
          have hsd := accountOk_sd hokT hx
          rw [hgG] at hsd
          cases hsd
        have hst : sdStatusOf accT = SdStatus.globallySelfdestroyed := by
          simp [sdStatusOf, hgG]
        rw [hst]
        refine stepOk_sdSelfCore _ a _ _
          (fun acc => { acc with selfdestructedLocally := false, selfdestructedGlobally := false, info := { acc.info with balance := wrapAdd acc.info.balance accT.info.balance } })
          hokD (fun z => by simp [revertEntry]) ?_
        intro acc acc2 hacc he
        rw [hT2] at hacc
        injection hacc with hacc
        subst hacc
        obtain ⟨e1, e2, e3, e4, e5, e6, e7, e8, e9, e10⟩ := he
        refine ⟨?_, e2, e3, e4, e5, e6, ?_, ?_, e9, e10⟩
        · have e1' : acc2.info.balance = 0 := e1
          show wrapAdd acc2.info.balance accT.info.balance = accT.info.balance
          rw [e1']
          exact wrapAdd_zero_left hbT
        · show false = accT.selfdestructedLocally
          rw [hgL]
        · show false = accT.selfdestructedGlobally
          rw [hgG]
    · rw [selfdestructF_self_keep db a s _ accT rfl hT hdes] at h
      injection h with h1
      subst h1
      exact hstep1
  · cases hwa : lookupA s.state a with
    | none =>
      have hA1 : lookupA (loadAccount db t s).2.state a = none := by
        show lookupA (loadAccountOptional db t false [] s).2.state a = none
        rw [loadAccountOptional_state_other db t false s a hat]
        exact hwa
      obtain ⟨accT, hT⟩ := loadAccountOptional_state_self db t false s
      have hT2 : lookupA (loadAccount db t s).2.state t = some accT := hT
      unfold selfdestructF at h
      simp [hT2, hat, hA1] at h
    | some accA =>
      have hwarm := hvalid accA hwa
      have hcoldA : accA.cold = false ∧ accA.transactionId = s.transactionId := by
        simpa using hwarm
      obtain ⟨accT, hT, hcoldT, htidT⟩ := loadAccountOptional_state_self_warm db t false s hpre
      have hA1 : lookupA (loadAccount db t s).2.state a = some accA := by
        show lookupA (loadAccountOptional db t false [] s).2.state a = some accA
        rw [loadAccountOptional_state_other db t false s a hat]
        exact hwa
      have hokA : accountOk (loadAccount db t s).2.transactionId accA = true :=
        PreB_lookup hpre1 hA1
      have hbA : accA.info.balance < u256Limit := accountOk_balance hokA
      have hokT : accountOk (loadAccount db t s).2.transactionId accT = true :=
        PreB_lookup hpre1 hT
      have hbT : accT.info.balance < u256Limit := accountOk_balance hokT
      have htidA1 : accA.transactionId = (loadAccount db t s).2.transactionId :=
        hcoldA.2.trans htid1.symm
      by_cases hdes : accA.createdLocally = true ∨ s.spec.is_enabled_in SpecId.CANCUN = false
      · rw [selfdestructF_other_destroy db a t s _ accA accT hat rfl hT hA1 hdes] at h
        injection h with h1
        subst h1
        refine StepOk.trans hstep1 ?_
        have hokD : accountOk (loadAccount db t s).2.transactionId
            { accA with selfdestructedLocally := true, selfdestructedGlobally := true, info := { accA.info with balance := 0 } } = true := by
          unfold accountOk
          simp [htidA1, hcoldA.1, u256Limit_pos]
        by_cases hgG : accA.selfdestructedGlobally = true
        · by_cases hgL : accA.selfdestructedLocally = true
          · have hst : sdStatusOf accA = SdStatus.repeatedSelfdestruction := by
              simp [sdStatusOf, hgG, hgL]
            rw [hst]
            refine stepOk_sdCore _ a t accA accT _ _
              (fun acc => { acc with info := { acc.info with balance := wrapAdd acc.info.balance accA.info.balance } })
              hat hA1 hT hokD hbT hbA (fun z => by simp [revertEntry, hat]) ?_
            intro acc2 he
            obtain ⟨e1, e2, e3, e4, e5, e6, e7, e8, e9, e10⟩ := he
            refine ⟨?_, e2, e3, e4, e5, e6, ?_, ?_, e9, e10⟩
            · have e1' : acc2.info.balance = 0 := e1
              show wrapAdd acc2.info.balance accA.info.balance = accA.info.balance
              rw [e1']
              exact wrapAdd_zero_left hbA
            · have e7' : acc2.selfdestructedLocally = true := e7
              show acc2.selfdestructedLocally = accA.selfdestructedLocally
              rw [e7', hgL]
            · have e8' : acc2.selfdestructedGlobally = true := e8
              show acc2.selfdestructedGlobally = accA.selfdestructedGlobally
              rw [e8', hgG]
          · rw [Bool.not_eq_true] at hgL
            have hst : sdStatusOf accA = SdStatus.locallySelfdestroyed := by
              simp [sdStatusOf, hgG, hgL]
            rw [hst]
            refine stepOk_sdCore _ a t accA accT _ _
              (fun acc => { acc with selfdestructedLocally := false, info := { acc.info with balance := wrapAdd acc.info.balance accA.info.balance } })
              hat hA1 hT hokD hbT hbA (fun z => by simp [revertEntry, hat]) ?_
            intro acc2 he
            obtain ⟨e1, e2, e3, e4, e5, e6, e7, e8, e9, e10⟩ := he
            refine ⟨?_, e2, e3, e4, e5, e6, ?_, ?_, e9, e10⟩
            · have e1' : acc2.info.balance = 0 := e1
              show wrapAdd acc2.info.balance accA.info.balance = accA.info.balance
              rw [e1']
              exact wrapAdd_zero_left hbA
            · show false = accA.selfdestructedLocally
              rw [hgL]
            · have e8' : acc2.selfdestructedGlobally = true := e8
              show acc2.selfdestructedGlobally = accA.selfdestructedGlobally
              rw [e8', hgG]
        · rw [Bool.not_eq_true] at hgG
          have hgL : accA.selfdestructedLocally = false := by
            by_contra hx
            rw [Bool.not_eq_false] at hx
            have hsd := accountOk_sd hokA hx
            rw [hgG] at hsd
            cases hsd
          have hst : sdStatusOf accA = SdStatus.globallySelfdestroyed := by
            simp [sdStatusOf, hgG]
          rw [hst]
          refine stepOk_sdCore _ a t accA accT _ _
            (fun acc => { acc with selfdestructedLocally := false, selfdestructedGlobally := false, info := { acc.info with balance := wrapAdd acc.info.balance accA.info.balance } })
            hat hA1 hT hokD hbT hbA (fun z => by simp [revertEntry, hat]) ?_
          intro acc2 he
          obtain ⟨e1, e2, e3, e4, e5, e6, e7, e8, e9, e10⟩ := he
          refine ⟨?_, e2, e3, e4, e5, e6, ?_, ?_, e9, e10⟩
          · have e1' : acc2.info.balance = 0 := e1
            show wrapAdd acc2.info.balance accA.info.balance = accA.info.balance
            rw [e1']
            exact wrapAdd_zero_left hbA
          · show false = accA.selfdestructedLocally
            rw [hgL]
          · show false = accA.selfdestructedGlobally
            rw [hgG]
      · rw [selfdestructF_other_transfer db a t s _ accA accT hat rfl hT hA1 hdes] at h
        injection h with h1
        subst h1
        refine StepOk.trans hstep1 ?_
        refine stepOk_sdCore _ a t accA accT _ _
          (fun acc => { acc with info := { acc.info with balance := wrapAdd acc.info.balance accA.info.balance } })
          hat hA1 hT (accountOk_set_balance hokA u256Limit_pos)
          hbT hbA (fun z => revertEntry_bt a t accA.info.balance z) ?_
        intro acc2 he
        obtain ⟨e1, e2, e3, e4, e5, e6, e7, e8, e9, e10⟩ := he
        refine ⟨?_, e2, e3, e4, e5, e6, e7, e8, e9, e10⟩
        have e1' : acc2.info.balance = 0 := e1
        show wrapAdd acc2.info.balance accA.info.balance = accA.info.balance
        rw [e1']
        exact wrapAdd_zero_left hbA

/-! ## StepOk for `create_account_checkpoint` -/

/-- Balance-check failure: the internal checkpoint is reverted exactly. -/
theorem createAccountCheckpoint_oof (caller target : Addr) (balance : Nat)
    (specId : SpecId) (s : JState) (accC : Account)
    (hC : lookupA s.state caller = some accC)
    (hb : accC.info.balance < balance) :
    createAccountCheckpoint caller target balance specId s =
      some (Except.error TransferError.outOfFunds, s) := by
  unfold createAccountCheckpoint
  simp only [checkpointF]
  simp [hC, hb]
  unfold checkpointRevert revertAll
  simp

/-- Collision: the internal checkpoint is reverted exactly. -/
theorem createAccountCheckpoint_collision (caller target : Addr) (balance : Nat)
    (specId : SpecId) (s : JState) (accC accT : Account)
    (hC : lookupA s.state caller = some accC)
    (hb : ¬ accC.info.balance < balance)
    (hT : lookupA s.state target = some accT)
    (hcol : accT.info.codeHash ≠ keccakEmpty ∨ accT.info.nonce ≠ 0) :
    createAccountCheckpoint caller target balance specId s =
      some (Except.error TransferError.createCollision, s) := by
  unfold createAccountCheckpoint
  simp only [checkpointF]
  simp [hC, hb, hT, hcol]
  unfold checkpointRevert revertAll
  simp

/-- Credit overflow: mark-created and touch are applied, then the internal
checkpoint is reverted. -/
theorem createAccountCheckpoint_overflow (caller target : Addr) (balance : Nat)
    (specId : SpecId) (s : JState) (accC accT : Account)
    (hC : lookupA s.state caller = some accC)
    (hb : ¬ accC.info.balance < balance)
    (hT : lookupA s.state target = some accT)
    (hcol : ¬ (accT.info.codeHash ≠ keccakEmpty ∨ accT.info.nonce ≠ 0))
    (hadd : ¬ accT.info.balance + balance < u256Limit) :
    createAccountCheckpoint caller target balance specId s =
      some (Except.error TransferError.overflowPayment,
        checkpointRevert { logI := s.logs.length, journalI := s.journal.length }
          { s with depth := s.depth + 1, journal := (s.journal ++ [Entry.accountCreated target accT.createdGlobally]) ++ (if accT.touched then [] else [Entry.accountTouched target]), state := insertA s.state target { accT with createdLocally := true, createdGlobally := true, touched := true, info := { accT.info with code := none, nonce := (if specId.is_enabled_in SpecId.SPURIOUS_DRAGON then 1 else accT.info.nonce) } } }) := by
  unfold createAccountCheckpoint
  simp only [checkpointF]
  simp [hC, hb, hT, hcol, Account.markCreatedLocally, touchAccount_eq, checkedAdd, hadd]

/-- Success: mark created, clear code, bump the nonce on Spurious Dragon,
touch, credit the target, debit the caller, journal the transfer; the
checkpoint stays open. -/
theorem createAccountCheckpoint_ok (caller target : Addr) (balance : Nat)
    (specId : SpecId) (s : JState) (accC accT accC1 : Account)
    (hC : lookupA s.state caller = some accC)
    (hb : ¬ accC.info.balance < balance)
    (hT : lookupA s.state target = some accT)
    (hcol : ¬ (accT.info.codeHash ≠ keccakEmpty ∨ accT.info.nonce ≠ 0))
    (hadd : accT.info.balance + balance < u256Limit)
    (hC1 : lookupA (insertA s.state target { accT with createdLocally := true, createdGlobally := true, touched := true, info := { accT.info with code := none, nonce := (if specId.is_enabled_in SpecId.SPURIOUS_DRAGON then 1 else accT.info.nonce), balance := accT.info.balance + balance } }) caller = some accC1) :
    createAccountCheckpoint caller target balance specId s =
      some (Except.ok { logI := s.logs.length, journalI := s.journal.length },
        { s with depth := s.depth + 1, journal := ((s.journal ++ [Entry.accountCreated target accT.createdGlobally]) ++ (if accT.touched then [] else [Entry.accountTouched target])) ++ [Entry.balanceTransfer caller target balance], state := insertA (insertA s.state target { accT with createdLocally := true, createdGlobally := true, touched := true, info := { accT.info with code := none, nonce := (if specId.is_enabled_in SpecId.SPURIOUS_DRAGON then 1 else accT.info.nonce), balance := accT.info.balance + balance } }) caller { accC1 with info := { accC1.info with balance := accC1.info.balance - balance } } }) := by
  unfold createAccountCheckpoint
  simp only [checkpointF]
  simp [hC, hb, hT, hcol, Account.markCreatedLocally, touchAccount_eq, checkedAdd, hadd, hC1]

theorem modifyA_insertA {K V : Type} [DecidableEq K] (l : AList K V) (k : K) (v : V) (f : V → V) :
    modifyA (insertA l k v) k f = insertA l k (f v) := by
  induction l with
  | nil => simp [insertA, modifyA]
  | cons hd tl ih =>
    obtain ⟨k1, w⟩ := hd
    by_cases h1 : k1 = k
    · simp [insertA, modifyA, h1]
    · simp [insertA, modifyA, h1, ih]

/-- The shape of an `AccountCreated` revert. -/
theorem revertEntry_created (a : Addr) (wasG : Bool) (z : RevState) :
    revertEntry (Entry.accountCreated a wasG) z =
      (modifyA z.1 a (fun acc => { acc with createdLocally := false, createdGlobally := if wasG then acc.createdGlobally else false, info := { acc.info with nonce := 0, code := none } }), z.2) := rfl

/-- The overflow path of `create_account_checkpoint`: its internal revert
restores the target up to cache equivalence. -/
theorem stepOk_createOverflowRevert (s : JState) (target : Addr) (accT : Account)
    (specId : SpecId)
    (hT : lookupA s.state target = some accT)
    (hokT : accountOk s.transactionId accT = true)
    (hn : accT.info.nonce = 0) :
    StepOk s (checkpointRevert { logI := s.logs.length, journalI := s.journal.length }
      { s with depth := s.depth + 1, journal := (s.journal ++ [Entry.accountCreated target accT.createdGlobally]) ++ (if accT.touched then [] else [Entry.accountTouched target]), state := insertA s.state target { accT with createdLocally := true, createdGlobally := true, touched := true, info := { accT.info with code := none, nonce := (if specId.is_enabled_in SpecId.SPURIOUS_DRAGON then 1 else accT.info.nonce) } } }) := by
  by_cases htT : accT.touched = true
  · rw [htT]
    simp only [if_true]
    have hX : checkpointRevert { logI := s.logs.length, journalI := s.journal.length }
        { s with depth := s.depth + 1, journal := (s.journal ++ [Entry.accountCreated target accT.createdGlobally]) ++ [], state := insertA s.state target { accT with createdLocally := true, createdGlobally := true, touched := true, info := { accT.info with code := none, nonce := (if specId.is_enabled_in SpecId.SPURIOUS_DRAGON then 1 else accT.info.nonce) } } } =
        { s with depth := s.depth + 1 - 1, state := insertA s.state target { accT with createdLocally := false, createdGlobally := (if accT.createdGlobally then true else false), touched := true, info := { accT.info with code := none, nonce := 0 } } } := by
      unfold checkpointRevert
      simp [revertAll, revertEntry_created, modifyA_insertA, List.take_left, List.drop_left]
    rw [hX]
    refine ⟨rfl, rfl, ?_, ⟨[], by simp⟩, ⟨[], by simp, ?_⟩⟩
    · intro hp
      have hokX : accountOk s.transactionId { accT with createdLocally := false, createdGlobally := (if accT.createdGlobally then true else false), touched := true, info := { accT.info with code := none, nonce := 0 } } = true := by
        unfold accountOk at hokT ⊢
        simp only [Bool.and_eq_true, Bool.or_eq_true, Bool.and_eq_true, decide_eq_true_eq,
          Bool.not_eq_true', Bool.or_eq_false_iff] at hokT ⊢
        refine ⟨⟨?_, hokT.1.2⟩, hokT.2⟩
        rcases hokT.1.1 with hf | hf
        · exact Or.inl ⟨by trivial, hf.2⟩
        · exact Or.inr hf
      have h1 := all_insertA (k := target) (PreB_state hp) hokX
      have h3 := PreB_tt hp
      exact PreB_of_parts h1 h3
    · refine transports_insert_nil rfl rfl rfl ?_
      intro acc0 acc2 h0 he
      rw [hT] at h0
      injection h0 with h0
      subst h0
      obtain ⟨e1, e2, e3, e4, e5, e6, e7, e8, e9, e10⟩ := he
      refine ⟨e1, ?_, e3, ?_, ?_, ?_, e7, e8, e9, e10⟩
      · have e2' : acc2.info.nonce = 0 := e2
        show acc2.info.nonce = accT.info.nonce
        rw [e2', hn]
      · have e4' : acc2.touched = true := e4
        show acc2.touched = accT.touched
        rw [e4', htT]
      · right
        rcases e5 with e5 | e5
        · exact e5
        · exact e5
      · by_cases hcg : accT.createdGlobally = true
        · have e6' : acc2.createdGlobally = (if accT.createdGlobally = true then true else false) := e6
          rw [if_pos hcg] at e6'
          show acc2.createdGlobally = accT.createdGlobally
          rw [e6', hcg]
        · have e6' : acc2.createdGlobally = (if accT.createdGlobally = true then true else false) := e6
          rw [if_neg hcg] at e6'
          rw [Bool.not_eq_true] at hcg
          show acc2.createdGlobally = accT.createdGlobally
          rw [e6', hcg]
  · rw [Bool.not_eq_true] at htT
    rw [htT]
    simp only [Bool.false_eq_true, if_false]
    have hX : checkpointRevert { logI := s.logs.length, journalI := s.journal.length }
        { s with depth := s.depth + 1, journal := (s.journal ++ [Entry.accountCreated target accT.createdGlobally]) ++ [Entry.accountTouched target], state := insertA s.state target { accT with createdLocally := true, createdGlobally := true, touched := true, info := { accT.info with code := none, nonce := (if specId.is_enabled_in SpecId.SPURIOUS_DRAGON then 1 else accT.info.nonce) } } } =
        { s with depth := s.depth + 1 - 1, state := insertA s.state target { accT with createdLocally := false, createdGlobally := (if accT.createdGlobally then true else false), touched := false, info := { accT.info with code := none, nonce := 0 } } } := by
      unfold checkpointRevert
      simp [revertAll, revertEntry, revertEntry_created, modifyA_insertA, List.take_left, List.drop_left]
    rw [hX]
    refine ⟨rfl, rfl, ?_, ⟨[], by simp⟩, ⟨[], by simp, ?_⟩⟩
    · intro hp
      have hokX : accountOk s.transactionId { accT with createdLocally := false, createdGlobally := (if accT.createdGlobally then true else false), touched := false, info := { accT.info with code := none, nonce := 0 } } = true := by
        unfold accountOk at hokT ⊢
        simp only [Bool.and_eq_true, Bool.or_eq_true, Bool.and_eq_true, decide_eq_true_eq,
          Bool.not_eq_true', Bool.or_eq_false_iff] at hokT ⊢
        refine ⟨⟨?_, hokT.1.2⟩, hokT.2⟩
        rcases hokT.1.1 with hf | hf
        · exact Or.inl ⟨by trivial, hf.2⟩
        · exact Or.inr hf
      have h1 := all_insertA (k := target) (PreB_state hp) hokX
      have h3 := PreB_tt hp
      exact PreB_of_parts h1 h3
    · refine transports_insert_nil rfl rfl rfl ?_
      intro acc0 acc2 h0 he
      rw [hT] at h0
      injection h0 with h0
      subst h0
      obtain ⟨e1, e2, e3, e4, e5, e6, e7, e8, e9, e10⟩ := he
      refine ⟨e1, ?_, e3, ?_, ?_, ?_, e7, e8, e9, e10⟩
      · have e2' : acc2.info.nonce = 0 := e2
        show acc2.info.nonce = accT.info.nonce
        rw [e2', hn]
      · have e4' : acc2.touched = false := e4
        show acc2.touched = accT.touched
        rw [e4', htT]
      · right
        rcases e5 with e5 | e5
        · exact e5
        · exact e5
      · by_cases hcg : accT.createdGlobally = true
        · have e6' : acc2.createdGlobally = (if accT.createdGlobally = true then true else false) := e6
          rw [if_pos hcg] at e6'
          show acc2.createdGlobally = accT.createdGlobally
          rw [e6', hcg]
        · have e6' : acc2.createdGlobally = (if accT.createdGlobally = true then true else false) := e6
          rw [if_neg hcg] at e6'
          rw [Bool.not_eq_true] at hcg
          show acc2.createdGlobally = accT.createdGlobally
          rw [e6', hcg]

/-- The success path of `create_account_checkpoint` with distinct caller and
target is a valid step. -/
theorem stepOk_createOk (s : JState) (caller target : Addr) (balance : Nat) (specId : SpecId)
    (accC accT : Account) (hne : ¬ caller = target)
    (hC : lookupA s.state caller = some accC)
    (hT : lookupA s.state target = some accT)
    (hbC : accC.info.balance < u256Limit)
    (hble : balance ≤ accC.info.balance)
    (hbT : accT.info.balance < u256Limit)
    (hadd : accT.info.balance + balance < u256Limit)
    (hokC : accountOk s.transactionId accC = true)
    (hokT : accountOk s.transactionId accT = true)
    (hwT : accT.cold = false) (htidT : accT.transactionId = s.transactionId)
    (hn : accT.info.nonce = 0) :
    StepOk s { s with depth := s.depth + 1, journal := ((s.journal ++ [Entry.accountCreated target accT.createdGlobally]) ++ (if accT.touched then [] else [Entry.accountTouched target])) ++ [Entry.balanceTransfer caller target balance], state := insertA (insertA s.state target { accT with createdLocally := true, createdGlobally := true, touched := true, info := { accT.info with code := none, nonce := (if specId.is_enabled_in SpecId.SPURIOUS_DRAGON then 1 else accT.info.nonce), balance := accT.info.balance + balance } }) caller { accC with info := { accC.info with balance := accC.info.balance - balance } } } := by
  have hbL : balance < u256Limit := by omega
  have htne : ¬ target = caller := fun hh => hne hh.symm
  refine ⟨rfl, rfl, ?_, ⟨[], by simp⟩,
    ⟨[Entry.accountCreated target accT.createdGlobally] ++ ((if accT.touched then [] else [Entry.accountTouched target]) ++ [Entry.balanceTransfer caller target balance]), by simp, ?_⟩⟩
  · intro hp
    have hokA3 : accountOk s.transactionId { accT with createdLocally := true, createdGlobally := true, touched := true, info := { accT.info with code := none, nonce := (if specId.is_enabled_in SpecId.SPURIOUS_DRAGON then 1 else accT.info.nonce), balance := accT.info.balance + balance } } = true := by
      unfold accountOk at hokT ⊢
      simp only [Bool.and_eq_true, decide_eq_true_eq] at hokT ⊢
      refine ⟨⟨?_, hadd⟩, hokT.2⟩
      simp [htidT, hwT]
    have hokC2 : accountOk s.transactionId { accC with info := { accC.info with balance := accC.info.balance - balance } } = true :=
      accountOk_set_balance hokC (by omega)
    have h1 := all_insertA (k := target) (PreB_state hp) hokA3
    have h2 := all_insertA (k := caller) h1 hokC2
    have h3 := PreB_tt hp
    exact PreB_of_parts h2 h3
  · intro z hz
    obtain ⟨⟨tt, hz2, hz3⟩, hz4⟩ := hz
    rw [revertAll_append, revertAll_append]
    rw [show revertAll [Entry.balanceTransfer caller target balance] z = revertEntry (Entry.balanceTransfer caller target balance) z from rfl, revertEntry_bt, revertAll_touch]
    by_cases htT : accT.touched = true
    · rw [htT, if_pos rfl]
      rw [show ∀ q : RevState, revertAll [Entry.accountCreated target accT.createdGlobally] q = revertEntry (Entry.accountCreated target accT.createdGlobally) q from fun q => rfl]
      rw [revertEntry_created]
      refine ⟨⟨tt, hz2, fun key => by rw [hz3 key]⟩, ?_⟩
      intro a0 acc0 h0
      by_cases haC : caller = a0
      · subst haC
        rw [hC] at h0
        injection h0 with h0
        subst h0
        have hlk : lookupA (insertA (insertA s.state target { accT with createdLocally := true, createdGlobally := true, touched := true, info := { accT.info with code := none, nonce := (if specId.is_enabled_in SpecId.SPURIOUS_DRAGON then 1 else accT.info.nonce), balance := accT.info.balance + balance } }) caller { accC with info := { accC.info with balance := accC.info.balance - balance } }) caller = some { accC with info := { accC.info with balance := accC.info.balance - balance } } := by
          rw [lookupA_insertA, if_pos rfl]
        obtain ⟨acc2, hl2, he2⟩ := hz4 _ _ hlk
        obtain ⟨e1, e2, e3, e4, e5, e6, e7, e8, e9, e10⟩ := he2
        refine ⟨{ acc2 with info := { acc2.info with balance := wrapAdd acc2.info.balance balance } }, ?_, ?_⟩
        · rw [lookupA_modifyA, if_neg hne, lookupA_modifyA, if_neg hne, lookupA_modifyA, if_pos rfl, hl2]
          rfl
        · have e1' : acc2.info.balance = accC.info.balance - balance := e1
          have ebal : wrapAdd acc2.info.balance balance = accC.info.balance := by
            rw [e1']
            exact wrapAdd_sub_self hble hbC
          exact ⟨ebal, e2, e3, e4, e5, e6, e7, e8, e9, e10⟩
      · by_cases haT : target = a0
        · subst haT
          rw [hT] at h0
          injection h0 with h0
          subst h0
          have hlk : lookupA (insertA (insertA s.state target { accT with createdLocally := true, createdGlobally := true, touched := true, info := { accT.info with code := none, nonce := (if specId.is_enabled_in SpecId.SPURIOUS_DRAGON then 1 else accT.info.nonce), balance := accT.info.balance + balance } }) caller { accC with info := { accC.info with balance := accC.info.balance - balance } }) target = some { accT with createdLocally := true, createdGlobally := true, touched := true, info := { accT.info with code := none, nonce := (if specId.is_enabled_in SpecId.SPURIOUS_DRAGON then 1 else accT.info.nonce), balance := accT.info.balance + balance } } := by
            rw [lookupA_insertA, if_neg htne, lookupA_insertA, if_pos rfl]
          obtain ⟨acc2, hl2, he2⟩ := hz4 _ _ hlk
          obtain ⟨e1, e2, e3, e4, e5, e6, e7, e8, e9, e10⟩ := he2
          refine ⟨{ acc2 with createdLocally := false, createdGlobally := if accT.createdGlobally then acc2.createdGlobally else false, info := { acc2.info with balance := wrapSub acc2.info.balance balance, nonce := 0, code := none } }, ?_, ?_⟩
          · rw [lookupA_modifyA, if_pos rfl, lookupA_modifyA, if_pos rfl, lookupA_modifyA, if_neg htne, hl2]
            rfl
          · have e1' : acc2.info.balance = accT.info.balance + balance := e1
            have ebal : wrapSub acc2.info.balance balance = accT.info.balance := by
              rw [e1']
              exact wrapSub_add_self hbT hbL
            refine ⟨ebal, ?_, e3, ?_, ?_, ?_, e7, e8, e9, e10⟩
            · show (0 : Nat) = accT.info.nonce
              rw [hn]
            · have e4' : acc2.touched = true := e4
              show acc2.touched = accT.touched
              rw [e4', htT]
            · right
              rfl
            · by_cases hcg : accT.createdGlobally = true
              · have e6' : acc2.createdGlobally = true := e6
                show (if accT.createdGlobally = true then acc2.createdGlobally else false) = accT.createdGlobally
                rw [if_pos hcg, e6', hcg]
              · rw [Bool.not_eq_true] at hcg
                show (if accT.createdGlobally = true then acc2.createdGlobally else false) = accT.createdGlobally
                rw [hcg]
                simp
        · have hlk : lookupA (insertA (insertA s.state target { accT with createdLocally := true, createdGlobally := true, touched := true, info := { accT.info with code := none, nonce := (if specId.is_enabled_in SpecId.SPURIOUS_DRAGON then 1 else accT.info.nonce), balance := accT.info.balance + balance } }) caller { accC with info := { accC.info with balance := accC.info.balance - balance } }) a0 = some acc0 := by
            rw [lookupA_insertA, if_neg (fun hh => haC hh.symm), lookupA_insertA, if_neg (fun hh => haT hh.symm)]
            exact h0
          obtain ⟨acc2, hl2, he2⟩ := hz4 _ _ hlk
          refine ⟨acc2, ?_, he2⟩
          rw [lookupA_modifyA, if_neg (fun hh => haT hh.symm), lookupA_modifyA, if_neg (fun hh => haT hh.symm), lookupA_modifyA, if_neg (fun hh => haC hh.symm)]
          exact hl2
    · rw [Bool.not_eq_true] at htT
      rw [htT]
      simp only [Bool.false_eq_true, if_false]
      rw [show ∀ q : RevState, revertAll [Entry.accountCreated target accT.createdGlobally] q = revertEntry (Entry.accountCreated target accT.createdGlobally) q from fun q => rfl]
      rw [revertEntry_created]
      refine ⟨⟨tt, hz2, fun key => by rw [hz3 key]⟩, ?_⟩
      intro a0 acc0 h0
      by_cases haC : caller = a0
      · subst haC
        rw [hC] at h0
        injection h0 with h0
        subst h0
        have hlk : lookupA (insertA (insertA s.state target { accT with createdLocally := true, createdGlobally := true, touched := true, info := { accT.info with code := none, nonce := (if specId.is_enabled_in SpecId.SPURIOUS_DRAGON then 1 else accT.info.nonce), balance := accT.info.balance + balance } }) caller { accC with info := { accC.info with balance := accC.info.balance - balance } }) caller = some { accC with info := { accC.info with balance := accC.info.balance - balance } } := by
          rw [lookupA_insertA, if_pos rfl]
        obtain ⟨acc2, hl2, he2⟩ := hz4 _ _ hlk
        obtain ⟨e1, e2, e3, e4, e5, e6, e7, e8, e9, e10⟩ := he2
        refine ⟨{ acc2 with info := { acc2.info with balance := wrapAdd acc2.info.balance balance } }, ?_, ?_⟩
        · rw [lookupA_modifyA, if_neg hne, lookupA_modifyA, if_neg hne, lookupA_modifyA, if_neg hne, lookupA_modifyA, if_pos rfl, hl2]
          rfl
        · have e1' : acc2.info.balance = accC.info.balance - balance := e1
          have ebal : wrapAdd acc2.info.balance balance = accC.info.balance := by
            rw [e1']
            exact wrapAdd_sub_self hble hbC
          exact ⟨ebal, e2, e3, e4, e5, e6, e7, e8, e9, e10⟩
      · by_cases haT : target = a0
        · subst haT
          rw [hT] at h0
          injection h0 with h0
          subst h0
          have hlk : lookupA (insertA (insertA s.state target { accT with createdLocally := true, createdGlobally := true, touched := true, info := { accT.info with code := none, nonce := (if specId.is_enabled_in SpecId.SPURIOUS_DRAGON then 1 else accT.info.nonce), balance := accT.info.balance + balance } }) caller { accC with info := { accC.info with balance := accC.info.balance - balance } }) target = some { accT with createdLocally := true, createdGlobally := true, touched := true, info := { accT.info with code := none, nonce := (if specId.is_enabled_in SpecId.SPURIOUS_DRAGON then 1 else accT.info.nonce), balance := accT.info.balance + balance } } := by
            rw [lookupA_insertA, if_neg htne, lookupA_insertA, if_pos rfl]
          obtain ⟨acc2, hl2, he2⟩ := hz4 _ _ hlk
          obtain ⟨e1, e2, e3, e4, e5, e6, e7, e8, e9, e10⟩ := he2
          refine ⟨{ acc2 with touched := false, createdLocally := false, createdGlobally := if accT.createdGlobally then acc2.createdGlobally else false, info := { acc2.info with balance := wrapSub acc2.info.balance balance, nonce := 0, code := none } }, ?_, ?_⟩
          · rw [lookupA_modifyA, if_pos rfl, lookupA_modifyA, if_pos rfl, lookupA_modifyA, if_pos rfl, lookupA_modifyA, if_neg htne, hl2]
            rfl
          · have e1' : acc2.info.balance = accT.info.balance + balance := e1
            have ebal : wrapSub acc2.info.balance balance = accT.info.balance := by
              rw [e1']
              exact wrapSub_add_self hbT hbL
            refine ⟨ebal, ?_, e3, ?_, ?_, ?_, e7, e8, e9, e10⟩
            · show (0 : Nat) = accT.info.nonce
              rw [hn]
            · show false = accT.touched
              rw [htT]
            · right
              rfl
            · by_cases hcg : accT.createdGlobally = true
              · have e6' : acc2.createdGlobally = true := e6
                show (if accT.createdGlobally = true then acc2.createdGlobally else false) = accT.createdGlobally
                rw [if_pos hcg, e6', hcg]
              · rw [Bool.not_eq_true] at hcg
                show (if accT.createdGlobally = true then acc2.createdGlobally else false) = accT.createdGlobally
                rw [hcg]
                simp
        · have hlk : lookupA (insertA (insertA s.state target { accT with createdLocally := true, createdGlobally := true, touched := true, info := { accT.info with code := none, nonce := (if specId.is_enabled_in SpecId.SPURIOUS_DRAGON then 1 else accT.info.nonce), balance := accT.info.balance + balance } }) caller { accC with info := { accC.info with balance := accC.info.balance - balance } }) a0 = some acc0 := by
            rw [lookupA_insertA, if_neg (fun hh => haC hh.symm), lookupA_insertA, if_neg (fun hh => haT hh.symm)]
            exact h0
          obtain ⟨acc2, hl2, he2⟩ := hz4 _ _ hlk
          refine ⟨acc2, ?_, he2⟩
          rw [lookupA_modifyA, if_neg (fun hh => haT hh.symm), lookupA_modifyA, if_neg (fun hh => haT hh.symm), lookupA_modifyA, if_neg (fun hh => haT hh.symm), lookupA_modifyA, if_neg (fun hh => haC hh.symm)]
          exact hl2

/-- The success path of `create_account_checkpoint` when the caller is the
target: the value moves within one account. -/
theorem stepOk_createOkSelf (s : JState) (a : Addr) (balance : Nat) (specId : SpecId)
    (accT : Account)
    (hT : lookupA s.state a = some accT)
    (hbT : accT.info.balance < u256Limit)
    (hadd : accT.info.balance + balance < u256Limit)
    (hokT : accountOk s.transactionId accT = true)
    (hwT : accT.cold = false) (htidT : accT.transactionId = s.transactionId)
    (hn : accT.info.nonce = 0) :
    StepOk s { s with depth := s.depth + 1, journal := ((s.journal ++ [Entry.accountCreated a accT.createdGlobally]) ++ (if accT.touched then [] else [Entry.accountTouched a])) ++ [Entry.balanceTransfer a a balance], state := insertA (insertA s.state a { accT with createdLocally := true, createdGlobally := true, touched := true, info := { accT.info with code := none, nonce := (if specId.is_enabled_in SpecId.SPURIOUS_DRAGON then 1 else accT.info.nonce), balance := accT.info.balance + balance } }) a { accT with createdLocally := true, createdGlobally := true, touched := true, info := { accT.info with code := none, nonce := (if specId.is_enabled_in SpecId.SPURIOUS_DRAGON then 1 else accT.info.nonce), balance := accT.info.balance + balance - balance } } } := by
  have hbL : balance < u256Limit := by omega
  refine ⟨rfl, rfl, ?_, ⟨[], by simp⟩,
    ⟨[Entry.accountCreated a accT.createdGlobally] ++ ((if accT.touched then [] else [Entry.accountTouched a]) ++ [Entry.balanceTransfer a a balance]), by simp, ?_⟩⟩
  · intro hp
    have hokA3 : accountOk s.transactionId { accT with createdLocally := true, createdGlobally := true, touched := true, info := { accT.info with code := none, nonce := (if specId.is_enabled_in SpecId.SPURIOUS_DRAGON then 1 else accT.info.nonce), balance := accT.info.balance + balance } } = true := by
      unfold accountOk at hokT ⊢
      simp only [Bool.and_eq_true, decide_eq_true_eq] at hokT ⊢
      refine ⟨⟨?_, hadd⟩, hokT.2⟩
      simp [htidT, hwT]
    have hokFIN : accountOk s.transactionId { accT with createdLocally := true, createdGlobally := true, touched := true, info := { accT.info with code := none, nonce := (if specId.is_enabled_in SpecId.SPURIOUS_DRAGON then 1 else accT.info.nonce), balance := accT.info.balance + balance - balance } } = true := by
      unfold accountOk at hokT ⊢
      simp only [Bool.and_eq_true, decide_eq_true_eq] at hokT ⊢
      refine ⟨⟨?_, by omega⟩, hokT.2⟩
      simp [htidT, hwT]
    have h1 := all_insertA (k := a) (PreB_state hp) hokA3
    have h2 := all_insertA (k := a) h1 hokFIN
    have h3 := PreB_tt hp
    exact PreB_of_parts h2 h3
  · intro z hz
    obtain ⟨⟨tt, hz2, hz3⟩, hz4⟩ := hz
    rw [revertAll_append, revertAll_append]
    rw [show revertAll [Entry.balanceTransfer a a balance] z = revertEntry (Entry.balanceTransfer a a balance) z from rfl, revertEntry_bt, revertAll_touch]
    by_cases htT : accT.touched = true
    · rw [htT, if_pos rfl]
      rw [show ∀ q : RevState, revertAll [Entry.accountCreated a accT.createdGlobally] q = revertEntry (Entry.accountCreated a accT.createdGlobally) q from fun q => rfl]
      rw [revertEntry_created]
      refine ⟨⟨tt, hz2, fun key => by rw [hz3 key]⟩, ?_⟩
      intro a0 acc0 h0
      by_cases haA : a = a0
      · subst haA
        rw [hT] at h0
        injection h0 with h0
        subst h0
        have hlk : lookupA (insertA (insertA s.state a { accT with createdLocally := true, createdGlobally := true, touched := true, info := { accT.info with code := none, nonce := (if specId.is_enabled_in SpecId.SPURIOUS_DRAGON then 1 else accT.info.nonce), balance := accT.info.balance + balance } }) a { accT with createdLocally := true, createdGlobally := true, touched := true, info := { accT.info with code := none, nonce := (if specId.is_enabled_in SpecId.SPURIOUS_DRAGON then 1 else accT.info.nonce), balance := accT.info.balance + balance - balance } }) a = some { accT with createdLocally := true, createdGlobally := true, touched := true, info := { accT.info with code := none, nonce := (if specId.is_enabled_in SpecId.SPURIOUS_DRAGON then 1 else accT.info.nonce), balance := accT.info.balance + balance - balance } } := by
          rw [lookupA_insertA, if_pos rfl]
        obtain ⟨acc2, hl2, he2⟩ := hz4 _ _ hlk
        obtain ⟨e1, e2, e3, e4, e5, e6, e7, e8, e9, e10⟩ := he2
        refine ⟨{ acc2 with createdLocally := false, createdGlobally := if accT.createdGlobally then acc2.createdGlobally else false, info := { acc2.info with balance := wrapSub (wrapAdd acc2.info.balance balance) balance, nonce := 0, code := none } }, ?_, ?_⟩
        · rw [lookupA_modifyA, if_pos rfl, lookupA_modifyA, if_pos rfl, lookupA_modifyA, if_pos rfl, hl2]
          rfl
        · have e1' : acc2.info.balance = accT.info.balance + balance - balance := e1
          have h2b : acc2.info.balance < u256Limit := by
            rw [e1']
            omega
          have ebal : wrapSub (wrapAdd acc2.info.balance balance) balance = accT.info.balance := by
            rw [wrapSub_wrapAdd h2b hbL, e1']
            omega
          refine ⟨ebal, ?_, e3, ?_, ?_, ?_, e7, e8, e9, e10⟩
          · show (0 : Nat) = accT.info.nonce
            rw [hn]
          · have e4' : acc2.touched = true := e4
            show acc2.touched = accT.touched
            rw [e4', htT]
          · right
            rfl
          · by_cases hcg : accT.createdGlobally = true
            · have e6' : acc2.createdGlobally = true := e6
              show (if accT.createdGlobally = true then acc2.createdGlobally else false) = accT.createdGlobally
              rw [if_pos hcg, e6', hcg]
            · rw [Bool.not_eq_true] at hcg
              show (if accT.createdGlobally = true then acc2.createdGlobally else false) = accT.createdGlobally
              rw [hcg]
              simp
      · have hlk : lookupA (insertA (insertA s.state a { accT with createdLocally := true, createdGlobally := true, touched := true, info := { accT.info with code := none, nonce := (if specId.is_enabled_in SpecId.SPURIOUS_DRAGON then 1 else accT.info.nonce), balance := accT.info.balance + balance } }) a { accT with createdLocally := true, createdGlobally := true, touched := true, info := { accT.info with code := none, nonce := (if specId.is_enabled_in SpecId.SPURIOUS_DRAGON then 1 else accT.info.nonce), balance := accT.info.balance + balance - balance } }) a0 = some acc0 := by
          rw [lookupA_insertA, if_neg (fun hh => haA hh.symm), lookupA_insertA, if_neg (fun hh => haA hh.symm)]
          exact h0
        obtain ⟨acc2, hl2, he2⟩ := hz4 _ _ hlk
        refine ⟨acc2, ?_, he2⟩
        rw [lookupA_modifyA, if_neg (fun hh => haA hh.symm), lookupA_modifyA, if_neg (fun hh => haA hh.symm), lookupA_modifyA, if_neg (fun hh => haA hh.symm)]
        exact hl2
    · rw [Bool.not_eq_true] at htT
      rw [htT]
      simp only [Bool.false_eq_true, if_false]
      rw [show ∀ q : RevState, revertAll [Entry.accountCreated a accT.createdGlobally] q = revertEntry (Entry.accountCreated a accT.createdGlobally) q from fun q => rfl]
      rw [revertEntry_created]
      refine ⟨⟨tt, hz2, fun key => by rw [hz3 key]⟩, ?_⟩
      intro a0 acc0 h0
      by_cases haA : a = a0
      · subst haA
        rw [hT] at h0
        injection h0 with h0
        subst h0
        have hlk : lookupA (insertA (insertA s.state a { accT with createdLocally := true, createdGlobally := true, touched := true, info := { accT.info with code := none, nonce := (if specId.is_enabled_in SpecId.SPURIOUS_DRAGON then 1 else accT.info.nonce), balance := accT.info.balance + balance } }) a { accT with createdLocally := true, createdGlobally := true, touched := true, info := { accT.info with code := none, nonce := (if specId.is_enabled_in SpecId.SPURIOUS_DRAGON then 1 else accT.info.nonce), balance := accT.info.balance + balance - balance } }) a = some { accT with createdLocally := true, createdGlobally := true, touched := true, info := { accT.info with code := none, nonce := (if specId.is_enabled_in SpecId.SPURIOUS_DRAGON then 1 else accT.info.nonce), balance := accT.info.balance + balance - balance } } := by
          rw [lookupA_insertA, if_pos rfl]
        obtain ⟨acc2, hl2, he2⟩ := hz4 _ _ hlk
        obtain ⟨e1, e2, e3, e4, e5, e6, e7, e8, e9, e10⟩ := he2
        refine ⟨{ acc2 with touched := false, createdLocally := false, createdGlobally := if accT.createdGlobally then acc2.createdGlobally else false, info := { acc2.info with balance := wrapSub (wrapAdd acc2.info.balance balance) balance, nonce := 0, code := none } }, ?_, ?_⟩
        · rw [lookupA_modifyA, if_pos rfl, lookupA_modifyA, if_pos rfl, lookupA_modifyA, if_pos rfl, lookupA_modifyA, if_pos rfl, hl2]
          rfl
        · have e1' : acc2.info.balance = accT.info.balance + balance - balance := e1
          have h2b : acc2.info.balance < u256Limit := by
            rw [e1']
            omega
          have ebal : wrapSub (wrapAdd acc2.info.balance balance) balance = accT.info.balance := by
            rw [wrapSub_wrapAdd h2b hbL, e1']
            omega
          refine ⟨ebal, ?_, e3, ?_, ?_, ?_, e7, e8, e9, e10⟩
          · show (0 : Nat) = accT.info.nonce
            rw [hn]
          · show false = accT.touched
            rw [htT]
          · right
            rfl
          · by_cases hcg : accT.createdGlobally = true
            · have e6' : acc2.createdGlobally = true := e6
              show (if accT.createdGlobally = true then acc2.createdGlobally else false) = accT.createdGlobally
              rw [if_pos hcg, e6', hcg]
            · rw [Bool.not_eq_true] at hcg
              show (if accT.createdGlobally = true then acc2.createdGlobally else false) = accT.createdGlobally
              rw [hcg]
              simp
      · have hlk : lookupA (insertA (insertA s.state a { accT with createdLocally := true, createdGlobally := true, touched := true, info := { accT.info with code := none, nonce := (if specId.is_enabled_in SpecId.SPURIOUS_DRAGON then 1 else accT.info.nonce), balance := accT.info.balance + balance } }) a { accT with createdLocally := true, createdGlobally := true, touched := true, info := { accT.info with code := none, nonce := (if specId.is_enabled_in SpecId.SPURIOUS_DRAGON then 1 else accT.info.nonce), balance := accT.info.balance + balance - balance } }) a0 = some acc0 := by
          rw [lookupA_insertA, if_neg (fun hh => haA hh.symm), lookupA_insertA, if_neg (fun hh => haA hh.symm)]
          exact h0
        obtain ⟨acc2, hl2, he2⟩ := hz4 _ _ hlk
        refine ⟨acc2, ?_, he2⟩
        rw [lookupA_modifyA, if_neg (fun hh => haA hh.symm), lookupA_modifyA, if_neg (fun hh => haA hh.symm), lookupA_modifyA, if_neg (fun hh => haA hh.symm), lookupA_modifyA, if_neg (fun hh => haA hh.symm)]
        exact hl2

/-- `create_account_checkpoint` is a valid step whenever the target, if
cached, is warm in the current transaction (the code is only called on
loaded accounts). -/
theorem stepOk_createAccountCheckpoint (caller target : Addr) (value : Nat) (specId : SpecId)
    (s : JState) (out : Except TransferError JournalCheckpoint × JState)
    (hpre : PreB s = true)
    (hvalid : ∀ acc, lookupA s.state target = some acc →
      (acc.cold || acc.transactionId != s.transactionId) = false)
    (h : createAccountCheckpoint caller target value specId s = some out) :
    StepOk s out.2 := by
  cases hC : lookupA s.state caller with
  | none =>
    unfold createAccountCheckpoint at h
    simp only [checkpointF] at h
    simp [hC] at h
  | some accC =>
  by_cases hb : accC.info.balance < value
  · rw [createAccountCheckpoint_oof caller target value specId s accC hC hb] at h
    injection h with h1
    subst h1
    exact stepOk_refl s
  · cases hT : lookupA s.state target with
    | none =>
      unfold createAccountCheckpoint at h
      simp only [checkpointF] at h
      simp [hC, hb, hT] at h
    | some accT =>
    have hokT : accountOk s.transactionId accT = true := PreB_lookup hpre hT
    have hbT : accT.info.balance < u256Limit := accountOk_balance hokT
    have hokC : accountOk s.transactionId accC = true := PreB_lookup hpre hC
    have hbC : accC.info.balance < u256Limit := accountOk_balance hokC
    have hw := hvalid accT hT
    simp only [Bool.or_eq_false_iff, bne_eq_false_iff_eq] at hw
    by_cases hcol : accT.info.codeHash ≠ keccakEmpty ∨ accT.info.nonce ≠ 0
    · rw [createAccountCheckpoint_collision caller target value specId s accC accT hC hb hT hcol] at h
      injection h with h1
      subst h1
      exact stepOk_refl s
    · have hn : accT.info.nonce = 0 := by
        push_neg at hcol
        exact hcol.2
      by_cases hadd : accT.info.balance + value < u256Limit
      · by_cases hct : caller = target
        · subst hct
          rw [hC] at hT
          injection hT with hTT
          subst hTT
          have hC1 : lookupA (insertA s.state caller { accC with createdLocally := true, createdGlobally := true, touched := true, info := { accC.info with code := none, nonce := (if specId.is_enabled_in SpecId.SPURIOUS_DRAGON then 1 else accC.info.nonce), balance := accC.info.balance + value } }) caller = some { accC with createdLocally := true, createdGlobally := true, touched := true, info := { accC.info with code := none, nonce := (if specId.is_enabled_in SpecId.SPURIOUS_DRAGON then 1 else accC.info.nonce), balance := accC.info.balance + value } } := by
            rw [lookupA_insertA, if_pos rfl]
          rw [createAccountCheckpoint_ok caller caller value specId s accC accC _ hC hb hC hcol hadd hC1] at h
          injection h with h1
          subst h1
          exact stepOk_createOkSelf s caller value specId accC hC hbT hadd hokT hw.1 hw.2 hn
        · have hC1 : lookupA (insertA s.state target { accT with createdLocally := true, createdGlobally := true, touched := true, info := { accT.info with code := none, nonce := (if specId.is_enabled_in SpecId.SPURIOUS_DRAGON then 1 else accT.info.nonce), balance := accT.info.balance + value } }) caller = some accC := by
            rw [lookupA_insertA, if_neg hct]
            exact hC
          rw [createAccountCheckpoint_ok caller target value specId s accC accT accC hC hb hT hcol hadd hC1] at h
          injection h with h1
          subst h1
          have hble : value ≤ accC.info.balance := by omega
          exact stepOk_createOk s caller target value specId accC accT hct hC hT hbC hble hbT hadd hokC hokT hw.1 hw.2 hn
      · rw [createAccountCheckpoint_overflow caller target value specId s accC accT hC hb hT hcol hadd] at h
        injection h with h1
        subst h1
        exact stepOk_createOverflowRevert s target accT specId hT hokT hn

/-- Any valid run of journaled operations is a valid step: transaction id
and spec are unchanged, well-formedness is preserved, logs and journal only
grow, and the appended journal suffix reverts any reachable cache state back
to one cache-equivalent with the starting state. -/
theorem runOps_stepOk (db : DB) (hdb : DbOk db) :
    ∀ ops s s1, PreB s = true → runValid db ops s = true →
      runOps db ops s = some s1 → StepOk s s1 := by
  intro ops
  induction ops with
  | nil =>
    intro s s1 hpre hv hr
    simp only [runOps] at hr
    injection hr with h1
    subst h1
    exact stepOk_refl s
  | cons op rest ih =>
    intro s s1 hpre hv hr
    simp only [runValid, Bool.and_eq_true] at hv
    obtain ⟨hv1, hv2⟩ := hv
    have key : ∀ smid, applyOp db op s = some smid → StepOk s smid := by
      intro smid hap
      cases op with
      | loadAccountOp a =>
        simp only [applyOp] at hap
        injection hap with hap
        subst hap
        exact stepOk_loadAccountOptional db a false s hdb hpre
      | loadCodeOp a =>
        simp only [applyOp] at hap
        injection hap with hap
        subst hap
        exact stepOk_loadAccountOptional db a true s hdb hpre
      | touchOp a =>
        simp only [applyOp] at hap
        injection hap with hap
        subst hap
        exact stepOk_touchF a s
      | transferOp source dest amount =>
        simp only [applyOp] at hap
        cases htr : transferF db source dest amount s with
        | none =>
          rw [htr] at hap
          cases hap
        | some out =>
          rw [htr] at hap
          injection hap with hap
          subst hap
          refine stepOk_transferF db source dest amount s out hdb hpre htr ?_
          intro hov
          obtain ⟨o1, o2⟩ := out
          simp only at hov
          subst hov
          simp only [opValid, htr] at hv1
          exact Bool.noConfusion hv1
      | createOp caller target value specId =>
        simp only [applyOp] at hap
        cases hcr : createAccountCheckpoint caller target value specId s with
        | none =>
          rw [hcr] at hap
          cases hap
        | some out =>
          rw [hcr] at hap
          injection hap with hap
          subst hap
          refine stepOk_createAccountCheckpoint caller target value specId s out hpre ?_ hcr
          intro acc hacc
          simp only [opValid, hacc, Bool.not_eq_true'] at hv1
          exact hv1
      | selfdestructOp a t =>
        simp only [applyOp] at hap
        cases hsd : selfdestructF db a t s with
        | none =>
          rw [hsd] at hap
          cases hap
        | some out =>
          rw [hsd] at hap
          injection hap with hap
          subst hap
          refine stepOk_selfdestructF db a t s out hdb hpre ?_ hsd
          intro acc hacc
          simp only [opValid, hacc, Bool.not_eq_true'] at hv1
          exact hv1
      | sloadOp a k =>
        simp only [applyOp] at hap
        cases hsl : sloadF db a k s with
        | none =>
          rw [hsl] at hap
          cases hap
        | some out =>
          rw [hsl] at hap
          injection hap with hap
          subst hap
          exact stepOk_sloadF db a k s out hpre hsl
      | sstoreOp a k v =>
        simp only [applyOp] at hap
        cases hss : sstoreF db a k v s with
        | none =>
          rw [hss] at hap
          cases hap
        | some out =>
          rw [hss] at hap
          injection hap with hap
          subst hap
          exact stepOk_sstoreF db a k v s out hpre hss
      | tstoreOp a k v =>
        simp only [applyOp] at hap
        injection hap with hap
        subst hap
        exact stepOk_tstoreF a k v s hpre
      | logOp l =>
        simp only [applyOp] at hap
        injection hap with hap
        subst hap
        exact stepOk_logF l s
    cases hap : applyOp db op s with
    | none =>
      simp only [runOps, hap] at hr
      exact Option.noConfusion hr
    | some smid =>
      simp only [runOps, hap] at hr
      simp only [hap] at hv2
      have hstep := key smid hap
      have hpre2 : PreB smid = true := hstep.2.2.1 hpre
      exact hstep.trans (ih smid s1 hpre2 hv2 hr)

/-- A load of an address warm in the current transaction reports it warm. -/
theorem loadObservesWarm (db : DB) (a : Addr) (wc : Bool) (s : JState)
    (hw : ∃ acc, lookupA s.state a = some acc ∧ acc.cold = false ∧
      acc.transactionId = s.transactionId) :
    (loadAccountOptional db a wc [] s).1 = false := by
  obtain ⟨acc, h, hc, ht⟩ := hw
  have hcold : (acc.cold || acc.transactionId != s.transactionId) = false := by
    simp [hc, ht]
  rw [loadAccountOptional_warm db a wc s acc h hcold]

/-- Loading any address keeps every warm address warm. -/
theorem loadPreservesWarm (db : DB) (b : Addr) (wc : Bool) (a : Addr) (s : JState)
    (hw : ∃ acc, lookupA s.state a = some acc ∧ acc.cold = false ∧
      acc.transactionId = s.transactionId) :
    ∃ acc, lookupA (loadAccountOptional db b wc [] s).2.state a = some acc ∧
      acc.cold = false ∧
      acc.transactionId = (loadAccountOptional db b wc [] s).2.transactionId := by
  obtain ⟨acc, h, hc, ht⟩ := hw
  by_cases hab : a = b
  · subst hab
    have hcold : (acc.cold || acc.transactionId != s.transactionId) = false := by
      simp [hc, ht]
    rw [loadAccountOptional_warm db a wc s acc h hcold]
    obtain ⟨c, hcc⟩ := codeAttach_shape db wc { acc with cold := false, transactionId := s.transactionId }
    refine ⟨codeAttach db wc { acc with cold := false, transactionId := s.transactionId }, ?_, ?_, ?_⟩
    · show lookupA (insertA s.state a (codeAttach db wc { acc with cold := false, transactionId := s.transactionId })) a = _
      rw [lookupA_insertA, if_pos rfl]
    · rw [hcc]
    · rw [hcc]
  · rw [loadAccountOptional_state_other db b wc s a hab]
    exact ⟨acc, h, hc, ht⟩

/-- Refutation of the original C6: a cold address is loaded (observed cold,
marked warm), observed warm by a second load, then a `checkpoint_revert`
replays the `AccountWarmed` entry and a third load in the same transaction
observes it cold again. -/
theorem warm_cold_monotonicity_counterexample :
    (loadAccount dbEmpty 1
      (loadAccount dbEmpty 1 (checkpointF (mkState SpecId.CANCUN [(1, { mkAcc 5 with cold := true })])).2).2).1 = false ∧
    (loadAccount dbEmpty 1
      (checkpointRevert (checkpointF (mkState SpecId.CANCUN [(1, { mkAcc 5 with cold := true })])).1
        (loadAccount dbEmpty 1
          (loadAccount dbEmpty 1 (checkpointF (mkState SpecId.CANCUN [(1, { mkAcc 5 with cold := true })])).2).2).2)).1 = true ∧
    (checkpointRevert (checkpointF (mkState SpecId.CANCUN [(1, { mkAcc 5 with cold := true })])).1
        (loadAccount dbEmpty 1
          (loadAccount dbEmpty 1 (checkpointF (mkState SpecId.CANCUN [(1, { mkAcc 5 with cold := true })])).2).2).2).transactionId =
      (mkState SpecId.CANCUN [(1, { mkAcc 5 with cold := true })]).transactionId := by
  refine ⟨by decide, by decide, by decide⟩

/-- C1 (amended): for a checkpoint `c` taken by `checkpoint()` and any valid
sequence of journaled operations after it, `checkpoint_revert(c)` restores
the logs and the journal exactly, keeps the transaction id and spec, and
restores transient storage to the same contents; the account state is
restored only up to the cache equivalence `AccEq`: every account known
before the checkpoint is still present with its original balance, nonce,
code hash, touched flag, selfdestruction flags, global creation flag and
existence marker; its created-in-this-transaction flag is either restored
or cleared (a revert of a repeated creation clears it unconditionally);
each storage slot whose cache entry is warm in the current transaction
regains its exact value, while a stale (cold) cached slot is either
restored or dropped from the cache together with its cached value, and an
absent slot stays absent; the account cold flags, cache-internal
transaction ids and cached code are unconstrained, and cache entries
created by loads after the checkpoint may survive, so the state is not
byte-identical in general (refuted byte-for-byte by
`checkpoint_revert_state_counterexample`). -/
theorem checkpoint_revert_sound (db : DB) (ops : List Op) (s s1 : JState)
    (hdb : DbOk db) (hpre : PreB s = true)
    (hv : runValid db ops (checkpointF s).2 = true)
    (hr : runOps db ops (checkpointF s).2 = some s1) :
    (checkpointRevert (checkpointF s).1 s1).logs = s.logs ∧
    (checkpointRevert (checkpointF s).1 s1).journal = s.journal ∧
    (checkpointRevert (checkpointF s).1 s1).transactionId = s.transactionId ∧
    (checkpointRevert (checkpointF s).1 s1).spec = s.spec ∧
    (∀ key, lookupA (checkpointRevert (checkpointF s).1 s1).transientStorage key =
      lookupA s.transientStorage key) ∧
    (∀ a acc, lookupA s.state a = some acc →
      ∃ acc2, lookupA (checkpointRevert (checkpointF s).1 s1).state a = some acc2 ∧
        AccEq s.transactionId acc acc2) := by
  have hpre0 : PreB (checkpointF s).2 = true := hpre
  have hstep := runOps_stepOk db hdb ops (checkpointF s).2 s1 hpre0 hv hr
  obtain ⟨htid, hspec, hpp, hlogs0, hj0⟩ := hstep
  obtain ⟨l, hl⟩ := hlogs0
  obtain ⟨d, hd, htr⟩ := hj0
  have hl2 : s1.logs = s.logs ++ l := hl
  have hd2 : s1.journal = s.journal ++ d := hd
  have hdrop : s1.journal.drop s.journal.length = d := by
    rw [hd2]
    simp
  have hz := htr (s1.state, some s1.transientStorage) (strel_refl s1)
  obtain ⟨⟨tt, htt, httk⟩, hacc⟩ := hz
  refine ⟨?_, ?_, htid, hspec, ?_, ?_⟩
  · show s1.logs.take s.logs.length = s.logs
    rw [hl2]
    simp
  · show s1.journal.take s.journal.length = s.journal
    rw [hd2]
    simp
  · intro key
    show lookupA ((revertAll (s1.journal.drop s.journal.length)
        (s1.state, some s1.transientStorage)).2.getD s1.transientStorage) key =
      lookupA s.transientStorage key
    rw [hdrop, htt]
    exact httk key
  · intro a acc h0
    obtain ⟨acc2, hlk, heq⟩ := hacc a acc h0
    refine ⟨acc2, ?_, heq⟩
    show lookupA (revertAll (s1.journal.drop s.journal.length)
        (s1.state, some s1.transientStorage)).1 a = some acc2
    rw [hdrop]
    exact hlk

theorem checkpoint_revert_sound_witness :
    (checkpointRevert (checkpointF (mkState SpecId.CANCUN [])).1
        (checkpointF (mkState SpecId.CANCUN [])).2).logs =
      (mkState SpecId.CANCUN []).logs ∧
    (checkpointRevert (checkpointF (mkState SpecId.CANCUN [])).1
        (checkpointF (mkState SpecId.CANCUN [])).2).journal =
      (mkState SpecId.CANCUN []).journal ∧
    (checkpointRevert (checkpointF (mkState SpecId.CANCUN [])).1
        (checkpointF (mkState SpecId.CANCUN [])).2).transactionId =
      (mkState SpecId.CANCUN []).transactionId ∧
    (checkpointRevert (checkpointF (mkState SpecId.CANCUN [])).1
        (checkpointF (mkState SpecId.CANCUN [])).2).spec =
      (mkState SpecId.CANCUN []).spec ∧
    (∀ key, lookupA (checkpointRevert (checkpointF (mkState SpecId.CANCUN [])).1
        (checkpointF (mkState SpecId.CANCUN [])).2).transientStorage key =
      lookupA (mkState SpecId.CANCUN []).transientStorage key) ∧
    (∀ a acc, lookupA (mkState SpecId.CANCUN []).state a = some acc →
      ∃ acc2, lookupA (checkpointRevert (checkpointF (mkState SpecId.CANCUN [])).1
          (checkpointF (mkState SpecId.CANCUN [])).2).state a = some acc2 ∧
        AccEq (mkState SpecId.CANCUN []).transactionId acc acc2) :=
  checkpoint_revert_sound dbEmpty [] (mkState SpecId.CANCUN [])
    (checkpointF (mkState SpecId.CANCUN [])).2
    (fun a info h => Option.noConfusion h) (by decide) (by decide) rfl

/-- Refutation of the original C1: loading a previously unknown address
between the checkpoint and the revert leaves that address in the account
cache after `checkpoint_revert`, so the state is not byte-identical to the
state at the checkpoint. -/
theorem checkpoint_revert_state_counterexample :
    runValid dbEmpty [Op.loadAccountOp 7] (checkpointF (mkState SpecId.CANCUN [])).2 = true ∧
    runOps dbEmpty [Op.loadAccountOp 7] (checkpointF (mkState SpecId.CANCUN [])).2 =
      some (loadAccount dbEmpty 7 (checkpointF (mkState SpecId.CANCUN [])).2).2 ∧
    lookupA (checkpointRevert (checkpointF (mkState SpecId.CANCUN [])).1
      (loadAccount dbEmpty 7 (checkpointF (mkState SpecId.CANCUN [])).2).2).state 7 ≠ none ∧
    lookupA (mkState SpecId.CANCUN []).state 7 = none := by
  refine ⟨by decide, rfl, by decide, by decide⟩

/-- A cached account warm for transaction `tid`. -/
def WAcc (tid : Nat) (st : AList Addr Account) (a : Addr) : Prop :=
  ∃ acc, lookupA st a = some acc ∧ acc.cold = false ∧ acc.transactionId = tid

/-- A cached storage slot warm for transaction `tid`, on a warm account. -/
def WSlot (tid : Nat) (st : AList Addr Account) (a : Addr) (k : Nat) : Prop :=
  ∃ acc slot, lookupA st a = some acc ∧ acc.cold = false ∧ acc.transactionId = tid ∧
    lookupA acc.storage k = some slot ∧ slot.transactionId = tid

/-- The address is warm in the journal state. -/
def WarmAddr (s : JState) (a : Addr) : Prop := WAcc s.transactionId s.state a

/-- The storage slot is warm in the journal state. -/
def WarmSlot (s : JState) (a : Addr) (k : Nat) : Prop := WSlot s.transactionId s.state a k

/-- Forward warmness preservation between two journal states. -/
def StPreserves (s s1 : JState) : Prop :=
  (∀ a, WarmAddr s a → WarmAddr s1 a) ∧ (∀ a k, WarmSlot s a k → WarmSlot s1 a k)

theorem stPreserves_refl (s : JState) : StPreserves s s :=
  ⟨fun _ h => h, fun _ _ h => h⟩

theorem stPreserves_trans {s s1 s2 : JState} (h1 : StPreserves s s1)
    (h2 : StPreserves s1 s2) : StPreserves s s2 :=
  ⟨fun a h => h2.1 a (h1.1 a h), fun a k h => h2.2 a k (h1.2 a k h)⟩

/-- A step that keeps state and transaction id preserves warmness. -/
theorem stPreserves_of_state (s s1 : JState) (htid : s1.transactionId = s.transactionId)
    (hst : s1.state = s.state) : StPreserves s s1 := by
  constructor
  · intro a h
    show WAcc s1.transactionId s1.state a
    rw [htid, hst]
    exact h
  · intro a k h
    show WSlot s1.transactionId s1.state a k
    rw [htid, hst]
    exact h

theorem wacc_insert {tid : Nat} {st : AList Addr Account} {a : Addr}
    (b : Addr) (accB v : Account)
    (hB : lookupA st b = some accB) (hc : v.cold = accB.cold)
    (ht : v.transactionId = accB.transactionId)
    (hW : WAcc tid st a) : WAcc tid (insertA st b v) a := by
  obtain ⟨acc, ha, hac, hat⟩ := hW
  by_cases hab : a = b
  · subst hab
    rw [hB] at ha
    injection ha with ha
    subst ha
    refine ⟨v, ?_, ?_, ?_⟩
    · rw [lookupA_insertA, if_pos rfl]
    · rw [hc]
      exact hac
    · rw [ht]
      exact hat
  · refine ⟨acc, ?_, hac, hat⟩
    rw [lookupA_insertA, if_neg hab]
    exact ha

theorem wslot_insert {tid : Nat} {st : AList Addr Account} {a : Addr} {k : Nat}
    (b : Addr) (accB v : Account)
    (hB : lookupA st b = some accB) (hc : v.cold = accB.cold)
    (ht : v.transactionId = accB.transactionId)
    (hsto : ∀ k0 slot0, lookupA accB.storage k0 = some slot0 →
      ∃ slot1, lookupA v.storage k0 = some slot1 ∧ (slot1 = slot0 ∨ slot1.transactionId = tid))
    (hW : WSlot tid st a k) : WSlot tid (insertA st b v) a k := by
  obtain ⟨acc, slot, ha, hac, hat, hsl, hstid⟩ := hW
  by_cases hab : a = b
  · subst hab
    rw [hB] at ha
    injection ha with ha
    subst ha
    obtain ⟨slot1, hsl1, hor⟩ := hsto k slot hsl
    refine ⟨v, slot1, ?_, ?_, ?_, hsl1, ?_⟩
    · rw [lookupA_insertA, if_pos rfl]
    · rw [hc]
      exact hac
    · rw [ht]
      exact hat
    · rcases hor with h1 | h1
      · rw [h1]
        exact hstid
      · exact h1
  · refine ⟨acc, slot, ?_, hac, hat, hsl, hstid⟩
    rw [lookupA_insertA, if_neg hab]
    exact ha

/-- Inserting a rewrite of a present account that keeps its cold flag and
cache transaction id, and keeps or warms its slots, preserves warmness. -/
theorem stPreserves_insert (s s1 : JState) (b : Addr) (accB v : Account)
    (hB : lookupA s.state b = some accB)
    (htid : s1.transactionId = s.transactionId)
    (hst : s1.state = insertA s.state b v)
    (hc : v.cold = accB.cold) (ht : v.transactionId = accB.transactionId)
    (hsto : ∀ k0 slot0, lookupA accB.storage k0 = some slot0 →
      ∃ slot1, lookupA v.storage k0 = some slot1 ∧
        (slot1 = slot0 ∨ slot1.transactionId = s.transactionId)) :
    StPreserves s s1 := by
  constructor
  · intro a hW
    show WAcc s1.transactionId s1.state a
    rw [htid, hst]
    exact wacc_insert b accB v hB hc ht hW
  · intro a k hW
    show WSlot s1.transactionId s1.state a k
    rw [htid, hst]
    exact wslot_insert b accB v hB hc ht hsto hW

theorem touchAccount_cold (j : List Entry) (a : Addr) (acc : Account) :
    (touchAccount j a acc).2.cold = acc.cold := by
  unfold touchAccount
  split <;> rfl

theorem touchAccount_tid (j : List Entry) (a : Addr) (acc : Account) :
    (touchAccount j a acc).2.transactionId = acc.transactionId := by
  unfold touchAccount
  split <;> rfl

theorem touchAccount_storage (j : List Entry) (a : Addr) (acc : Account) :
    (touchAccount j a acc).2.storage = acc.storage := by
  unfold touchAccount
  split <;> rfl

/-- Loading any address preserves all warmness. -/
theorem stPreserves_load (db : DB) (b : Addr) (wc : Bool) (s : JState) :
    StPreserves s (loadAccountOptional db b wc [] s).2 := by
  constructor
  · intro a hW
    obtain ⟨acc, ha, hac, hat⟩ := hW
    by_cases hab : a = b
    · subst hab
      have hcold : (acc.cold || acc.transactionId != s.transactionId) = false := by
        simp [hac, hat]
      rw [loadAccountOptional_warm db a wc s acc ha hcold]
      obtain ⟨c, hcc⟩ := codeAttach_shape db wc { acc with cold := false, transactionId := s.transactionId }
      show WAcc s.transactionId (insertA s.state a (codeAttach db wc { acc with cold := false, transactionId := s.transactionId })) a
      refine ⟨codeAttach db wc { acc with cold := false, transactionId := s.transactionId }, ?_, ?_, ?_⟩
      · rw [lookupA_insertA, if_pos rfl]
      · rw [hcc]
      · rw [hcc]
    · show WAcc s.transactionId (loadAccountOptional db b wc [] s).2.state a
      refine ⟨acc, ?_, hac, hat⟩
      rw [loadAccountOptional_state_other db b wc s a hab]
      exact ha
  · intro a k hW
    obtain ⟨acc, slot, ha, hac, hat, hsl, hstid⟩ := hW
    by_cases hab : a = b
    · subst hab
      have hcold : (acc.cold || acc.transactionId != s.transactionId) = false := by
        simp [hac, hat]
      rw [loadAccountOptional_warm db a wc s acc ha hcold]
      obtain ⟨c, hcc⟩ := codeAttach_shape db wc { acc with cold := false, transactionId := s.transactionId }
      show WSlot s.transactionId (insertA s.state a (codeAttach db wc { acc with cold := false, transactionId := s.transactionId })) a k
      refine ⟨codeAttach db wc { acc with cold := false, transactionId := s.transactionId }, slot, ?_, ?_, ?_, ?_, hstid⟩
      · rw [lookupA_insertA, if_pos rfl]
      · rw [hcc]
      · rw [hcc]
      · rw [hcc]
        exact hsl
    · show WSlot s.transactionId (loadAccountOptional db b wc [] s).2.state a k
      refine ⟨acc, slot, ?_, hac, hat, hsl, hstid⟩
      rw [loadAccountOptional_state_other db b wc s a hab]
      exact ha

/-- Touching any address preserves all warmness. -/
theorem stPreserves_touchF (b : Addr) (s : JState) : StPreserves s (touchF b s) := by
  cases h : lookupA s.state b with
  | none =>
    unfold touchF
    rw [h]
    exact stPreserves_refl s
  | some accB =>
    unfold touchF
    rw [h]
    exact stPreserves_insert s _ b accB (touchAccount s.journal b accB).2 h rfl rfl
      (touchAccount_cold _ _ _) (touchAccount_tid _ _ _)
      (fun k0 slot0 h0 => ⟨slot0, by rw [touchAccount_storage]; exact h0, Or.inl rfl⟩)

/-- The account rewritten by `sload_with_account`: cold flag and cache tx id
kept; each cached slot kept, except the accessed key which is warmed. -/
theorem sloadWithAccount_account (db : DB) (tid : Nat) (b : Addr) (kk : Nat)
    (acc : Account) (j : List Entry) :
    (sloadWithAccount db tid b kk acc j).account.cold = acc.cold ∧
    (sloadWithAccount db tid b kk acc j).account.transactionId = acc.transactionId ∧
    ∀ k0 slot0, lookupA acc.storage k0 = some slot0 →
      ∃ slot1, lookupA (sloadWithAccount db tid b kk acc j).account.storage k0 = some slot1 ∧
        (slot1 = slot0 ∨ slot1.transactionId = tid) := by
  unfold sloadWithAccount
  cases hs : lookupA acc.storage kk with
  | some slot =>
    refine ⟨rfl, rfl, ?_⟩
    intro k0 slot0 h0
    by_cases hk : k0 = kk
    · subst hk
      refine ⟨{ slot with transactionId := tid }, ?_, Or.inr rfl⟩
      show lookupA (insertA acc.storage k0 { slot with transactionId := tid }) k0 = _
      rw [lookupA_insertA, if_pos rfl]
    · refine ⟨slot0, ?_, Or.inl rfl⟩
      show lookupA (insertA acc.storage kk { slot with transactionId := tid }) k0 = _
      rw [lookupA_insertA, if_neg hk]
      exact h0
  | none =>
    refine ⟨rfl, rfl, ?_⟩
    intro k0 slot0 h0
    by_cases hk : k0 = kk
    · subst hk
      rw [h0] at hs
      cases hs
    · refine ⟨slot0, ?_, Or.inl rfl⟩
      show lookupA (insertA acc.storage kk _) k0 = _
      rw [lookupA_insertA, if_neg hk]
      exact h0

/-- `sload` preserves all warmness. -/
theorem sloadF_preserves (db : DB) (b : Addr) (kk : Nat) (s : JState)
    (out : Nat × Bool × JState) (h : sloadF db b kk s = some out) :
    StPreserves s out.2.2 := by
  cases ha : lookupA s.state b with
  | none =>
    unfold sloadF at h
    rw [ha] at h
    cases h
  | some acc =>
    unfold sloadF at h
    rw [ha] at h
    injection h with h
    subst h
    obtain ⟨hc, ht, hsto⟩ := sloadWithAccount_account db s.transactionId b kk acc s.journal
    exact stPreserves_insert s _ b acc
      (sloadWithAccount db s.transactionId b kk acc s.journal).account ha rfl rfl hc ht hsto

/-- An `sload` of a warm slot observes it warm. -/
theorem warmSlot_sload (db : DB) (a : Addr) (k : Nat) (s : JState)
    (hW : WarmSlot s a k) :
    ∃ out, sloadF db a k s = some out ∧ out.2.1 = false := by
  obtain ⟨acc, slot, ha, hac, hat, hsl, hstid⟩ := hW
  unfold sloadF
  rw [ha]
  refine ⟨_, rfl, ?_⟩
  show (sloadWithAccount db s.transactionId a k acc s.journal).isCold = false
  unfold sloadWithAccount
  rw [hsl]
  show (slot.transactionId != s.transactionId) = false
  simp [hstid]

theorem stPreserves_of_wpres (s s1 : JState) (htid : s1.transactionId = s.transactionId)
    (hA : ∀ a, WAcc s.transactionId s.state a → WAcc s.transactionId s1.state a)
    (hS : ∀ a k, WSlot s.transactionId s.state a k → WSlot s.transactionId s1.state a k) :
    StPreserves s s1 := by
  constructor
  · intro a h
    show WAcc s1.transactionId s1.state a
    rw [htid]
    exact hA a h
  · intro a k h
    show WSlot s1.transactionId s1.state a k
    rw [htid]
    exact hS a k h

/-- `transfer` preserves all warmness on every path. -/
theorem transferF_preserves (db : DB) (source dest : Addr) (amount : Nat) (s : JState)
    (out : Option TransferError × JState)
    (h : transferF db source dest amount s = some out) : StPreserves s out.2 := by
  by_cases hamt : amount = 0
  · subst hamt
    cases hT : lookupA (loadAccount db dest s).2.state dest with
    | none =>
      unfold transferF at h
      simp [hT] at h
    | some accT =>
      rw [transferF_zero db source dest s accT hT] at h
      injection h with h1
      subst h1
      exact stPreserves_trans (stPreserves_load db dest false s)
        (stPreserves_touchF dest (loadAccount db dest s).2)
  · have hld : StPreserves s (loadAccount db dest (loadAccount db source s).2).2 :=
      stPreserves_trans (stPreserves_load db source false s)
        (stPreserves_load db dest false (loadAccount db source s).2)
    cases hF : lookupA (loadAccount db dest (loadAccount db source s).2).2.state source with
    | none =>
      unfold transferF at h
      simp [hamt, hF] at h
    | some accF =>
      by_cases hsub : amount ≤ accF.info.balance
      · cases hT : lookupA (insertA (loadAccount db dest (loadAccount db source s).2).2.state source
            { accF with touched := true, info := { accF.info with balance := accF.info.balance - amount } }) dest with
        | none =>
          unfold transferF at h
          simp [hamt, hF, touchAccount_eq, checkedSub, hsub, hT] at h
        | some accT =>
          have hB1 : lookupA (insertA (loadAccount db dest (loadAccount db source s).2).2.state source { accF with touched := true }) source = some ({ accF with touched := true } : Account) := by
            rw [lookupA_insertA, if_pos rfl]
          have hB2 : lookupA (insertA (insertA (loadAccount db dest (loadAccount db source s).2).2.state source { accF with touched := true }) source { accF with touched := true, info := { accF.info with balance := accF.info.balance - amount } }) dest = some accT := by
            rw [insertA_insertA]
            exact hT
          by_cases hadd : accT.info.balance + amount < u256Limit
          · rw [transferF_ok db source dest amount s _ accF accT hamt rfl hF hsub hT hadd] at h
            injection h with h1
            subst h1
            refine stPreserves_trans hld (stPreserves_of_wpres _ _ rfl ?_ ?_)
            · intro a ha
              exact wacc_insert dest accT _ hB2 rfl rfl
                (wacc_insert source { accF with touched := true } _ hB1 rfl rfl
                  (wacc_insert source accF _ hF rfl rfl ha))
            · intro a k hk
              exact wslot_insert dest accT _ hB2 rfl rfl
                  (fun k0 slot0 h0 => ⟨slot0, h0, Or.inl rfl⟩)
                (wslot_insert source { accF with touched := true } _ hB1 rfl rfl
                    (fun k0 slot0 h0 => ⟨slot0, h0, Or.inl rfl⟩)
                  (wslot_insert source accF _ hF rfl rfl
                    (fun k0 slot0 h0 => ⟨slot0, h0, Or.inl rfl⟩) hk))
          · rw [transferF_overflow db source dest amount s _ accF accT hamt rfl hF hsub hT hadd] at h
            injection h with h1
            subst h1
            refine stPreserves_trans hld (stPreserves_of_wpres _ _ rfl ?_ ?_)
            · intro a ha
              exact wacc_insert dest accT _ hT rfl rfl
                (wacc_insert source accF _ hF rfl rfl ha)
            · intro a k hk
              exact wslot_insert dest accT _ hT rfl rfl
                  (fun k0 slot0 h0 => ⟨slot0, h0, Or.inl rfl⟩)
                (wslot_insert source accF _ hF rfl rfl
                  (fun k0 slot0 h0 => ⟨slot0, h0, Or.inl rfl⟩) hk)
      · have hsubn : checkedSub accF.info.balance amount = none := by
          unfold checkedSub
          rw [if_neg hsub]
        rw [transferF_oof db source dest amount s accF hamt hF hsubn] at h
        injection h with h1
        subst h1
        exact stPreserves_trans hld
          (stPreserves_touchF source (loadAccount db dest (loadAccount db source s).2).2)

/-- `create_account_checkpoint` preserves all warmness on every path. -/
theorem createAccountCheckpoint_preserves (caller target : Addr) (value : Nat)
    (specId : SpecId) (s : JState) (out : Except TransferError JournalCheckpoint × JState)
    (h : createAccountCheckpoint caller target value specId s = some out) :
    StPreserves s out.2 := by
  cases hC : lookupA s.state caller with
  | none =>
    unfold createAccountCheckpoint at h
    simp only [checkpointF] at h
    simp [hC] at h
  | some accC =>
  by_cases hb : accC.info.balance < value
  · rw [createAccountCheckpoint_oof caller target value specId s accC hC hb] at h
    injection h with h1
    subst h1
    exact stPreserves_refl s
  · cases hT : lookupA s.state target with
    | none =>
      unfold createAccountCheckpoint at h
      simp only [checkpointF] at h
      simp [hC, hb, hT] at h
    | some accT =>
    by_cases hcol : accT.info.codeHash ≠ keccakEmpty ∨ accT.info.nonce ≠ 0
    · rw [createAccountCheckpoint_collision caller target value specId s accC accT hC hb hT hcol] at h
      injection h with h1
      subst h1
      exact stPreserves_refl s
    · by_cases hadd : accT.info.balance + value < u256Limit
      · by_cases hct : caller = target
        · subst hct
          rw [hC] at hT
          injection hT with hTT
          subst hTT
          have hC1 : lookupA (insertA s.state caller { accC with createdLocally := true, createdGlobally := true, touched := true, info := { accC.info with code := none, nonce := (if specId.is_enabled_in SpecId.SPURIOUS_DRAGON then 1 else accC.info.nonce), balance := accC.info.balance + value } }) caller = some { accC with createdLocally := true, createdGlobally := true, touched := true, info := { accC.info with code := none, nonce := (if specId.is_enabled_in SpecId.SPURIOUS_DRAGON then 1 else accC.info.nonce), balance := accC.info.balance + value } } := by
            rw [lookupA_insertA, if_pos rfl]
          rw [createAccountCheckpoint_ok caller caller value specId s accC accC _ hC hb hC hcol hadd hC1] at h
          injection h with h1
          subst h1
          refine stPreserves_of_wpres _ _ rfl ?_ ?_
          · intro a ha
            exact wacc_insert caller _ _ hC1 rfl rfl
              (wacc_insert caller accC _ hC rfl rfl ha)
          · intro a k hk
            exact wslot_insert caller _ _ hC1 rfl rfl
                (fun k0 slot0 h0 => ⟨slot0, h0, Or.inl rfl⟩)
              (wslot_insert caller accC _ hC rfl rfl
                (fun k0 slot0 h0 => ⟨slot0, h0, Or.inl rfl⟩) hk)
        · have hC1 : lookupA (insertA s.state target { accT with createdLocally := true, createdGlobally := true, touched := true, info := { accT.info with code := none, nonce := (if specId.is_enabled_in SpecId.SPURIOUS_DRAGON then 1 else accT.info.nonce), balance := accT.info.balance + value } }) caller = some accC := by
            rw [lookupA_insertA, if_neg hct]
            exact hC
          rw [createAccountCheckpoint_ok caller target value specId s accC accT accC hC hb hT hcol hadd hC1] at h
          injection h with h1
          subst h1
          refine stPreserves_of_wpres _ _ rfl ?_ ?_
          · intro a ha
            exact wacc_insert caller accC _ hC1 rfl rfl
              (wacc_insert target accT _ hT rfl rfl ha)
          · intro a k hk
            exact wslot_insert caller accC _ hC1 rfl rfl
                (fun k0 slot0 h0 => ⟨slot0, h0, Or.inl rfl⟩)
              (wslot_insert target accT _ hT rfl rfl
                (fun k0 slot0 h0 => ⟨slot0, h0, Or.inl rfl⟩) hk)
      · rw [createAccountCheckpoint_overflow caller target value specId s accC accT hC hb hT hcol hadd] at h
        injection h with h1
        subst h1
        by_cases htT : accT.touched = true
        · rw [htT]
          simp only [if_true]
          have hX : checkpointRevert { logI := s.logs.length, journalI := s.journal.length }
              { s with depth := s.depth + 1, journal := (s.journal ++ [Entry.accountCreated target accT.createdGlobally]) ++ [], state := insertA s.state target { accT with createdLocally := true, createdGlobally := true, touched := true, info := { accT.info with code := none, nonce := (if specId.is_enabled_in SpecId.SPURIOUS_DRAGON then 1 else accT.info.nonce) } } } =
              { s with depth := s.depth + 1 - 1, state := insertA s.state target { accT with createdLocally := false, createdGlobally := (if accT.createdGlobally then true else false), touched := true, info := { accT.info with code := none, nonce := 0 } } } := by
            unfold checkpointRevert
            simp [revertAll, revertEntry_created, modifyA_insertA, List.take_left, List.drop_left]
          rw [hX]
          refine stPreserves_of_wpres _ _ rfl ?_ ?_
          · intro a ha
            exact wacc_insert target accT _ hT rfl rfl ha
          · intro a k hk
            exact wslot_insert target accT _ hT rfl rfl
              (fun k0 slot0 h0 => ⟨slot0, h0, Or.inl rfl⟩) hk
        · rw [Bool.not_eq_true] at htT
          rw [htT]
          simp only [Bool.false_eq_true, if_false]
          have hX : checkpointRevert { logI := s.logs.length, journalI := s.journal.length }
              { s with depth := s.depth + 1, journal := (s.journal ++ [Entry.accountCreated target accT.createdGlobally]) ++ [Entry.accountTouched target], state := insertA s.state target { accT with createdLocally := true, createdGlobally := true, touched := true, info := { accT.info with code := none, nonce := (if specId.is_enabled_in SpecId.SPURIOUS_DRAGON then 1 else accT.info.nonce) } } } =
              { s with depth := s.depth + 1 - 1, state := insertA s.state target { accT with createdLocally := false, createdGlobally := (if accT.createdGlobally then true else false), touched := false, info := { accT.info with code := none, nonce := 0 } } } := by
            unfold checkpointRevert
            simp [revertAll, revertEntry, revertEntry_created, modifyA_insertA, List.take_left, List.drop_left]
          rw [hX]
          refine stPreserves_of_wpres _ _ rfl ?_ ?_
          · intro a ha
            exact wacc_insert target accT _ hT rfl rfl ha
          · intro a k hk
            exact wslot_insert target accT _ hT rfl rfl
              (fun k0 slot0 h0 => ⟨slot0, h0, Or.inl rfl⟩) hk

/-- `selfdestruct` preserves all warmness on every path. -/
theorem selfdestructF_preserves (db : DB) (a0 t : Addr) (s : JState)
    (out : SelfDestructResult × Bool × JState)
    (h : selfdestructF db a0 t s = some out) : StPreserves s out.2.2 := by
  have hld : StPreserves s (loadAccount db t s).2 := stPreserves_load db t false s
  by_cases hat : a0 = t
  · subst hat
    obtain ⟨accT, hT⟩ := loadAccountOptional_state_self db a0 false s
    have hT2 : lookupA (loadAccount db a0 s).2.state a0 = some accT := hT
    by_cases hdes : accT.createdLocally = true ∨ s.spec.is_enabled_in SpecId.CANCUN = false
    · rw [selfdestructF_self_destroy db a0 s _ accT rfl hT2 hdes] at h
      injection h with h1
      subst h1
      refine stPreserves_trans hld (stPreserves_of_wpres _ _ rfl ?_ ?_)
      · intro a ha
        exact wacc_insert a0 accT _ hT2 rfl rfl ha
      · intro a k hk
        exact wslot_insert a0 accT _ hT2 rfl rfl
          (fun k0 slot0 h0 => ⟨slot0, h0, Or.inl rfl⟩) hk
    · rw [selfdestructF_self_keep db a0 s _ accT rfl hT2 hdes] at h
      injection h with h1
      subst h1
      exact hld
  · cases hT : lookupA (loadAccount db t s).2.state t with
    | none =>
      unfold selfdestructF at h
      simp [hT] at h
    | some accT =>
      cases hA : lookupA (loadAccount db t s).2.state a0 with
      | none =>
        unfold selfdestructF at h
        simp [hT, hat, hA] at h
      | some accA =>
        have hB2 : lookupA (insertA (loadAccount db t s).2.state t { accT with touched := true, info := { accT.info with balance := wrapAdd accT.info.balance accA.info.balance } }) a0 = some accA := by
          rw [lookupA_insertA, if_neg hat]
          exact hA
        by_cases hdes : accA.createdLocally = true ∨ s.spec.is_enabled_in SpecId.CANCUN = false
        · rw [selfdestructF_other_destroy db a0 t s _ accA accT hat rfl hT hA hdes] at h
          injection h with h1
          subst h1
          refine stPreserves_trans hld (stPreserves_of_wpres _ _ rfl ?_ ?_)
          · intro a ha
            exact wacc_insert a0 accA _ hB2 rfl rfl
              (wacc_insert t accT _ hT rfl rfl ha)
          · intro a k hk
            exact wslot_insert a0 accA _ hB2 rfl rfl
                (fun k0 slot0 h0 => ⟨slot0, h0, Or.inl rfl⟩)
              (wslot_insert t accT _ hT rfl rfl
                (fun k0 slot0 h0 => ⟨slot0, h0, Or.inl rfl⟩) hk)
        · rw [selfdestructF_other_transfer db a0 t s _ accA accT hat rfl hT hA hdes] at h
          injection h with h1
          subst h1
          refine stPreserves_trans hld (stPreserves_of_wpres _ _ rfl ?_ ?_)
          · intro a ha
            exact wacc_insert a0 accA _ hB2 rfl rfl
              (wacc_insert t accT _ hT rfl rfl ha)
          · intro a k hk
            exact wslot_insert a0 accA _ hB2 rfl rfl
                (fun k0 slot0 h0 => ⟨slot0, h0, Or.inl rfl⟩)
              (wslot_insert t accT _ hT rfl rfl
                (fun k0 slot0 h0 => ⟨slot0, h0, Or.inl rfl⟩) hk)

/-- `sstore` preserves all warmness on every path. -/
theorem sstoreF_preserves (db : DB) (b : Addr) (kk new : Nat) (s : JState)
    (out : SStoreResult × Bool × JState) (h : sstoreF db b kk new s = some out) :
    StPreserves s out.2.2 := by
  unfold sstoreF at h
  split at h
  · cases h
  · rename_i present isCold sA hsl
    have hpres := sloadF_preserves db b kk s (present, isCold, sA) hsl
    split at h
    · cases h
    · rename_i acc hacc
      split at h
      · cases h
      · rename_i slot hslot
        split at h
        · injection h with h1
          subst h1
          exact hpres
        · injection h with h1
          subst h1
          refine stPreserves_trans hpres ?_
          obtain ⟨htidA, acc', slot', hacc', hslot', hval, hstid⟩ :=
            sloadF_slot db b kk s present isCold sA hsl
          rw [hacc] at hacc'
          injection hacc' with hacc'
          subst hacc'
          rw [hslot] at hslot'
          injection hslot' with hslot'
          subst hslot'
          refine stPreserves_of_wpres _ _ rfl ?_ ?_
          · intro a ha
            exact wacc_insert b acc _ hacc rfl rfl ha
          · intro a k hk
            refine wslot_insert b acc _ hacc rfl rfl ?_ hk
            intro k0 slot0 h0
            by_cases hkk : k0 = kk
            · subst hkk
              refine ⟨{ slot with presentValue := new }, ?_, Or.inr ?_⟩
              · show lookupA (insertA acc.storage k0 { slot with presentValue := new }) k0 = _
                rw [lookupA_insertA, if_pos rfl]
              · show slot.transactionId = sA.transactionId
                rw [hstid, htidA]
            · refine ⟨slot0, ?_, Or.inl rfl⟩
              show lookupA (insertA acc.storage kk { slot with presentValue := new }) k0 = _
              rw [lookupA_insertA, if_neg hkk]
              exact h0

theorem tstoreF_same (a : Addr) (k v : Nat) (s : JState) :
    (tstoreF a k v s).state = s.state ∧ (tstoreF a k v s).transactionId = s.transactionId := by
  unfold tstoreF
  split
  · split <;> exact ⟨rfl, rfl⟩
  · dsimp only
    split <;> exact ⟨rfl, rfl⟩

/-- Every journaled operation preserves all warmness. -/
theorem applyOp_preserves (db : DB) (op : Op) (s s1 : JState)
    (h : applyOp db op s = some s1) : StPreserves s s1 := by
  cases op with
  | loadAccountOp b =>
    simp only [applyOp] at h
    injection h with h
    subst h
    exact stPreserves_load db b false s
  | loadCodeOp b =>
    simp only [applyOp] at h
    injection h with h
    subst h
    exact stPreserves_load db b true s
  | touchOp b =>
    simp only [applyOp] at h
    injection h with h
    subst h
    exact stPreserves_touchF b s
  | transferOp source dest amount =>
    simp only [applyOp] at h
    cases htr : transferF db source dest amount s with
    | none =>
      rw [htr] at h
      cases h
    | some out =>
      rw [htr] at h
      injection h with h
      subst h
      exact transferF_preserves db source dest amount s out htr
  | createOp caller target value specId =>
    simp only [applyOp] at h
    cases hcr : createAccountCheckpoint caller target value specId s with
    | none =>
      rw [hcr] at h
      cases h
    | some out =>
      rw [hcr] at h
      injection h with h
      subst h
      exact createAccountCheckpoint_preserves caller target value specId s out hcr
  | selfdestructOp x y =>
    simp only [applyOp] at h
    cases hsd : selfdestructF db x y s with
    | none =>
      rw [hsd] at h
      cases h
    | some out =>
      rw [hsd] at h
      injection h with h
      subst h
      exact selfdestructF_preserves db x y s out hsd
  | sloadOp x y =>
    simp only [applyOp] at h
    cases hsl : sloadF db x y s with
    | none =>
      rw [hsl] at h
      cases h
    | some out =>
      rw [hsl] at h
      injection h with h
      subst h
      exact sloadF_preserves db x y s out hsl
  | sstoreOp x y z =>
    simp only [applyOp] at h
    cases hss : sstoreF db x y z s with
    | none =>
      rw [hss] at h
      cases h
    | some out =>
      rw [hss] at h
      injection h with h
      subst h
      exact sstoreF_preserves db x y z s out hss
  | tstoreOp x y z =>
    simp only [applyOp] at h
    injection h with h
    subst h
    obtain ⟨hs, ht⟩ := tstoreF_same x y z s
    exact stPreserves_of_state s _ ht hs
  | logOp l =>
    simp only [applyOp] at h
    injection h with h
    subst h
    exact stPreserves_of_state s _ rfl rfl

/-- Any run of journaled operations preserves all warmness. -/
theorem runOps_preserves (db : DB) :
    ∀ ops s s1, runOps db ops s = some s1 → StPreserves s s1 := by
  intro ops
  induction ops with
  | nil =>
    intro s s1 hr
    simp only [runOps] at hr
    injection hr with h1
    subst h1
    exact stPreserves_refl s
  | cons op rest ih =>
    intro s s1 hr
    cases hap : applyOp db op s with
    | none =>
      simp only [runOps, hap] at hr
      exact Option.noConfusion hr
    | some smid =>
      simp only [runOps, hap] at hr
      exact stPreserves_trans (applyOp_preserves db op s smid hap) (ih smid s1 hr)

/-- C6 (amended): within a single transaction, once an address is warm
(cached with its cold flag clear and the current transaction id) or a
storage slot is warm (cached with the current transaction id on a warm
account), any sequence of journaled operations that contains no
`checkpoint_revert` keeps it warm, and a subsequent `load_account`
(respectively `sload`) observes it warm. The original claim, which also
covers `checkpoint_revert` steps, is refuted by
`warm_cold_monotonicity_counterexample`: a revert replays `AccountWarmed`
entries and re-marks the address cold within the same transaction. -/
theorem warm_cold_monotone (db : DB) (ops : List Op) (s s1 : JState)
    (hr : runOps db ops s = some s1) :
    (∀ a, WarmAddr s a → WarmAddr s1 a ∧ (loadAccount db a s1).1 = false) ∧
    (∀ a k, WarmSlot s a k → WarmSlot s1 a k ∧
      ∃ out, sloadF db a k s1 = some out ∧ out.2.1 = false) := by
  have hp := runOps_preserves db ops s s1 hr
  constructor
  · intro a hW
    have h1 := hp.1 a hW
    exact ⟨h1, loadObservesWarm db a false s1 h1⟩
  · intro a k hW
    have h1 := hp.2 a k hW
    exact ⟨h1, warmSlot_sload db a k s1 h1⟩

theorem warm_cold_monotone_witness :
    (WarmAddr (loadAccount dbEmpty 2 (mkState SpecId.CANCUN [(1, { mkAcc 5 with storage := [(3, EvmStorageSlot.new 7 0)] })])).2 1 ∧
      (loadAccount dbEmpty 1 (loadAccount dbEmpty 2 (mkState SpecId.CANCUN [(1, { mkAcc 5 with storage := [(3, EvmStorageSlot.new 7 0)] })])).2).1 = false) ∧
    (WarmSlot (loadAccount dbEmpty 2 (mkState SpecId.CANCUN [(1, { mkAcc 5 with storage := [(3, EvmStorageSlot.new 7 0)] })])).2 1 3 ∧
      ∃ out, sloadF dbEmpty 1 3 (loadAccount dbEmpty 2 (mkState SpecId.CANCUN [(1, { mkAcc 5 with storage := [(3, EvmStorageSlot.new 7 0)] })])).2 = some out ∧
        out.2.1 = false) :=
  ⟨(warm_cold_monotone dbEmpty [Op.loadAccountOp 2]
      (mkState SpecId.CANCUN [(1, { mkAcc 5 with storage := [(3, EvmStorageSlot.new 7 0)] })])
      (loadAccount dbEmpty 2 (mkState SpecId.CANCUN [(1, { mkAcc 5 with storage := [(3, EvmStorageSlot.new 7 0)] })])).2 rfl).1 1
    ⟨{ mkAcc 5 with storage := [(3, EvmStorageSlot.new 7 0)] }, by decide, by decide, by decide⟩,
   (warm_cold_monotone dbEmpty [Op.loadAccountOp 2]
      (mkState SpecId.CANCUN [(1, { mkAcc 5 with storage := [(3, EvmStorageSlot.new 7 0)] })])
      (loadAccount dbEmpty 2 (mkState SpecId.CANCUN [(1, { mkAcc 5 with storage := [(3, EvmStorageSlot.new 7 0)] })])).2 rfl).2 1 3
    ⟨{ mkAcc 5 with storage := [(3, EvmStorageSlot.new 7 0)] }, EvmStorageSlot.new 7 0,
      by decide, by decide, by decide, by decide, by decide⟩⟩

end Revm
